import Mathlib

/-!
The userspace daemon `cifsd` of cifsd-tools, companion of the in-kernel CIFS server.

A shallow embedding of `cifsd/pipecb.c` (client/pipe registry, pipe request
dispatcher, completion-filter translation, change notification) and of
`cifsd/cifsd.c` (`config_users`, the share configuration, `config_shares`),
followed by theorems about them.

Conventions of the embedding.

* A kernel `list_head` list is a Lean `List` in traversal order
  (`list_for_each` order); `list_add` inserts at the front.
* A pointer into a list is the first element a traversal finds, which is how
  each pointer of the source is obtained; a write through the pointer rewrites
  that element in place.
* What the daemon cannot decide by itself is an explicit argument: the outcome
  of every `calloc`/`malloc`, the values returned by the RPC collaborator
  (`process_rpc`, `process_rpc_rsp`, `handle_lanman_pipe`), by the kernel link
  (`cifsd_common_sendmsg`, `nl_handle_event`) and by the host account
  database (`getpwnam`).
* What a handler does to the outside world is recorded in a trace of
  `Effect`s, in program order.
* `assert` failing aborts the process and `exit` ends it; both are outcomes.
* A call with no defined result (a `NULL` dereference, a read past a buffer)
  is an outcome of its own, and a loop that may not end takes a bound on its
  number of turns and tells when the bound is spent.
-/

namespace Cifsd

/-! ## Constants -/

/-- Linux errno value `ENOENT`. -/
def ENOENT : Int := 2

/-- Linux errno value `ENOMEM`. -/
def ENOMEM : Int := 12

/-- Linux errno value `EINVAL`. -/
def EINVAL : Int := 22

/-- Modelled from the spec: `CIFSD_CODEPAGE_LEN` of the absent header `cifsd.h`;
the spec gives the wire field as `codepage[32]`. -/
def CIFSD_CODEPAGE_LEN : Nat := 32

/-- Modelled from the spec: `CIFSD_USERNAME_LEN` of the absent header `cifsd.h`;
the spec gives the wire field as `username[32]`. -/
def CIFSD_USERNAME_LEN : Nat := 32

/-- The NUL character that ends a C string. -/
def NUL : Char := Char.ofNat 0

/-- The C string held in a character array: the characters before the first NUL. -/
def c_str (a : List Char) : List Char :=
  a.takeWhile (fun c => c != NUL)

/-- The library call `strlen`. -/
def strlen (a : List Char) : Nat :=
  (c_str a).length

/-- The string left by `strncpy(dst, src, n)` in a zero-filled `dst` that is
longer than `n`: at most `n` characters of the C string `src`. -/
def strncpy (src : List Char) (n : Nat) : List Char :=
  (c_str src).take n

/-- Conversion of a C `int` to an unsigned 32-bit field. -/
def to_u32 (i : Int) : Nat :=
  (i % 4294967296).toNat

/-! ## Data model (`struct cifsd_pipe`, `struct cifsd_client_info`, `struct cifsd_uevent`) -/

/-- The fields of `struct cifsd_pipe` that `pipecb.c` reads or writes. -/
structure cifsd_pipe where
  pipe_type : Nat
  codepage : List Char
  username : List Char
deriving DecidableEq, Repr

/-- A client record `struct cifsd_client_info`: the server handle and the list of its pipes. -/
structure cifsd_client_info where
  hash : Nat
  pipelist : List cifsd_pipe
deriving DecidableEq, Repr

/-- The global list `cifsd_clients`. -/
abbrev Registry := List cifsd_client_info

/-- The message types (`nlmsg_type`, `cifsd_uevent.type`) named in the two source files. -/
inductive msg_type where
  | CIFSD_KEVENT_CREATE_PIPE
  | CIFSD_KEVENT_DESTROY_PIPE
  | CIFSD_KEVENT_READ_PIPE
  | CIFSD_KEVENT_WRITE_PIPE
  | CIFSD_KEVENT_IOCTL_PIPE
  | CIFSD_KEVENT_LANMAN_PIPE
  | CFISD_KEVENT_USER_DAEMON_EXIST
  | CIFSD_KEVENT_INOTIFY_REQUEST
  | CIFSD_KEVENT_CONFIG_USER
  | CIFSD_KEVENT_CONFIG_SHARE
  | CIFSD_UEVENT_CONFIG_USER_RSP
  | CIFSD_UEVENT_CONFIG_SHARE_RSP
  | CIFSD_UEVENT_READ_PIPE_RSP
  | CIFSD_UEVENT_WRITE_PIPE_RSP
  | CIFSD_UEVENT_IOCTL_PIPE_RSP
  | CIFSD_UEVENT_LANMAN_PIPE_RSP
  | CIFSD_UEVENT_INOTIFY_RESPONSE
  | other (n : Nat)
deriving DecidableEq, Repr

/-- An inbound message: `nlmsg_type` and the fields of `struct cifsd_uevent`
that the handlers read. `out_buflen`, `codepage` and `username` are the
members of the per-request union `k`. -/
structure kevent where
  nlmsg_type : msg_type
  server_handle : Nat
  pipe_type : Nat
  buflen : Nat
  out_buflen : Nat
  codepage : List Char
  username : List Char
  buffer : List Char
deriving DecidableEq, Repr

/-- An outbound header: the fields of `struct cifsd_uevent` that the daemon
writes. `type` is `none` and every other field is zero after
`memset(&ev, 0, sizeof(ev))`. -/
structure cifsd_uevent where
  type : Option msg_type
  error : Int
  server_handle : Nat
  pipe_type : Nat
  buflen : Nat
  read_count : Nat
  write_count : Nat
  data_count : Nat
  param_count : Nat
deriving DecidableEq, Repr

/-- The header after `memset(&rsp_ev, 0, sizeof(rsp_ev))`. -/
def uevent_zero : cifsd_uevent :=
  { type := none, error := 0, server_handle := 0, pipe_type := 0, buflen := 0,
    read_count := 0, write_count := 0, data_count := 0, param_count := 0 }

/-- What a handler does to the outside world, and the two list operations on
the pipe list, in program order. -/
inductive Effect where
  | process_rpc (pipe : cifsd_pipe) (buffer : List Char)
  | process_rpc_rsp (pipe : cifsd_pipe) (out_buflen : Nat)
  | handle_lanman_pipe (pipe : cifsd_pipe) (buffer : List Char)
  | sendmsg (hdr : cifsd_uevent) (buf : Option (List Char)) (len : Int)
  | list_add_pipe (clienthash : Nat) (pipe : cifsd_pipe)
  | list_del_pipe (clienthash : Nat) (pipe : cifsd_pipe)
deriving DecidableEq, Repr

/-- What the environment answers while one message is handled. -/
structure Env where
  buf_ok : Bool
  pipe_ok : Bool
  client_ok : Bool
  client_ok2 : Bool
  client_ok3 : Bool
  process_rpc_ret : Int
  process_rpc_rsp_ret : Int
  handle_lanman_pipe_ret : Int
  param_len : Int
  out_buf : List Char
  sendmsg_ret : Int
  inotify_ret : Int
deriving DecidableEq, Repr

/-- A handler that returned: the registry it leaves, its return value and its trace. -/
structure Result where
  clients : Registry
  ret : Int
  trace : List Effect
deriving DecidableEq, Repr

/-- How the handling of one message ends. -/
inductive Outcome where
  | returned (r : Result)
  | aborted
  | exited (status : Int)
deriving DecidableEq, Repr

/-! ## The client/pipe registry -/

/-- The function `lookup_client`: the first client with this hash, or a new
client inserted at the front when `calloc` succeeds. -/
def lookup_client (calloc_ok : Bool) (clients : Registry) (clienthash : Nat) :
    Registry × Option cifsd_client_info :=
  match clients.find? (fun c => c.hash == clienthash) with
  | some client => (clients, some client)
  | none =>
    if calloc_ok then
      (({ hash := clienthash, pipelist := [] } : cifsd_client_info) :: clients,
        some { hash := clienthash, pipelist := [] })
    else (clients, none)

/-- The function `lookup_pipe`: the first pipe of this type of the client that
`lookup_client` returns. -/
def lookup_pipe (calloc_ok : Bool) (clients : Registry) (clienthash : Nat) (pipetype : Nat) :
    Registry × Option cifsd_pipe :=
  match lookup_client calloc_ok clients clienthash with
  | (clients1, none) => (clients1, none)
  | (clients1, some client) =>
    if client.pipelist.isEmpty then (clients1, none)
    else (clients1, client.pipelist.find? (fun p => p.pipe_type == pipetype))

/-- A write through the client pointer that `lookup_client` returned: the first
client with this hash is replaced by its image. -/
def update_client (f : cifsd_client_info → cifsd_client_info) (clienthash : Nat) :
    Registry → Registry
  | [] => []
  | c :: cs =>
    if c.hash == clienthash then f c :: cs else c :: update_client f clienthash cs

/-- A write through the pipe pointer that `lookup_pipe` returned: the first pipe
of this type is replaced by its image. -/
def update_pipe (f : cifsd_pipe → cifsd_pipe) (pipetype : Nat) :
    List cifsd_pipe → List cifsd_pipe
  | [] => []
  | p :: ps =>
    if p.pipe_type == pipetype then f p :: ps else p :: update_pipe f pipetype ps

/-- The call `list_add(&pipe->list, &client->pipelist)`: the pipe becomes the
first of the client. -/
def add_pipe (pipe : cifsd_pipe) (c : cifsd_client_info) : cifsd_client_info :=
  { c with pipelist := pipe :: c.pipelist }

/-- The call `list_del(&pipe->list)` on the first pipe of this type of the client. -/
def del_pipe (pipetype : Nat) (c : cifsd_client_info) : cifsd_client_info :=
  { c with pipelist := c.pipelist.eraseP (fun p => p.pipe_type == pipetype) }

/-- The function `initpipe`. -/
def initpipe (calloc_ok : Bool) (pipetype : Nat) (codepage : List Char) : Option cifsd_pipe :=
  if calloc_ok then
    some { pipe_type := pipetype,
           codepage := strncpy codepage (CIFSD_CODEPAGE_LEN - 1),
           username := [] }
  else none

/-- The function `cifsd_create_pipe`. -/
def cifsd_create_pipe (pipe_ok client_ok : Bool) (clients : Registry)
    (clienthash : Nat) (pipetype : Nat) (codepage : List Char) : Result :=
  match initpipe pipe_ok pipetype codepage with
  | none => { clients := clients, ret := -ENOMEM, trace := [] }
  | some pipe =>
    match lookup_client client_ok clients clienthash with
    | (clients1, none) => { clients := clients1, ret := -ENOMEM, trace := [] }
    | (clients1, some _) =>
      { clients := update_client (add_pipe pipe) clienthash clients1,
        ret := 0,
        trace := [Effect.list_add_pipe clienthash pipe] }

/-- The function `cifsd_remove_pipe`: `list_del` of the pipe that `lookup_pipe` returned. -/
def cifsd_remove_pipe (client_ok : Bool) (clients : Registry)
    (clienthash : Nat) (pipetype : Nat) : Result :=
  match lookup_pipe client_ok clients clienthash pipetype with
  | (clients1, none) => { clients := clients1, ret := -EINVAL, trace := [] }
  | (clients1, some pipe) =>
    { clients := update_client (del_pipe pipetype) clienthash clients1,
      ret := 0,
      trace := [Effect.list_del_pipe clienthash pipe] }

/-! ## The pipe request dispatcher -/

/-- The function `handle_create_pipe_event`. -/
def handle_create_pipe_event (env : Env) (clients : Registry) (ev : kevent) : Outcome :=
  Outcome.returned
    (cifsd_create_pipe env.pipe_ok env.client_ok clients ev.server_handle ev.pipe_type
      ev.codepage)

/-- The function `handle_remove_pipe_event`. -/
def handle_remove_pipe_event (env : Env) (clients : Registry) (ev : kevent) : Outcome :=
  Outcome.returned (cifsd_remove_pipe env.client_ok clients ev.server_handle ev.pipe_type)

/-- The buffer that `calloc(1, NETLINK_CIFSD_MAX_PAYLOAD)` returns. -/
def calloc_buf (max_payload : Nat) : List Char :=
  List.replicate max_payload NUL

/-- The label `out:` of `handle_read_pipe_event`: build the response and send it. -/
def read_pipe_out (env : Env) (ev : kevent) (clients : Registry) (trace : List Effect)
    (buf : Option (List Char)) (ret nbytes : Int) : Outcome :=
  Outcome.returned
    { clients := clients,
      ret := env.sendmsg_ret,
      trace := trace ++
        [Effect.sendmsg
          { uevent_zero with
            type := some msg_type.CIFSD_UEVENT_READ_PIPE_RSP,
            server_handle := ev.server_handle,
            pipe_type := ev.pipe_type,
            error := ret,
            buflen := to_u32 nbytes,
            read_count := to_u32 nbytes }
          buf nbytes] }

/-- The function `handle_read_pipe_event`; `max_payload` is `NETLINK_CIFSD_MAX_PAYLOAD`. -/
def handle_read_pipe_event (max_payload : Nat) (env : Env) (clients : Registry)
    (ev : kevent) : Outcome :=
  if ev.out_buflen ≤ max_payload then
    if env.buf_ok then
      match lookup_pipe env.client_ok clients ev.server_handle ev.pipe_type with
      | (clients1, none) =>
        read_pipe_out env ev clients1 [] (some (calloc_buf max_payload)) (-ENOENT) 0
      | (clients1, some pipe) =>
        if env.process_rpc_rsp_ret < 0 then
          read_pipe_out env ev clients1 [Effect.process_rpc_rsp pipe ev.out_buflen]
            (some env.out_buf) env.process_rpc_rsp_ret 0
        else
          read_pipe_out env ev clients1 [Effect.process_rpc_rsp pipe ev.out_buflen]
            (some env.out_buf) 0 env.process_rpc_rsp_ret
    else read_pipe_out env ev clients [] none (-ENOMEM) 0
  else Outcome.aborted

/-- The label `out:` of `handle_write_pipe_event`. -/
def write_pipe_out (env : Env) (ev : kevent) (clients : Registry) (trace : List Effect)
    (ret : Int) : Outcome :=
  Outcome.returned
    { clients := clients,
      ret := env.sendmsg_ret,
      trace := trace ++
        [Effect.sendmsg
          { uevent_zero with
            type := some msg_type.CIFSD_UEVENT_WRITE_PIPE_RSP,
            server_handle := ev.server_handle,
            pipe_type := ev.pipe_type,
            error := ret,
            buflen := 0,
            write_count := if ret < 0 then 0 else ev.buflen }
          none 0] }

/-- The function `handle_write_pipe_event`. -/
def handle_write_pipe_event (env : Env) (clients : Registry) (ev : kevent) : Outcome :=
  match lookup_pipe env.client_ok clients ev.server_handle ev.pipe_type with
  | (clients1, none) => write_pipe_out env ev clients1 [] (-ENOENT)
  | (clients1, some pipe) =>
    write_pipe_out env ev clients1 [Effect.process_rpc pipe ev.buffer] env.process_rpc_ret

/-- The label `out:` of `handle_ioctl_pipe_event`. -/
def ioctl_pipe_out (env : Env) (ev : kevent) (clients : Registry) (trace : List Effect)
    (buf : Option (List Char)) (ret nbytes : Int) : Outcome :=
  Outcome.returned
    { clients := clients,
      ret := env.sendmsg_ret,
      trace := trace ++
        [Effect.sendmsg
          { uevent_zero with
            type := some msg_type.CIFSD_UEVENT_IOCTL_PIPE_RSP,
            server_handle := ev.server_handle,
            pipe_type := ev.pipe_type,
            error := ret,
            buflen := to_u32 nbytes,
            data_count := to_u32 nbytes }
          buf nbytes] }

/-- The function `handle_ioctl_pipe_event`. -/
def handle_ioctl_pipe_event (max_payload : Nat) (env : Env) (clients : Registry)
    (ev : kevent) : Outcome :=
  if ev.out_buflen ≤ max_payload then
    if env.buf_ok then
      match lookup_pipe env.client_ok clients ev.server_handle ev.pipe_type with
      | (clients1, none) =>
        ioctl_pipe_out env ev clients1 [] (some (calloc_buf max_payload)) (-ENOENT) 0
      | (clients1, some pipe) =>
        if env.process_rpc_ret ≠ 0 then
          ioctl_pipe_out env ev clients1 [Effect.process_rpc pipe ev.buffer]
            (some (calloc_buf max_payload)) env.process_rpc_ret 0
        else if env.process_rpc_rsp_ret < 0 then
          ioctl_pipe_out env ev clients1
            [Effect.process_rpc pipe ev.buffer, Effect.process_rpc_rsp pipe ev.out_buflen]
            (some env.out_buf) env.process_rpc_rsp_ret 0
        else
          ioctl_pipe_out env ev clients1
            [Effect.process_rpc pipe ev.buffer, Effect.process_rpc_rsp pipe ev.out_buflen]
            (some env.out_buf) 0 env.process_rpc_rsp_ret
    else ioctl_pipe_out env ev clients [] none (-ENOMEM) 0
  else Outcome.aborted

/-- The label `out:` of `handle_lanman_pipe_event`: build the response, send
it, then `cifsd_remove_pipe`, whose return value is the handler's. -/
def lanman_pipe_out (env : Env) (ev : kevent) (clients : Registry) (trace : List Effect)
    (buf : Option (List Char)) (ret nbytes param_len : Int) : Outcome :=
  Outcome.returned
    { clients := (cifsd_remove_pipe env.client_ok3 clients ev.server_handle ev.pipe_type).clients,
      ret := (cifsd_remove_pipe env.client_ok3 clients ev.server_handle ev.pipe_type).ret,
      trace := trace ++
        [Effect.sendmsg
          { uevent_zero with
            type := some msg_type.CIFSD_UEVENT_LANMAN_PIPE_RSP,
            server_handle := ev.server_handle,
            pipe_type := ev.pipe_type,
            error := ret,
            buflen := to_u32 nbytes,
            data_count := to_u32 nbytes,
            param_count := to_u32 param_len }
          buf nbytes] ++
        (cifsd_remove_pipe env.client_ok3 clients ev.server_handle ev.pipe_type).trace }

/-- The write `strncpy(pipe->username, ev->k.l_pipe.username, CIFSD_USERNAME_LEN - 1)`
through the pipe pointer that `lookup_pipe` returned. -/
def set_username (username : List Char) (pipetype : Nat) (c : cifsd_client_info) :
    cifsd_client_info :=
  { c with
    pipelist := update_pipe
      (fun p => { p with username := strncpy username (CIFSD_USERNAME_LEN - 1) })
      pipetype c.pipelist }

/-- The function `handle_lanman_pipe_event`. -/
def handle_lanman_pipe_event (max_payload : Nat) (env : Env) (clients : Registry)
    (ev : kevent) : Outcome :=
  if ev.out_buflen ≤ max_payload then
    if env.buf_ok then
      if (cifsd_create_pipe env.pipe_ok env.client_ok clients ev.server_handle ev.pipe_type
          ev.codepage).ret ≠ 0 then
        lanman_pipe_out env ev
          (cifsd_create_pipe env.pipe_ok env.client_ok clients ev.server_handle ev.pipe_type
            ev.codepage).clients
          (cifsd_create_pipe env.pipe_ok env.client_ok clients ev.server_handle ev.pipe_type
            ev.codepage).trace
          (some (calloc_buf max_payload))
          (cifsd_create_pipe env.pipe_ok env.client_ok clients ev.server_handle ev.pipe_type
            ev.codepage).ret
          0 0
      else
        match lookup_pipe env.client_ok2
            (cifsd_create_pipe env.pipe_ok env.client_ok clients ev.server_handle ev.pipe_type
              ev.codepage).clients
            ev.server_handle ev.pipe_type with
        | (clients1, none) =>
          lanman_pipe_out env ev clients1
            (cifsd_create_pipe env.pipe_ok env.client_ok clients ev.server_handle ev.pipe_type
              ev.codepage).trace
            (some (calloc_buf max_payload)) (-ENOENT) 0 0
        | (clients1, some pipe) =>
          lanman_pipe_out env ev
            (update_client (set_username ev.username ev.pipe_type) ev.server_handle clients1)
            ((cifsd_create_pipe env.pipe_ok env.client_ok clients ev.server_handle ev.pipe_type
              ev.codepage).trace ++
              [Effect.handle_lanman_pipe
                { pipe with username := strncpy ev.username (CIFSD_USERNAME_LEN - 1) }
                ev.buffer])
            (some env.out_buf)
            (if env.handle_lanman_pipe_ret < 0 then env.handle_lanman_pipe_ret else 0)
            (if env.handle_lanman_pipe_ret < 0 then 0 else env.handle_lanman_pipe_ret)
            env.param_len
    else lanman_pipe_out env ev clients [] none (-ENOMEM) 0 0
  else Outcome.aborted

/-- The function `request_handler`. `handle_inotify_request_event` works on the
notify-client list and the watch descriptor only; of it the client registry
sees no change and a return value. -/
def request_handler (max_payload : Nat) (env : Env) (clients : Registry) (ev : kevent) :
    Outcome :=
  match ev.nlmsg_type with
  | msg_type.CIFSD_KEVENT_CREATE_PIPE => handle_create_pipe_event env clients ev
  | msg_type.CIFSD_KEVENT_DESTROY_PIPE => handle_remove_pipe_event env clients ev
  | msg_type.CIFSD_KEVENT_READ_PIPE => handle_read_pipe_event max_payload env clients ev
  | msg_type.CIFSD_KEVENT_WRITE_PIPE => handle_write_pipe_event env clients ev
  | msg_type.CIFSD_KEVENT_IOCTL_PIPE => handle_ioctl_pipe_event max_payload env clients ev
  | msg_type.CIFSD_KEVENT_LANMAN_PIPE => handle_lanman_pipe_event max_payload env clients ev
  | msg_type.CFISD_KEVENT_USER_DAEMON_EXIST => Outcome.exited 1
  | msg_type.CIFSD_KEVENT_INOTIFY_REQUEST =>
    Outcome.returned { clients := clients, ret := env.inotify_ret, trace := [] }
  | _ => Outcome.returned { clients := clients, ret := -EINVAL, trace := [] }

/-- The registry after the main loop has handled a sequence of messages, each
with the answers of its environment; the loop ends with the process. -/
def run (max_payload : Nat) : Registry → List (Env × kevent) → Registry
  | clients, [] => clients
  | clients, (env, ev) :: rest =>
    match request_handler max_payload env clients ev with
    | Outcome.returned r => run max_payload r.clients rest
    | _ => clients

/-- The headers of the messages sent in a trace, in order. -/
def responses : List Effect → List cifsd_uevent
  | [] => []
  | Effect.sendmsg hdr _ _ :: rest => hdr :: responses rest
  | _ :: rest => responses rest

/-- The calls of the RPC collaborator in a trace, in order. -/
def rpc_calls : List Effect → List Effect
  | [] => []
  | Effect.process_rpc pipe buffer :: rest => Effect.process_rpc pipe buffer :: rpc_calls rest
  | Effect.process_rpc_rsp pipe n :: rest => Effect.process_rpc_rsp pipe n :: rpc_calls rest
  | Effect.handle_lanman_pipe pipe buffer :: rest =>
    Effect.handle_lanman_pipe pipe buffer :: rpc_calls rest
  | _ :: rest => rpc_calls rest

/-! ## Completion-filter translation -/

/-- The inotify event bit `IN_MODIFY` of the Linux header `sys/inotify.h`. -/
def IN_MODIFY : Nat := 0x00000002

/-- The inotify event bit `IN_ATTRIB`. -/
def IN_ATTRIB : Nat := 0x00000004

/-- The inotify event bit `IN_MOVED_FROM`. -/
def IN_MOVED_FROM : Nat := 0x00000040

/-- The inotify event bit `IN_MOVED_TO`. -/
def IN_MOVED_TO : Nat := 0x00000080

/-- The inotify event bit `IN_CREATE`. -/
def IN_CREATE : Nat := 0x00000100

/-- The inotify event bit `IN_DELETE`. -/
def IN_DELETE : Nat := 0x00000200

/-- The inotify flag `IN_ONLYDIR`. -/
def IN_ONLYDIR : Nat := 0x01000000

/-- The inotify flag `IN_MASK_ADD`. -/
def IN_MASK_ADD : Nat := 0x20000000

/-- The six `FILE_NOTIFY_CHANGE_*` masks that `convert_completion_filter` tests.
Their values are set in the absent header `cifsd.h`, so they are arguments. -/
structure notify_change where
  FILE_NOTIFY_CHANGE_NAME : Nat
  FILE_NOTIFY_CHANGE_ATTRIBUTES : Nat
  FILE_NOTIFY_CHANGE_LAST_WRITE : Nat
  FILE_NOTIFY_CHANGE_LAST_ACCESS : Nat
  FILE_NOTIFY_CHANGE_EA : Nat
  FILE_NOTIFY_CHANGE_SECURITY : Nat
deriving DecidableEq, Repr

/-- The function `convert_completion_filter`, statement by statement. -/
def convert_completion_filter (fl : notify_change) (completion_filter : Nat) : Nat :=
  let mask0 : Nat := 0
  let mask1 := mask0 ||| (IN_MASK_ADD ||| IN_ONLYDIR)
  let mask2 :=
    if completion_filter &&& fl.FILE_NOTIFY_CHANGE_NAME ≠ 0 then
      mask1 ||| (IN_CREATE ||| IN_DELETE ||| IN_MOVED_FROM ||| IN_MOVED_TO)
    else mask1
  let mask3 :=
    if completion_filter &&& fl.FILE_NOTIFY_CHANGE_ATTRIBUTES ≠ 0 then
      mask2 ||| (IN_ATTRIB ||| IN_MOVED_TO ||| IN_MOVED_FROM ||| IN_MODIFY)
    else mask2
  let mask4 :=
    if completion_filter &&& fl.FILE_NOTIFY_CHANGE_LAST_WRITE ≠ 0 then mask3 ||| IN_ATTRIB
    else mask3
  let mask5 :=
    if completion_filter &&& fl.FILE_NOTIFY_CHANGE_LAST_ACCESS ≠ 0 then mask4 ||| IN_ATTRIB
    else mask4
  let mask6 :=
    if completion_filter &&& fl.FILE_NOTIFY_CHANGE_EA ≠ 0 then mask5 ||| IN_ATTRIB
    else mask5
  let mask7 :=
    if completion_filter &&& fl.FILE_NOTIFY_CHANGE_SECURITY ≠ 0 then mask6 ||| IN_ATTRIB
    else mask6
  mask7

/-! ## User import (`config_users`) -/

/-- The macro `UID_BUF_SIZE` of `config_users`. -/
def UID_BUF_SIZE : Nat := 14

/-- The two fields of `struct passwd` that `config_users` reads. -/
structure passwd where
  pw_uid : Nat
  pw_gid : Nat
deriving DecidableEq, Repr

/-- One turn of the `while (!eof)` loop as the environment answers it: the
entry that `get_entry` read (`none` when it returns a negative length), whether
the `calloc` of `user_entry` and the `malloc` of `id_buf` succeed, and the
values returned by `cifsd_common_sendmsg` and `nl_handle_event`. -/
structure db_read where
  entry : Option (List Char)
  calloc_ok : Bool
  malloc_ok : Bool
  sendmsg_ret : Int
  handle_event_ret : Int
deriving DecidableEq, Repr

/-- What `config_users` returned and the messages it handed to the link. -/
structure config_result where
  ret : Int
  trace : List Effect
deriving DecidableEq, Repr

/-- The text that the format `":%u:%u\n"` produces. -/
def id_format (uid gid : Nat) : List Char :=
  [':'] ++ Nat.toDigits 10 uid ++ [':'] ++ Nat.toDigits 10 gid ++ [Char.ofNat 10]

/-- The call `snprintf(id_buf, UID_BUF_SIZE, ":%u:%u\n", uid, gid)`: the string
left in `id_buf` (cut to `UID_BUF_SIZE - 1` characters) and the value
returned (the length of the uncut text). -/
def snprintf_id (uid gid : Nat) : List Char × Nat :=
  ((id_format uid gid).take (UID_BUF_SIZE - 1), (id_format uid gid).length)

/-- The buffer `user_entry` when it is sent: `calloc(1, ent_len + UID_BUF_SIZE)`,
then the entry copied to its start and, for a resolved account, `id_len`
bytes of `id_buf` copied behind it. -/
def user_entry_buf (entry : List Char) (id : Option (List Char × Nat)) : List Char :=
  match id with
  | none => entry ++ List.replicate UID_BUF_SIZE NUL
  | some (id_buf, id_len) =>
    entry ++ id_buf.take id_len ++ List.replicate (UID_BUF_SIZE - (id_buf.take id_len).length) NUL

/-- The send of one user entry: the header after `memset`, `type` and
`buflen = strlen(user_entry)`, and the call
`cifsd_common_sendmsg(nlsock, &ev, user_entry, user_len + 1)`. -/
def send_user_entry (user_entry : List Char) : Effect :=
  Effect.sendmsg
    { uevent_zero with
      type := some msg_type.CIFSD_KEVENT_CONFIG_USER,
      buflen := strlen user_entry }
    (some user_entry) ((strlen user_entry : Int) + 1)

/-- The loop of `config_users` after the database file has been opened.
`init_2_strings` gives the account name of an entry (`none` for a NULL
`user_account`), `getpwnam` is the host account database, and `trace` holds the
messages sent so far. -/
def config_users_loop (CIFS_SUCCESS CIFS_FAIL : Int)
    (init_2_strings : List Char → Option (List Char))
    (getpwnam : List Char → Option passwd) :
    List db_read → List Effect → config_result
  | [], trace => { ret := CIFS_SUCCESS, trace := trace }
  | rd :: rest, trace =>
    match rd.entry with
    | none => { ret := CIFS_FAIL, trace := trace }
    | some entry =>
      match init_2_strings entry with
      | none =>
        config_users_loop CIFS_SUCCESS CIFS_FAIL init_2_strings getpwnam rest trace
      | some user_account =>
        if rd.calloc_ok then
          match getpwnam user_account with
          | some pw =>
            if rd.malloc_ok then
              if pw.pw_uid > 65535 ∨ pw.pw_gid > 65535 then
                { ret := CIFS_FAIL, trace := trace }
              else if rd.sendmsg_ret < 0 then
                { ret := -1,
                  trace := trace ++
                    [send_user_entry
                      (user_entry_buf entry (some (snprintf_id pw.pw_uid pw.pw_gid)))] }
              else
                config_users_loop CIFS_SUCCESS CIFS_FAIL init_2_strings getpwnam rest
                  (trace ++
                    [send_user_entry
                      (user_entry_buf entry (some (snprintf_id pw.pw_uid pw.pw_gid)))])
            else { ret := CIFS_FAIL, trace := trace }
          | none =>
            if rd.sendmsg_ret < 0 then
              { ret := -1, trace := trace ++ [send_user_entry (user_entry_buf entry none)] }
            else
              config_users_loop CIFS_SUCCESS CIFS_FAIL init_2_strings getpwnam rest
                (trace ++ [send_user_entry (user_entry_buf entry none)])
        else { ret := CIFS_FAIL, trace := trace }

/-- The function `config_users`: `open_ok` tells whether `open(db_path, O_RDONLY)`
succeeded, `reads` are the turns of the loop up to end of file. -/
def config_users (CIFS_SUCCESS CIFS_FAIL : Int)
    (init_2_strings : List Char → Option (List Char))
    (getpwnam : List Char → Option passwd)
    (open_ok : Bool) (reads : List db_read) : config_result :=
  if open_ok then
    config_users_loop CIFS_SUCCESS CIFS_FAIL init_2_strings getpwnam reads []
  else { ret := CIFS_FAIL, trace := [] }

/-! ## Predicates used by the theorems -/

/-- The pipe types held by a client, in list order. -/
def pipe_types (c : cifsd_client_info) : List Nat :=
  c.pipelist.map (fun p => p.pipe_type)

/-- Pipe uniqueness: every client record holds at most one pipe of each pipe type. -/
def pipe_unique (clients : Registry) : Prop :=
  ∀ c ∈ clients, (pipe_types c).Nodup

instance (clients : Registry) : Decidable (pipe_unique clients) :=
  inferInstanceAs (Decidable (∀ c ∈ clients, (pipe_types c).Nodup))

/-- Along a run, every `CREATE_PIPE` message arrives when `lookup_pipe` finds no
pipe of its type for its handle. -/
def creates_fresh (max_payload : Nat) : Registry → List (Env × kevent) → Bool
  | _, [] => true
  | clients, (env, ev) :: rest =>
    (if ev.nlmsg_type = msg_type.CIFSD_KEVENT_CREATE_PIPE then
      (lookup_pipe false clients ev.server_handle ev.pipe_type).2.isNone
    else true) &&
    match request_handler max_payload env clients ev with
    | Outcome.returned r => creates_fresh max_payload r.clients rest
    | _ => true

/-- An environment in which every allocation succeeds, the RPC collaborator
returns `n` and the link accepts the response. -/
def env_ok (n : Int) : Env :=
  { buf_ok := true, pipe_ok := true, client_ok := true, client_ok2 := true,
    client_ok3 := true, process_rpc_ret := n, process_rpc_rsp_ret := n,
    handle_lanman_pipe_ret := n, param_len := 0, out_buf := [], sendmsg_ret := 0,
    inotify_ret := 0 }

/-- A message of type `t` for handle `h` and pipe type `k`, with an inbound
payload of 7 bytes announced and room for 16 bytes of response. -/
def kev (t : msg_type) (h k : Nat) : kevent :=
  { nlmsg_type := t, server_handle := h, pipe_type := k, buflen := 7, out_buflen := 16,
    codepage := ['u', 't', 'f', '8'], username := ['b', 'o', 'b'], buffer := [] }

/-- Every pipe of every client, in list order, as pairs of handle and pipe. -/
def all_pipes (clients : Registry) : List (Nat × cifsd_pipe) :=
  clients.flatMap (fun c => c.pipelist.map (fun p => (c.hash, p)))

/-- The response type that answers a pipe request. -/
def response_type : msg_type → msg_type
  | msg_type.CIFSD_KEVENT_READ_PIPE => msg_type.CIFSD_UEVENT_READ_PIPE_RSP
  | msg_type.CIFSD_KEVENT_WRITE_PIPE => msg_type.CIFSD_UEVENT_WRITE_PIPE_RSP
  | msg_type.CIFSD_KEVENT_IOCTL_PIPE => msg_type.CIFSD_UEVENT_IOCTL_PIPE_RSP
  | msg_type.CIFSD_KEVENT_LANMAN_PIPE => msg_type.CIFSD_UEVENT_LANMAN_PIPE_RSP
  | t => t

/-- Some client record with this handle holds a pipe of this type. -/
def has_pipe (clients : Registry) (clienthash pipetype : Nat) : Bool :=
  clients.any (fun c => c.hash == clienthash && c.pipelist.any (fun p => p.pipe_type == pipetype))

/-- Some client record has this handle. -/
def has_client (clients : Registry) (clienthash : Nat) : Bool :=
  clients.any (fun c => c.hash == clienthash)

/-- The number of pipes of this type held by the client record that
`lookup_client` finds for the handle (zero when there is no such record). -/
def pipes_of_type (clients : Registry) (clienthash pipetype : Nat) : Nat :=
  match clients.find? (fun c => c.hash == clienthash) with
  | none => 0
  | some c => c.pipelist.countP (fun p => p.pipe_type == pipetype)

/-- The union of the six `FILE_NOTIFY_CHANGE_*` masks that the translation tests. -/
def tested_flags (fl : notify_change) : Nat :=
  fl.FILE_NOTIFY_CHANGE_NAME ||| fl.FILE_NOTIFY_CHANGE_ATTRIBUTES |||
    fl.FILE_NOTIFY_CHANGE_LAST_WRITE ||| fl.FILE_NOTIFY_CHANGE_LAST_ACCESS |||
    fl.FILE_NOTIFY_CHANGE_EA ||| fl.FILE_NOTIFY_CHANGE_SECURITY

/-- The message that one turn of the loop of `config_users` hands to the link
when nothing fails: none for an entry without account name, the entry with the
id suffix for a resolved account, the bare entry for an unresolved one. -/
def user_message (init_2_strings : List Char → Option (List Char))
    (getpwnam : List Char → Option passwd) (rd : db_read) : Option Effect :=
  match rd.entry with
  | none => none
  | some entry =>
    match init_2_strings entry with
    | none => none
    | some user_account =>
      match getpwnam user_account with
      | some pw =>
        some (send_user_entry (user_entry_buf entry (some (snprintf_id pw.pw_uid pw.pw_gid))))
      | none => some (send_user_entry (user_entry_buf entry none))

/-- The payload that the specification gives for a password-database entry:
none for an entry without account name, the entry text followed by
`:<uid>:<gid>` and a newline (decimal) when the account resolves, the unchanged
entry text when it does not. -/
def expected_user_payload (init_2_strings : List Char → Option (List Char))
    (getpwnam : List Char → Option passwd) (entry : List Char) : Option (List Char) :=
  match init_2_strings entry with
  | none => none
  | some user_account =>
    match getpwnam user_account with
    | some pw =>
      some (entry ++ [':'] ++ (Nat.repr pw.pw_uid).toList ++ [':'] ++
        (Nat.repr pw.pw_gid).toList ++ [Char.ofNat 10])
    | none => some entry

/-- The entry of a turn has an account name that resolves to a uid or a gid
above 65535. -/
def over_limit (init_2_strings : List Char → Option (List Char))
    (getpwnam : List Char → Option passwd) (rd : db_read) : Bool :=
  match rd.entry with
  | none => false
  | some entry =>
    match init_2_strings entry with
    | none => false
    | some user_account =>
      match getpwnam user_account with
      | none => false
      | some pw => decide (pw.pw_uid > 65535) || decide (pw.pw_gid > 65535)

/-- A turn of the loop in which nothing fails: `get_entry` read an entry, which
is a C string (it holds no NUL); both allocations succeed; and the link accepts
the message. -/
def fault_free (rd : db_read) : Bool :=
  (match rd.entry with
    | none => false
    | some entry => !entry.contains NUL) &&
  rd.calloc_ok && rd.malloc_ok && decide (0 ≤ rd.sendmsg_ret)

/-- A message of `config_users` for the payload `p`: type `CONFIG_USER`, header
`buflen` the length of `p`, a buffer that holds `p` followed by NULs, of which
`p` and one NUL are handed to the link. -/
def is_user_message (eff : Effect) (p : List Char) : Prop :=
  ∃ k : Nat, 0 < k ∧
    eff = Effect.sendmsg
      { uevent_zero with
        type := some msg_type.CIFSD_KEVENT_CONFIG_USER,
        buflen := p.length }
      (some (p ++ List.replicate k NUL)) ((p.length : Int) + 1)

/-- The account name of an entry as the specification describes it: the first
colon-delimited field, absent when it is empty. -/
def first_field (entry : List Char) : Option (List Char) :=
  if (entry.takeWhile (fun c => c != ':')).isEmpty then none
  else some (entry.takeWhile (fun c => c != ':'))

/-- A host account database with three accounts: `alice` (1000, 1000),
`bob` (1001, 100) and `carol` (70000, 70000). -/
def host_accounts (name : List Char) : Option passwd :=
  if name = ['a', 'l', 'i', 'c', 'e'] then some { pw_uid := 1000, pw_gid := 1000 }
  else if name = ['b', 'o', 'b'] then some { pw_uid := 1001, pw_gid := 100 }
  else if name = ['c', 'a', 'r', 'o', 'l'] then some { pw_uid := 70000, pw_gid := 70000 }
  else none

/-- A turn of the loop that reads `entry` and in which nothing fails. -/
def read_ok (entry : List Char) : db_read :=
  { entry := some entry, calloc_ok := true, malloc_ok := true, sendmsg_ret := 0,
    handle_event_ret := 0 }

/-- The headers of the messages sent while one message was handled. -/
def outcome_responses : Outcome → List cifsd_uevent
  | Outcome.returned r => responses r.trace
  | _ => []

/-- The registry that the handling of one message leaves, when the handler returned. -/
def outcome_clients : Outcome → Option Registry
  | Outcome.returned r => some r.clients
  | _ => none

/-! ## Share configuration (`cifsd.c`)

The share list is the list headed by `cifsd_share_list`, in traversal order
(`list_add` puts a share at the front).  The constants of the absent header are
parameters, collected in `share_consts`.  A `char *` that the parser computes is
a `c_ptr`: the parser forms `val + 2` without looking at the token, so the
pointer can be `NULL`, can point at a string of the duplicated block, or can lie
past the end of that block.  A call that dereferences `NULL`, reads past the
block or writes past an allocation has no defined result: the functions return
`none` there.  `strdup`, whose result the source never tests, is taken to
succeed. -/

/-- The constants that `cifsd.c` takes from the absent header. -/
structure share_consts where
  SHARE_MAX_NAME_LEN : Nat
  SHARE_MAX_COMMENT_LEN : Nat
  MAX_SERVER_WRKGRP_LEN : Nat
  MAX_SERVER_NAME_LEN : Nat
  STR_IPC : List Char
  STR_WRKGRP : List Char
  STR_SRV_NAME : List Char
  deriving DecidableEq, Repr

/-- A share of the share list: `struct cifsd_share` with the comment of its `config`. -/
structure cifsd_share where
  sharename : List Char
  comment : List Char
  deriving DecidableEq, Repr

/-- The globals of the share configuration. -/
structure share_config where
  cifsd_share_list : List cifsd_share
  cifsd_num_shares : Int
  workgroup : List Char
  server_string : List Char
  deriving DecidableEq, Repr

/-- A `char *` computed by the parser. -/
inductive c_ptr where
  | NULL
  | str (s : List Char)
  | past_end
  deriving DecidableEq, Repr

/-- The tokens that successive `strtok` calls return for the rest `s` of a
buffer, `cur` being the characters of the token under way.  Each token comes
with the C string that starts one byte past its terminating NUL once the
tokenisation is over: the delimiters that the next call skips and the next
token; there is none when the token ends with the buffer. -/
def strtok_from (delims : List Char) : List Char → List Char →
    List (List Char × Option (List Char))
  | [], cur => if cur.isEmpty then [] else [(cur, none)]
  | c :: cs, cur =>
    if delims.contains c then
      if cur.isEmpty then strtok_from delims cs []
      else
        (cur, some (cs.takeWhile (fun d => delims.contains d) ++
          (cs.dropWhile (fun d => delims.contains d)).takeWhile
            (fun d => !delims.contains d))) :: strtok_from delims cs []
    else strtok_from delims cs (cur ++ [c])

/-- The tokens of `strtok(dup, delims)` followed by `strtok(NULL, delims)` until `NULL`. -/
def strtok_all (delims : List Char) (s : List Char) : List (List Char × Option (List Char)) :=
  strtok_from delims s []

/-- The test `!strncasecmp(lit, conf, n)` with `n` the length of `lit`. -/
def strncasecmp_eq (lit conf : List Char) : Bool :=
  (conf.take lit.length).map Char.toLower == lit.map Char.toLower

/-- The test `strcasestr(haystack, needle) != NULL`. -/
def strcasestr_found (haystack needle : List Char) : Bool :=
  haystack.tails.any (fun t => strncasecmp_eq needle t)

/-- The pointer `strchr(conf, '=') + 2` for the token `conf`, `after` being the
string past the token's NUL; `old` is kept when the token has no `=`. -/
def value_ptr (old : c_ptr) (conf : List Char) (after : Option (List Char)) : c_ptr :=
  if conf.contains '=' then
    if (conf.takeWhile (fun c => c != '=')).length + 2 ≤ conf.length then
      c_ptr.str (conf.drop ((conf.takeWhile (fun c => c != '=')).length + 2))
    else
      match after with
      | some s => c_ptr.str s
      | none => c_ptr.past_end
  else old

/-- The function `add_new_share`; `alloc_ok` tells whether `alloc_new_share`
returned a share. -/
def add_new_share (c : share_consts) (alloc_ok : Bool) (st : share_config)
    (sharename comment : c_ptr) : Option share_config :=
  if !alloc_ok then some st
  else
    match sharename, comment with
    | c_ptr.past_end, _ => none
    | _, c_ptr.NULL => none
    | _, c_ptr.past_end => none
    | c_ptr.NULL, c_ptr.str t =>
      if c.SHARE_MAX_COMMENT_LEN < t.length then none
      else
        some { st with
          cifsd_share_list := { sharename := [], comment := t } :: st.cifsd_share_list,
          cifsd_num_shares := st.cifsd_num_shares + 1 }
    | c_ptr.str s, c_ptr.str t =>
      if c.SHARE_MAX_NAME_LEN < s.length then none
      else if c.SHARE_MAX_COMMENT_LEN < t.length then none
      else
        some { st with
          cifsd_share_list := { sharename := s, comment := t } :: st.cifsd_share_list,
          cifsd_num_shares := st.cifsd_num_shares + 1 }

/-- The function `init_share_config`, run on the zero-initialised globals. -/
def init_share_config (c : share_consts) (alloc_ok : Bool) : Option share_config :=
  match add_new_share c alloc_ok
      { cifsd_share_list := [], cifsd_num_shares := 0, workgroup := [], server_string := [] }
      (c_ptr.str c.STR_IPC) (c_ptr.str "IPC$ share".toList) with
  | none => none
  | some st =>
    if c.MAX_SERVER_WRKGRP_LEN < c.STR_WRKGRP.length then none
    else if c.MAX_SERVER_NAME_LEN < c.STR_SRV_NAME.length then none
    else some { st with workgroup := c.STR_WRKGRP, server_string := c.STR_SRV_NAME }

/-- The pointers `sstring` and `workgrp` after the token loop of `parse_global_config`. -/
def global_ptrs : List (List Char × Option (List Char)) → c_ptr × c_ptr → c_ptr × c_ptr
  | [], p => p
  | (conf, after) :: rest, (sstring, workgrp) =>
    if strncasecmp_eq "server string =".toList conf then
      global_ptrs rest (value_ptr sstring conf after, workgrp)
    else if strncasecmp_eq "workgroup =".toList conf then
      global_ptrs rest (sstring, value_ptr workgrp conf after)
    else global_ptrs rest (sstring, workgrp)

/-- The function `parse_global_config`. -/
def parse_global_config (c : share_consts) (st : share_config) (src : List Char) :
    Option share_config :=
  match global_ptrs (strtok_all ['<'] src) (c_ptr.NULL, c_ptr.NULL) with
  | (sstring, workgrp) =>
    match (match sstring with
        | c_ptr.NULL => some st
        | c_ptr.past_end => none
        | c_ptr.str s =>
          some { st with server_string := s.take (c.MAX_SERVER_NAME_LEN - 1) }) with
    | none => none
    | some st1 =>
      match workgrp with
      | c_ptr.NULL => some st1
      | c_ptr.past_end => none
      | c_ptr.str s => some { st1 with workgroup := s.take (c.MAX_SERVER_WRKGRP_LEN - 1) }

/-- The pointers `sharename` and `comment` after the token loop of `parse_share_config`. -/
def share_ptrs : List (List Char × Option (List Char)) → c_ptr × c_ptr → c_ptr × c_ptr
  | [], p => p
  | (conf, after) :: rest, (sharename, comment) =>
    if strncasecmp_eq "sharename =".toList conf then
      share_ptrs rest (value_ptr sharename conf after, comment)
    else if strncasecmp_eq "comment =".toList conf then
      share_ptrs rest (sharename, value_ptr comment conf after)
    else share_ptrs rest (sharename, comment)

/-- The function `parse_share_config` on the block `src`. -/
def parse_share_config (c : share_consts) (alloc_ok : Bool) (st : share_config)
    (src : List Char) : Option share_config :=
  if strcasestr_found src "sharename = global".toList then parse_global_config c st src
  else
    match share_ptrs (strtok_all ['<'] src) (c_ptr.NULL, c_ptr.NULL) with
    | (c_ptr.NULL, _) => some st
    | (sharename, comment) => add_new_share c alloc_ok st sharename comment

/-- The share configuration after one `parse_share_config` call for each block,
`none` when a call has no defined result; each block comes with the outcome of
the allocation in `alloc_new_share`. -/
def parse_blocks (c : share_consts) :
    Option share_config → List (Bool × List Char) → Option share_config
  | none, _ => none
  | some st, [] => some st
  | some st, (alloc_ok, b) :: bs => parse_blocks c (parse_share_config c alloc_ok st b) bs

/-- Modelled from the spec: the limits of the share and server names, the name
of the `IPC$` share; the default workgroup and server string are examples. -/
def spec_consts : share_consts :=
  { SHARE_MAX_NAME_LEN := 64, SHARE_MAX_COMMENT_LEN := 256, MAX_SERVER_WRKGRP_LEN := 16,
    MAX_SERVER_NAME_LEN := 64, STR_IPC := "IPC$".toList, STR_WRKGRP := "WORKGROUP".toList,
    STR_SRV_NAME := "CIFSD SERVER".toList }

/-! ## Change notification (`pipecb.c`)

The state of the notify subsystem is the file-scope variables `notifyd_exist`
and `fd`, the list headed by `cifsd_notify_clients` in traversal order, and the
number of reader threads that `pthread_create` has started and that have not
returned (`readers`, which the program itself does not keep).  The mutexes are
not modelled: the handler runs on the main thread and each step of the reader is
taken at once. -/

/-- A notify client: `struct cifsd_notify_client_info`. -/
structure cifsd_notify_client_info where
  hash : Nat
  codepage : List Char
  wd : Int
  deriving DecidableEq, Repr

/-- The state of the notify subsystem. -/
structure notify_state where
  notifyd_exist : Int
  fd : Int
  cifsd_notify_clients : List cifsd_notify_client_info
  readers : Nat
  deriving DecidableEq, Repr

/-- The request that `ev->buffer` holds: `struct smb2_inotify_req_info`. -/
structure smb2_inotify_req_info where
  CompletionFilter : Nat
  dir_path : List Char
  deriving DecidableEq, Repr

/-- The answers of the host while one `INOTIFY_REQUEST` is handled. -/
structure inotify_env where
  inotify_init_ret : Int
  inotify_add_watch : Int → List Char → Nat → Int
  client_ok : Bool
  pthread_attr_init_ret : Int
  pthread_attr_setdetachstate_ret : Int
  pthread_create_ret : Int
  pthread_setname_np_ret : Int
  pthread_attr_destroy_ret : Int

/-- The function `lookup_notify_client`: the list after the call and the client
found or inserted, `none` when the allocation of a new client fails. -/
def lookup_notify_client (calloc_ok : Bool) (clients : List cifsd_notify_client_info)
    (ev : kevent) : List cifsd_notify_client_info × Option cifsd_notify_client_info :=
  match clients.find? (fun c => c.hash == ev.server_handle) with
  | some c => (clients, some c)
  | none =>
    if calloc_ok then
      ({ hash := ev.server_handle,
         codepage := strncpy ev.codepage (CIFSD_CODEPAGE_LEN - 1),
         wd := 0 } :: clients,
       some { hash := ev.server_handle,
              codepage := strncpy ev.codepage (CIFSD_CODEPAGE_LEN - 1),
              wd := 0 })
    else (clients, none)

/-- The write `notify_client->wd = wd` on the first client with this handle. -/
def set_wd (clienthash : Nat) (wd : Int) :
    List cifsd_notify_client_info → List cifsd_notify_client_info
  | [] => []
  | c :: cs => if c.hash == clienthash then { c with wd := wd } :: cs
    else c :: set_wd clienthash wd cs

/-- The function `cifsd_set_wd`. -/
def cifsd_set_wd (calloc_ok : Bool) (clients : List cifsd_notify_client_info)
    (ev : kevent) (wd : Int) : List cifsd_notify_client_info × Int :=
  match lookup_notify_client calloc_ok clients ev with
  | (clients1, none) => (clients1, -ENOMEM)
  | (clients1, some _) => (set_wd ev.server_handle wd clients1, 0)

/-- The function `make_inotify_handler_thread`: the number of readers after
the call and the value returned. -/
def make_inotify_handler_thread (env : inotify_env) (readers : Nat) : Nat × Int :=
  if env.pthread_attr_init_ret ≠ 0 then (readers, env.pthread_attr_init_ret)
  else if env.pthread_attr_setdetachstate_ret ≠ 0 then
    (readers, env.pthread_attr_setdetachstate_ret)
  else if env.pthread_create_ret ≠ 0 then (readers, env.pthread_create_ret)
  else if env.pthread_setname_np_ret ≠ 0 then (readers + 1, env.pthread_setname_np_ret)
  else (readers + 1, env.pthread_attr_destroy_ret)

/-- The function `handle_inotify_request_event`.  The statement
`ret = make_inotify_handler_thread(nlsock)` follows the unbraced
`if (!notifyd_exist)` and is not governed by it. -/
def handle_inotify_request_event (fl : notify_change) (env : inotify_env) (st : notify_state)
    (ev : kevent) (req : smb2_inotify_req_info) : notify_state × Int :=
  let mask := convert_completion_filter fl req.CompletionFilter
  if st.notifyd_exist = 0 ∧ env.inotify_init_ret = -1 then
    ({ st with fd := env.inotify_init_ret }, -ENOENT)
  else
    let st1 := if st.notifyd_exist = 0 then { st with fd := env.inotify_init_ret } else st
    let wd := env.inotify_add_watch st1.fd req.dir_path mask
    if wd = -1 then (st1, -ENOENT)
    else
      match cifsd_set_wd env.client_ok st1.cifsd_notify_clients ev wd with
      | (clients1, ret) =>
        if ret ≠ 0 then ({ st1 with cifsd_notify_clients := clients1 }, ret)
        else
          match make_inotify_handler_thread env st1.readers with
          | (readers1, ret1) =>
            ({ st1 with cifsd_notify_clients := clients1, readers := readers1 }, ret1)

/-- One event of the inotify descriptor: `struct inotify_event`. -/
structure inotify_event where
  wd : Int
  mask : Nat
  len : Nat
  name : List Char
  deriving DecidableEq, Repr

/-- The values `FILE_ACTION_*` that `fill_noti_info_res` stores. -/
inductive file_action where
  | FILE_ACTION_ADDED
  | FILE_ACTION_REMOVED
  | FILE_ACTION_MODIFIED
  deriving DecidableEq, Repr

/-- The record `struct FileNotifyInformation`; `FileName` is what
`smbConvertToUTF16` wrote. -/
structure FileNotifyInformation where
  NextEntryOffset : Nat
  Action : file_action
  FileNameLength : Nat
  FileName : List Nat
  deriving DecidableEq, Repr

/-- The response buffer `struct smb2_inotify_res_info` with its first record. -/
structure smb2_inotify_res_info where
  output_buffer_length : Nat
  file_notify_info : FileNotifyInformation
  deriving DecidableEq, Repr

/-- The sizes that the reader takes from absent headers. -/
structure notify_sizes where
  sizeof_smb2_inotify_res_info : Nat
  sizeof_FileNotifyInformation : Nat
  NAME_MAX : Nat
  deriving DecidableEq, Repr

/-- A message handed to the link by `send_rsp_ev`: the header, the response
buffer and the number of bytes passed to `cifsd_common_sendmsg`. -/
structure inotify_send where
  hdr : cifsd_uevent
  buf : smb2_inotify_res_info
  len : Nat
  deriving DecidableEq, Repr

/-- The function `fill_noti_info_res`; `smbConvertToUTF16` is the absent
collaborator, applied to the name, the two lengths and the codepage. -/
def fill_noti_info_res (smbConvertToUTF16 : List Char → Nat → Nat → List Char → List Nat)
    (notify_client : cifsd_notify_client_info) (event : inotify_event) :
    FileNotifyInformation :=
  { NextEntryOffset := 0,
    Action :=
      if event.mask &&& IN_CREATE ≠ 0 then file_action.FILE_ACTION_ADDED
      else if event.mask &&& IN_DELETE ≠ 0 then file_action.FILE_ACTION_REMOVED
      else if event.mask &&& IN_MOVED_FROM ≠ 0 then file_action.FILE_ACTION_REMOVED
      else if event.mask &&& IN_MOVED_TO ≠ 0 then file_action.FILE_ACTION_ADDED
      else file_action.FILE_ACTION_MODIFIED,
    FileNameLength := strlen event.name * 2,
    FileName := smbConvertToUTF16 event.name event.len (event.len * 2) notify_client.codepage }

/-- The function `send_rsp_ev`. -/
def send_rsp_ev (sz : notify_sizes) (notify_client : cifsd_notify_client_info)
    (noti_info_res_buf : smb2_inotify_res_info) : inotify_send :=
  { hdr := { uevent_zero with
      type := some msg_type.CIFSD_UEVENT_INOTIFY_RESPONSE,
      server_handle := notify_client.hash },
    buf := noti_info_res_buf,
    len := sz.sizeof_smb2_inotify_res_info + sz.sizeof_FileNotifyInformation + sz.NAME_MAX }

/-- What the reader thread has done after the events read so far. -/
inductive reader_result where
  | exited (st : notify_state) (trace : List inotify_send)
  | reading
  | undefined
  deriving DecidableEq, Repr

/-- The client that the `list_for_each` loop of `read_inotify_event` leaves in
`notify_client`: the first client with this watch descriptor, the last client
of the list when none has it, `NULL` on an empty list. -/
def client_of_wd (clients : List cifsd_notify_client_info) (wd : Int) :
    Option cifsd_notify_client_info :=
  match clients.find? (fun c => c.wd == wd) with
  | some c => some c
  | none => clients.getLast?

/-- The list after `list_del(&notify_client->list)` for that client. -/
def del_client_of_wd (clients : List cifsd_notify_client_info) (wd : Int) :
    List cifsd_notify_client_info :=
  if clients.any (fun c => c.wd == wd) then clients.eraseP (fun c => c.wd == wd)
  else clients.dropLast

/-- The function `read_inotify_event`, the body of the reader thread, on the
events that `read` delivers: `reading` while every event so far has `len` 0,
`undefined` when the client list is empty (`notify_client` is `NULL`). -/
def read_inotify_event (sz : notify_sizes)
    (smbConvertToUTF16 : List Char → Nat → Nat → List Char → List Nat)
    (malloc_ok : Bool) (st : notify_state) : List inotify_event → reader_result
  | [] => reader_result.reading
  | ie_buf :: rest =>
    if ie_buf.len = 0 then read_inotify_event sz smbConvertToUTF16 malloc_ok st rest
    else if !malloc_ok then
      reader_result.exited { st with notifyd_exist := 0, readers := st.readers - 1 } []
    else
      match client_of_wd st.cifsd_notify_clients ie_buf.wd with
      | none => reader_result.undefined
      | some notify_client =>
        let info := fill_noti_info_res smbConvertToUTF16 notify_client ie_buf
        reader_result.exited
          { st with
            notifyd_exist := 0,
            cifsd_notify_clients := del_client_of_wd st.cifsd_notify_clients ie_buf.wd,
            readers := st.readers - 1 }
          [send_rsp_ev sz notify_client
            { output_buffer_length := sz.sizeof_FileNotifyInformation + info.FileNameLength,
              file_notify_info := info }]

/-- The state after `initialize`: no notify client, no reader, zeroed variables. -/
def notify_init : notify_state :=
  { notifyd_exist := 0, fd := 0, cifsd_notify_clients := [], readers := 0 }

/-- A host on which every call of an `INOTIFY_REQUEST` succeeds: `inotify_init`
returns descriptor 5 and `inotify_add_watch` returns watch 1. -/
def inotify_env_ok : inotify_env :=
  { inotify_init_ret := 5, inotify_add_watch := fun _ _ _ => 1, client_ok := true,
    pthread_attr_init_ret := 0, pthread_attr_setdetachstate_ret := 0,
    pthread_create_ret := 0, pthread_setname_np_ret := 0, pthread_attr_destroy_ret := 0 }

/-- Modelled from the spec: the notify response starts with one `u32`, and
the fixed part of a `FileNotifyInformation` record is three `u32` (12 bytes);
`NAME_MAX` is 255. -/
def spec_sizes : notify_sizes :=
  { sizeof_smb2_inotify_res_info := 4, sizeof_FileNotifyInformation := 12, NAME_MAX := 255 }

/-- The request of scenario S6: handle 3, codepage `utf8`. -/
def s6_request : kevent :=
  { nlmsg_type := msg_type.CIFSD_KEVENT_INOTIFY_REQUEST, server_handle := 3, pipe_type := 0,
    buflen := 0, out_buflen := 0, codepage := "utf8".toList, username := [], buffer := [] }

/-- The creation of `a.txt` in the directory of watch 1, as inotify reports it. -/
def s6_event : inotify_event :=
  { wd := 1, mask := IN_CREATE, len := 16, name := "a.txt".toList }

/-- An encoder for the examples: the UTF-16 code units of an ASCII name. -/
def utf16_of_ascii (name : List Char) (_len _outlen : Nat) (_codepage : List Char) : List Nat :=
  name.map Char.toNat

/-- The messages that the reader sent, when it has exited. -/
def reader_messages : reader_result → List inotify_send
  | reader_result.exited _ trace => trace
  | _ => []

/-- The request of scenario S6 for the directory `/tmp/w`, with the completion
filter `filter`. -/
def s6_req_info (filter : Nat) : smb2_inotify_req_info :=
  { CompletionFilter := filter, dir_path := "/tmp/w".toList }

/-! ## Share import (`config_shares` of `cifsd.c`)

The share file is the list of the results of `readline`, one per call, up to
end of file: `none` for a negative count, the line otherwise (an empty line
for a count of zero).  `tlws` is an absent helper: it is an argument, taken to
leave the length of its result in `ssz`.  `stat_errno` gives the `errno` of
`stat` on a path, `none` when the path exists.  The page-sized local buffers are
taken to hold the lines that `readline` delivers; `tbuf` is the C string in the
buffer of that name, and `limit` is its length throughout. -/

/-- The answers of the link and of the allocator while one line is handled. -/
structure flush_env where
  sendmsg_ret : Int
  handle_event_ret : Int
  alloc_ok : Bool
  deriving DecidableEq, Repr

/-- One call of `readline` with the answers of the environment for the work
that the line causes. -/
structure share_read where
  line : Option (List Char)
  env : flush_env
  deriving DecidableEq, Repr

/-- The test `(c >= 'A' && c <= 'Z') || (c >= 'a' && c <= 'z')`. -/
def is_letter (c : Char) : Bool :=
  ('A' ≤ c && c ≤ 'Z') || ('a' ≤ c && c ≤ 'z')

/-- The characters at which the first loop of `getfchar` stops. -/
def is_start (c : Char) : Bool :=
  c == ';' || c == '#' || c == '[' || is_letter c || ('0' ≤ c && c ≤ '9')

/-- The function `getfchar` on a line: the first valid character `c` (a blank
when there is none) and the text copied to `dst`, whose length is `ssz`. -/
def getfchar (LINE : List Char) : Char × List Char :=
  match LINE.dropWhile (fun c => !is_start c) with
  | [] => (' ', [])
  | c :: rest =>
    if c == ';' || c == '#' then (c, [])
    else (c, (c :: rest).takeWhile (fun d => !(d == ';' || d == '#')))

/-- The function `prefix_share_name`: the new content of `src`, whose length
is the new `srclen`. -/
def prefix_share_name (src : List Char) : List Char :=
  "sharename = ".toList ++ src.filter (fun c => !(c == '[' || c == ']'))

/-- The function `validate_share_path`. -/
def validate_share_path (stat_errno : List Char → Option Int) (path : List Char) : Int :=
  match stat_errno path with
  | some errno => -errno
  | none => 0

/-- The function `get_share_path`. -/
def get_share_path (stat_errno : List Char → Option Int) (src sharename : List Char) : Int :=
  if strcasestr_found sharename "sharename = global".toList then 0
  else if strcasestr_found src "path = ".toList then
    match (strtok_all ['=', ' '] src).map Prod.fst with
    | _ :: pname :: _ =>
      if validate_share_path stat_errno pname < 0 then validate_share_path stat_errno pname
      else (pname.length : Int)
    | _ => 0
  else 0

/-- The call `cifsd_common_sendmsg(nlsock, &ev, tbuf, limit)` for a block:
the terminator is stored, `limit` counts it, and `ev.buflen = limit`. -/
def send_share_block (PAGE_SZ : Nat) (tbuf : List Char) : Effect :=
  Effect.sendmsg
    { uevent_zero with
      type := some msg_type.CIFSD_KEVENT_CONFIG_SHARE,
      buflen := tbuf.length + 1 }
    (some (tbuf ++ List.replicate (PAGE_SZ - tbuf.length) NUL)) ((tbuf.length : Int) + 1)

/-- The variables of `config_shares` that live across lines, the share
configuration and the messages sent so far. -/
structure shares_state where
  lshare : List Char
  sharepath_len : Int
  tbuf : List Char
  cfg : share_config
  trace : List Effect
  deriving DecidableEq, Repr

/-- How `config_shares` ends: it returns; or `parse_share_config` has no
defined result; or the `again` loop is still running when the fuel is spent. -/
inductive shares_outcome where
  | returned (ret : Int) (cfg : share_config) (trace : List Effect)
  | undefined (trace : List Effect)
  | looping (trace : List Effect)
  deriving DecidableEq, Repr

/-- The work on one line: the loop goes on, or the function ends. -/
inductive shares_step where
  | continue (st : shares_state)
  | stop (out : shares_outcome)
  deriving DecidableEq, Repr

/-- The label `again:` for the text `str` of the current line: append when
`limit + ssz + 1 < PAGE_SZ`; else send the buffer (unless the path check
failed), start the buffer afresh with the share header (or empty, on a header
line) and try again.  `fuel` bounds the number of tries. -/
def again (PAGE_SZ : Nat) (env : flush_env) (ch : Char) (str : List Char)
    (st : shares_state) : Nat → shares_step
  | 0 => shares_step.stop (shares_outcome.looping st.trace)
  | fuel + 1 =>
    if st.tbuf.length + str.length + 1 < PAGE_SZ then
      shares_step.continue { st with tbuf := st.tbuf ++ '<' :: str }
    else if 0 ≤ st.sharepath_len then
      if env.sendmsg_ret < 0 then
        shares_step.stop (shares_outcome.returned (-1) st.cfg
          (st.trace ++ [send_share_block PAGE_SZ st.tbuf]))
      else if ch != '[' then
        again PAGE_SZ env ch str
          { st with tbuf := '<' :: st.lshare,
                    trace := st.trace ++ [send_share_block PAGE_SZ st.tbuf] } fuel
      else
        again PAGE_SZ env ch str
          { st with tbuf := [], sharepath_len := 0,
                    trace := st.trace ++ [send_share_block PAGE_SZ st.tbuf] } fuel
    else if ch != '[' then
      again PAGE_SZ env ch str { st with tbuf := '<' :: st.lshare } fuel
    else
      again PAGE_SZ env ch str { st with tbuf := [], sharepath_len := 0 } fuel

/-- The write-out of the block in `tbuf` followed by `parse_share_config(tbuf)`,
as done before a new header and at the label `out:`: `config_shares` returns -1
when the send fails, and has no defined result when `parse_share_config` has
none. -/
def flush_block (c : share_consts) (PAGE_SZ : Nat) (env : flush_env) (st : shares_state) :
    shares_step :=
  if env.sendmsg_ret < 0 then
    shares_step.stop (shares_outcome.returned (-1) st.cfg
      (st.trace ++ [send_share_block PAGE_SZ st.tbuf]))
  else
    match parse_share_config c env.alloc_ok st.cfg st.tbuf with
    | none => shares_step.stop (shares_outcome.undefined
        (st.trace ++ [send_share_block PAGE_SZ st.tbuf]))
    | some cfg1 =>
      shares_step.continue
        { st with cfg := cfg1, trace := st.trace ++ [send_share_block PAGE_SZ st.tbuf] }

/-- The body of the loop of `config_shares` from `getfchar` on, for one
(joined) line. -/
def share_line (c : share_consts) (PAGE_SZ : Nat) (tlws : List Char → List Char)
    (stat_errno : List Char → Option Int) (fuel : Nat) (env : flush_env)
    (st : shares_state) (line : List Char) : shares_step :=
  let ch := (getfchar line).1
  let str := tlws (getfchar line).2
  if ch == '[' || is_letter ch then
    match (if ch == '[' ∧ 0 < st.tbuf.length then
        match (if 0 ≤ st.sharepath_len then flush_block c PAGE_SZ env st
            else shares_step.continue st) with
        | shares_step.continue st1 =>
          shares_step.continue { st1 with tbuf := [], sharepath_len := 0 }
        | shares_step.stop out => shares_step.stop out
      else shares_step.continue st) with
    | shares_step.stop out => shares_step.stop out
    | shares_step.continue st1 =>
      let str1 := if ch == '[' then prefix_share_name str else str
      let st2 := if ch == '[' then { st1 with lshare := str1 } else st1
      let st3 :=
        if st2.sharepath_len = 0 then
          { st2 with sharepath_len := get_share_path stat_errno str1 st2.lshare }
        else st2
      again PAGE_SZ env ch str1 st3 fuel
  else shares_step.continue st

/-- The label `out:` of `config_shares`. -/
def shares_out (c : share_consts) (PAGE_SZ : Nat) (CIFS_SUCCESS : Int) (env : flush_env)
    (st : shares_state) : shares_outcome :=
  if 0 ≤ st.sharepath_len ∧ 0 < st.tbuf.length then
    match flush_block c PAGE_SZ env st with
    | shares_step.continue st1 => shares_outcome.returned CIFS_SUCCESS st1.cfg st1.trace
    | shares_step.stop out => out
  else shares_outcome.returned CIFS_SUCCESS st.cfg st.trace

/-- The loop of `config_shares`.  `cont` holds the text joined so far, and the
environment of its first line, while lines that end in a backslash are being
joined; `last` is the environment at the label `out:` when the loop ends with
the file. -/
def config_shares_loop (c : share_consts) (PAGE_SZ : Nat) (CIFS_SUCCESS : Int)
    (tlws : List Char → List Char) (stat_errno : List Char → Option Int) (fuel : Nat)
    (last : flush_env) :
    shares_state → Option (List Char × flush_env) → List share_read → shares_outcome
  | st, none, [] => shares_out c PAGE_SZ CIFS_SUCCESS last st
  | st, some (cont_str, env), [] =>
    match share_line c PAGE_SZ tlws stat_errno fuel env st cont_str with
    | shares_step.stop out => out
    | shares_step.continue st1 => shares_out c PAGE_SZ CIFS_SUCCESS last st1
  | st, none, rd :: rest =>
    match rd.line with
    | none => shares_out c PAGE_SZ CIFS_SUCCESS rd.env st
    | some line =>
      if line.isEmpty then
        config_shares_loop c PAGE_SZ CIFS_SUCCESS tlws stat_errno fuel last st none rest
      else if line.getLast? = some '\\' then
        config_shares_loop c PAGE_SZ CIFS_SUCCESS tlws stat_errno fuel last st
          (some (line.dropLast, rd.env)) rest
      else
        match share_line c PAGE_SZ tlws stat_errno fuel rd.env st line with
        | shares_step.stop out => out
        | shares_step.continue st1 =>
          config_shares_loop c PAGE_SZ CIFS_SUCCESS tlws stat_errno fuel last st1 none rest
  | st, some (cont_str, env), rd :: rest =>
    match rd.line with
    | some line =>
      if ¬ line.isEmpty ∧ line.getLast? = some '\\' then
        config_shares_loop c PAGE_SZ CIFS_SUCCESS tlws stat_errno fuel last st
          (some (cont_str ++ line.dropLast, env)) rest
      else
        match share_line c PAGE_SZ tlws stat_errno fuel env st (cont_str ++ line) with
        | shares_step.stop out => out
        | shares_step.continue st1 =>
          config_shares_loop c PAGE_SZ CIFS_SUCCESS tlws stat_errno fuel last st1 none rest
    | none =>
      match share_line c PAGE_SZ tlws stat_errno fuel env st cont_str with
      | shares_step.stop out => out
      | shares_step.continue st1 =>
        config_shares_loop c PAGE_SZ CIFS_SUCCESS tlws stat_errno fuel last st1 none rest

/-- The function `config_shares`: `open_ok` tells whether `fopen` succeeded,
`cfg` is the share configuration before the call, `reads` are the results of
`readline` up to end of file. -/
def config_shares (c : share_consts) (PAGE_SZ : Nat) (CIFS_SUCCESS CIFS_FAIL : Int)
    (tlws : List Char → List Char) (stat_errno : List Char → Option Int) (fuel : Nat)
    (last : flush_env) (cfg : share_config) (open_ok : Bool) (reads : List share_read) :
    shares_outcome :=
  if open_ok then
    config_shares_loop c PAGE_SZ CIFS_SUCCESS tlws stat_errno fuel last
      { lshare := [], sharepath_len := 0, tbuf := [], cfg := cfg, trace := [] } none reads
  else shares_outcome.returned CIFS_FAIL cfg []

/-! ## Predicates used by the theorems on shares and messages -/

/-- The share configuration with no share and empty names. -/
def cfg_zero : share_config :=
  { cifsd_share_list := [], cifsd_num_shares := 0, workgroup := [], server_string := [] }

/-- An environment in which the link accepts every message and every
allocation succeeds. -/
def flush_ok : flush_env :=
  { sendmsg_ret := 0, handle_event_ret := 0, alloc_ok := true }

/-- A section of a share file: the name between the brackets of its header
line and its directive lines, in file order. -/
structure share_section where
  name : List Char
  directives : List (List Char)
  deriving DecidableEq, Repr

/-- The lines of a section: the header `[name]` and the directives, each
after the indentation `indent`. -/
def section_lines (indent : List Char) (s : share_section) : List (List Char) :=
  ('[' :: s.name ++ [']']) :: s.directives.map (fun d => indent ++ d)

/-- The reads of a share file made of these sections, every line with the
environment `env`. -/
def file_reads (env : flush_env) (indent : List Char) (sections : List share_section) :
    List share_read :=
  (sections.flatMap (section_lines indent)).map (fun l => { line := some l, env := env })

/-- The block that the specification gives for a section: `<sharename = `
and the name, then `<` and the directive for each directive line. -/
def section_block (s : share_section) : List Char :=
  "<sharename = ".toList ++ s.name ++ s.directives.flatMap (fun d => '<' :: d)

/-- A directive that `config_shares` takes as it is: it starts with a letter,
has no comment character, does not end in a backslash, and `tlws` leaves it
unchanged. -/
def plain_directive (tlws : List Char → List Char) (d : List Char) : Prop :=
  d.head?.map is_letter = some true ∧ (∀ x ∈ d, x ≠ ';' ∧ x ≠ '#') ∧
    d.getLast? ≠ some '\\' ∧ tlws d = d

instance (tlws : List Char → List Char) (d : List Char) : Decidable (plain_directive tlws d) :=
  inferInstanceAs (Decidable (d.head?.map is_letter = some true ∧
    (∀ x ∈ d, x ≠ ';' ∧ x ≠ '#') ∧ d.getLast? ≠ some '\\' ∧ tlws d = d))

/-- A section whose lines `config_shares` takes as they are: the name has no
bracket and no comment character, `tlws` leaves the header unchanged, and every
directive is plain. -/
def plain_section (tlws : List Char → List Char) (s : share_section) : Prop :=
  (∀ x ∈ s.name, x ≠ '[' ∧ x ≠ ']' ∧ x ≠ ';' ∧ x ≠ '#') ∧
  tlws ('[' :: s.name ++ [']']) = '[' :: s.name ++ [']'] ∧
  ∀ d ∈ s.directives, plain_directive tlws d

instance (tlws : List Char → List Char) (s : share_section) : Decidable (plain_section tlws s) :=
  inferInstanceAs (Decidable ((∀ x ∈ s.name, x ≠ '[' ∧ x ≠ ']' ∧ x ≠ ';' ∧ x ≠ '#') ∧
    tlws ('[' :: s.name ++ [']']) = '[' :: s.name ++ [']'] ∧
    ∀ d ∈ s.directives, plain_directive tlws d))

/-- The call `parse_share_config` has a defined result on this block. -/
def block_parses (c : share_consts) (block : List Char) : Bool :=
  (parse_share_config c true cfg_zero block).isSome

/-- The messages of an outcome of `config_shares`. -/
def shares_trace : shares_outcome → List Effect
  | shares_outcome.returned _ _ trace => trace
  | shares_outcome.undefined trace => trace
  | shares_outcome.looping trace => trace

/-- For a message handed to the link, the header `buflen` is the number of
bytes passed to `cifsd_common_sendmsg`. -/
def buflen_is_len : Effect → Prop
  | Effect.sendmsg hdr _ len => (hdr.buflen : Int) = len
  | _ => True

/-- For a message handed to the link, the number of bytes passed to
`cifsd_common_sendmsg` is the header `buflen` and one more. -/
def buflen_is_len_less_one : Effect → Prop
  | Effect.sendmsg hdr _ len => (hdr.buflen : Int) + 1 = len
  | _ => True

/-- The messages after one line of `config_shares`. -/
def step_trace : shares_step → List Effect
  | shares_step.continue st => st.trace
  | shares_step.stop out => shares_trace out

/-- The trace of an outcome of `request_handler` that returned. -/
def outcome_trace : Outcome → List Effect
  | Outcome.returned r => r.trace
  | _ => []

/-- The section of scenario S3. -/
def s3_section : share_section :=
  { name := "data".toList, directives := ["path = /tmp".toList, "comment = t".toList] }

/-- A section `pub` with a comment. -/
def pub_section : share_section :=
  { name := "pub".toList, directives := ["comment = p".toList] }

/-- A section `data` with a path and no other directive. -/
def path_section : share_section :=
  { name := "data".toList, directives := ["path = /tmp".toList] }

/-- An environment in which the link refuses every message. -/
def flush_refused : flush_env :=
  { sendmsg_ret := -1, handle_event_ret := 0, alloc_ok := true }

/-- The header `buflen` and the number of bytes passed to the send operation,
for a message handed to the link. -/
def sent_sizes : Effect → Option (Nat × Int)
  | Effect.sendmsg hdr _ len => some (hdr.buflen, len)
  | _ => none

/-! ## Registry lemmas -/

theorem lookup_client_of_found {clients : Registry} {h : Nat} {c : cifsd_client_info}
    (a : Bool) (hc : clients.find? (fun c => c.hash == h) = some c) :
    lookup_client a clients h = (clients, some c) := by
  simp [lookup_client, hc]

theorem lookup_client_of_missing {clients : Registry} {h : Nat}
    (a : Bool) (hc : clients.find? (fun c => c.hash == h) = none) :
    lookup_client a clients h =
      if a then (({ hash := h, pipelist := [] } : cifsd_client_info) :: clients,
        some { hash := h, pipelist := [] })
      else (clients, none) := by
  simp [lookup_client, hc]

theorem update_client_of_missing (f : cifsd_client_info → cifsd_client_info) {h : Nat} :
    ∀ {clients : Registry}, clients.find? (fun c => c.hash == h) = none →
      update_client f h clients = clients
  | [], _ => rfl
  | c :: cs, hc => by
    rw [List.find?_cons] at hc
    by_cases hh : (c.hash == h) = true
    · simp [hh] at hc
    · simp only [hh] at hc
      simp only [update_client, hh]
      rw [update_client_of_missing f hc]
      simp

theorem update_client_fixed (f : cifsd_client_info → cifsd_client_info) {h : Nat} :
    ∀ {clients : Registry} {c : cifsd_client_info},
      clients.find? (fun c => c.hash == h) = some c → f c = c →
      update_client f h clients = clients
  | [], _, hc, _ => by simp at hc
  | d :: ds, c, hc, hf => by
    rw [List.find?_cons] at hc
    by_cases hh : (d.hash == h) = true
    · simp only [hh, Option.some.injEq] at hc
      subst hc
      simp [update_client, hh, hf]
    · simp only [hh] at hc
      simp only [update_client, hh]
      rw [update_client_fixed f hc hf]
      simp

theorem update_client_comp (f g : cifsd_client_info → cifsd_client_info) {h : Nat}
    (hf : ∀ c, (f c).hash = c.hash) :
    ∀ clients : Registry,
      update_client g h (update_client f h clients) = update_client (fun c => g (f c)) h clients
  | [] => rfl
  | c :: cs => by
    by_cases hh : (c.hash == h) = true
    · have : ((f c).hash == h) = true := by rw [hf]; exact hh
      simp [update_client, hh, this]
    · simp [update_client, hh, update_client_comp f g hf cs]

theorem find_update_client (f : cifsd_client_info → cifsd_client_info) {h : Nat}
    (hf : ∀ c, (f c).hash = c.hash) :
    ∀ clients : Registry,
      (update_client f h clients).find? (fun c => c.hash == h) =
        (clients.find? (fun c => c.hash == h)).map f
  | [] => rfl
  | c :: cs => by
    by_cases hh : (c.hash == h) = true
    · have : ((f c).hash == h) = true := by rw [hf]; exact hh
      simp [update_client, hh, this]
    · simp [update_client, hh, find_update_client f hf cs]

/-- The client that `lookup_client` returns is the first one with its hash in
the registry it leaves. -/
theorem find_lookup_client (a : Bool) (clients : Registry) (h : Nat) :
    (lookup_client a clients h).1.find? (fun c => c.hash == h) = (lookup_client a clients h).2 := by
  cases hc : clients.find? (fun c => c.hash == h) with
  | some c => simp [lookup_client_of_found a hc, hc]
  | none =>
    rw [lookup_client_of_missing a hc]
    cases a <;> simp [hc]

theorem del_pipe_fixed {k : Nat} {c : cifsd_client_info}
    (hk : c.pipelist.find? (fun p => p.pipe_type == k) = none) : del_pipe k c = c := by
  unfold del_pipe
  rw [List.eraseP_of_forall_not]
  intro p hp
  have := List.find?_eq_none.1 hk p hp
  simpa using this

theorem cifsd_remove_pipe_clients (a : Bool) (clients : Registry) (h k : Nat) :
    (cifsd_remove_pipe a clients h k).clients =
      update_client (del_pipe k) h (lookup_client a clients h).1 := by
  have hfind := find_lookup_client a clients h
  unfold cifsd_remove_pipe lookup_pipe
  rcases hlc : lookup_client a clients h with ⟨clients1, oc⟩
  rw [hlc] at hfind
  simp only at hfind
  cases oc with
  | none => simp [update_client_of_missing _ hfind]
  | some c =>
    simp only
    by_cases he : c.pipelist.isEmpty = true
    · have hnil : c.pipelist = [] := by simpa using he
      have : del_pipe k c = c := by
        cases c
        simp_all [del_pipe]
      simp [he, update_client_fixed _ hfind this]
    · simp only [he]
      cases hp : c.pipelist.find? (fun p => p.pipe_type == k) with
      | none => simp [update_client_fixed _ hfind (del_pipe_fixed hp)]
      | some p => simp

/-! ## Pipe uniqueness -/

theorem pipe_unique_lookup_client (a : Bool) {clients : Registry} (h : Nat)
    (hu : pipe_unique clients) : pipe_unique (lookup_client a clients h).1 := by
  cases hc : clients.find? (fun c => c.hash == h) with
  | some c => simpa [lookup_client_of_found a hc] using hu
  | none =>
    rw [lookup_client_of_missing a hc]
    cases a
    · simpa using hu
    · intro c hmem
      simp only [if_true, List.mem_cons] at hmem
      rcases hmem with rfl | hmem
      · simp [pipe_types]
      · exact hu c hmem

/-- A write through the client pointer keeps pipe uniqueness when the client
written still has pairwise distinct pipe types. -/
theorem pipe_unique_update_client (f : cifsd_client_info → cifsd_client_info) (h : Nat) :
    ∀ {clients : Registry}, pipe_unique clients →
      (∀ c, clients.find? (fun c => c.hash == h) = some c → (pipe_types (f c)).Nodup) →
      pipe_unique (update_client f h clients)
  | [], _, _ => by simp [update_client, pipe_unique]
  | d :: ds, hu, hf => by
    have hds : pipe_unique ds := fun c hc => hu c (List.mem_cons_of_mem _ hc)
    by_cases hh : (d.hash == h) = true
    · intro c hmem
      simp only [update_client, hh, if_true, List.mem_cons] at hmem
      rcases hmem with rfl | hmem
      · exact hf d (by simp [hh])
      · exact hds c hmem
    · intro c hmem
      simp only [update_client, hh, Bool.false_eq_true, if_false, List.mem_cons] at hmem
      rcases hmem with rfl | hmem
      · exact hu c (List.mem_cons_self _ _)
      · refine pipe_unique_update_client f h hds ?_ c hmem
        intro c2 hc2
        apply hf
        simp [List.find?_cons, hh, hc2]

theorem pipe_types_del_pipe_nodup (k : Nat) {c : cifsd_client_info}
    (hc : (pipe_types c).Nodup) : (pipe_types (del_pipe k c)).Nodup := by
  unfold pipe_types del_pipe
  exact List.Nodup.sublist ((List.eraseP_sublist _).map _) hc

theorem pipe_types_update_pipe (f : cifsd_pipe → cifsd_pipe)
    (hf : ∀ p, (f p).pipe_type = p.pipe_type) (k : Nat) :
    ∀ ps : List cifsd_pipe,
      (update_pipe f k ps).map (fun p => p.pipe_type) = ps.map (fun p => p.pipe_type)
  | [] => rfl
  | p :: ps => by
    by_cases hp : (p.pipe_type == k) = true
    · simp [update_pipe, hp, hf]
    · simp [update_pipe, hp, pipe_types_update_pipe f hf k ps]

theorem pipe_types_set_username (u : List Char) (k : Nat) (c : cifsd_client_info) :
    pipe_types (set_username u k c) = pipe_types c := by
  unfold pipe_types set_username
  exact pipe_types_update_pipe
    (fun p => { p with username := strncpy u (CIFSD_USERNAME_LEN - 1) }) (fun _ => rfl) k
    c.pipelist

theorem mem_of_find {clients : Registry} {h : Nat} {c : cifsd_client_info}
    (hc : clients.find? (fun c => c.hash == h) = some c) : c ∈ clients :=
  List.mem_of_find?_eq_some hc

theorem pipe_unique_remove (a : Bool) {clients : Registry} (h k : Nat)
    (hu : pipe_unique clients) : pipe_unique (cifsd_remove_pipe a clients h k).clients := by
  rw [cifsd_remove_pipe_clients]
  have hu1 := pipe_unique_lookup_client a h hu
  exact pipe_unique_update_client _ h hu1
    (fun c hc => pipe_types_del_pipe_nodup k (hu1 c (mem_of_find hc)))

/-- A miss of `lookup_pipe` means that the client found, if any, holds no pipe
of the type. -/
theorem lookup_pipe_miss {a : Bool} {clients : Registry} {h k : Nat}
    (hmiss : (lookup_pipe a clients h k).2 = none) {c : cifsd_client_info}
    (hc : clients.find? (fun c => c.hash == h) = some c) : k ∉ pipe_types c := by
  unfold lookup_pipe at hmiss
  rw [lookup_client_of_found a hc] at hmiss
  simp only at hmiss
  intro hk
  simp only [pipe_types, List.mem_map] at hk
  obtain ⟨p, hp, hpk⟩ := hk
  by_cases he : c.pipelist.isEmpty = true
  · have : c.pipelist = [] := by simpa using he
    simp [this] at hp
  · simp only [he] at hmiss
    have := List.find?_eq_none.1 hmiss p hp
    simp [hpk] at this

theorem pipe_unique_create (pipe_ok client_ok : Bool) {clients : Registry} (h k : Nat)
    (cp : List Char) (hu : pipe_unique clients)
    (hmiss : (lookup_pipe false clients h k).2 = none) :
    pipe_unique (cifsd_create_pipe pipe_ok client_ok clients h k cp).clients := by
  unfold cifsd_create_pipe initpipe
  cases pipe_ok
  · simpa using hu
  · simp only [if_true]
    cases hc : clients.find? (fun c => c.hash == h) with
    | some c =>
      rw [lookup_client_of_found client_ok hc]
      simp only
      refine pipe_unique_update_client _ h hu ?_
      intro c2 hc2
      rw [hc] at hc2
      cases hc2
      have hk := lookup_pipe_miss hmiss hc
      have hn := hu c (mem_of_find hc)
      simp only [pipe_types, add_pipe, List.map_cons, List.nodup_cons]
      exact ⟨hk, hn⟩
    | none =>
      rw [lookup_client_of_missing client_ok hc]
      cases client_ok
      · simpa using hu
      · simp only [if_true]
        refine pipe_unique_update_client _ h ?_ ?_
        · intro c hmem
          simp only [List.mem_cons] at hmem
          rcases hmem with rfl | hmem
          · simp [pipe_types]
          · exact hu c hmem
        · intro c2 hc2
          simp at hc2
          subst hc2
          simp [pipe_types, add_pipe]

/-! ## Create, look up, destroy -/

theorem lookup_pipe_of_found {clients : Registry} {h : Nat} {c : cifsd_client_info}
    (a : Bool) (k : Nat) (hc : clients.find? (fun c => c.hash == h) = some c) :
    lookup_pipe a clients h k =
      (clients, c.pipelist.find? (fun p => p.pipe_type == k)) := by
  unfold lookup_pipe
  rw [lookup_client_of_found a hc]
  by_cases he : c.pipelist.isEmpty = true
  · have : c.pipelist = [] := by simpa using he
    simp [this]
  · simp [he]

theorem lookup_pipe_clients (a : Bool) (clients : Registry) (h k : Nat) :
    (lookup_pipe a clients h k).1 = (lookup_client a clients h).1 := by
  unfold lookup_pipe
  rcases lookup_client a clients h with ⟨clients1, oc⟩
  cases oc with
  | none => rfl
  | some c => by_cases he : c.pipelist.isEmpty = true <;> simp [he]

/-- The pipe that `initpipe` builds when `calloc` succeeds. -/
theorem initpipe_ok (k : Nat) (cp : List Char) :
    initpipe true k cp =
      some { pipe_type := k, codepage := strncpy cp (CIFSD_CODEPAGE_LEN - 1), username := [] } := by
  simp [initpipe]

/-- The function `cifsd_create_pipe` returns 0 exactly when both allocations
it needs succeed; it then puts the new pipe first in the client's list. -/
theorem cifsd_create_pipe_ok {pipe_ok client_ok : Bool} {clients : Registry} {h k : Nat}
    {cp : List Char} (hret : (cifsd_create_pipe pipe_ok client_ok clients h k cp).ret = 0) :
    ∃ c, (lookup_client client_ok clients h).1.find? (fun c => c.hash == h) = some c ∧
      cifsd_create_pipe pipe_ok client_ok clients h k cp =
        { clients := update_client
            (add_pipe { pipe_type := k, codepage := strncpy cp (CIFSD_CODEPAGE_LEN - 1),
                        username := [] })
            h (lookup_client client_ok clients h).1,
          ret := 0,
          trace := [Effect.list_add_pipe h
            { pipe_type := k, codepage := strncpy cp (CIFSD_CODEPAGE_LEN - 1),
              username := [] }] } := by
  have hfind := find_lookup_client client_ok clients h
  unfold cifsd_create_pipe at hret ⊢
  cases pipe_ok
  · simp [initpipe, ENOMEM] at hret
  · rw [initpipe_ok] at hret ⊢
    simp only at hret ⊢
    rcases hlc : lookup_client client_ok clients h with ⟨clients1, oc⟩
    rw [hlc] at hfind hret
    cases oc with
    | none => simp [ENOMEM] at hret
    | some c => exact ⟨c, hfind, rfl⟩

/-- A failed `cifsd_create_pipe` leaves the registry as it was. -/
theorem cifsd_create_pipe_fail {pipe_ok client_ok : Bool} {clients : Registry} {h k : Nat}
    {cp : List Char} (hret : (cifsd_create_pipe pipe_ok client_ok clients h k cp).ret ≠ 0) :
    cifsd_create_pipe pipe_ok client_ok clients h k cp =
      { clients := clients, ret := -ENOMEM, trace := [] } := by
  unfold cifsd_create_pipe at hret ⊢
  cases pipe_ok
  · simp [initpipe]
  · rw [initpipe_ok] at hret ⊢
    simp only at hret ⊢
    cases hc : clients.find? (fun c => c.hash == h) with
    | some c =>
      rw [lookup_client_of_found client_ok hc] at hret
      simp at hret
    | none =>
      rw [lookup_client_of_missing client_ok hc] at hret ⊢
      cases client_ok
      · simp
      · simp at hret

theorem cifsd_remove_pipe_of_found {a : Bool} {clients clients1 : Registry} {h k : Nat}
    {p : cifsd_pipe} (hp : lookup_pipe a clients h k = (clients1, some p)) :
    cifsd_remove_pipe a clients h k =
      { clients := update_client (del_pipe k) h clients1, ret := 0,
        trace := [Effect.list_del_pipe h p] } := by
  unfold cifsd_remove_pipe
  rw [hp]

theorem cifsd_remove_pipe_of_miss {a : Bool} {clients clients1 : Registry} {h k : Nat}
    (hp : lookup_pipe a clients h k = (clients1, none)) :
    cifsd_remove_pipe a clients h k =
      { clients := clients1, ret := -EINVAL, trace := [] } := by
  unfold cifsd_remove_pipe
  rw [hp]

/-- After the new pipe was put first, `lookup_pipe` returns it, whatever the
client held before. -/
theorem lookup_pipe_after_add (a : Bool) {clients : Registry} {h : Nat} {c : cifsd_client_info}
    (p : cifsd_pipe) (hc : clients.find? (fun c => c.hash == h) = some c) :
    lookup_pipe a (update_client (add_pipe p) h clients) h p.pipe_type =
      (update_client (add_pipe p) h clients, some p) := by
  have hfind : (update_client (add_pipe p) h clients).find? (fun c => c.hash == h) =
      some (add_pipe p c) := by
    rw [find_update_client (add_pipe p) (fun _ => rfl), hc]
    rfl
  rw [lookup_pipe_of_found a p.pipe_type hfind]
  simp [add_pipe]

/-- Put a pipe first, write its user name, delete the first pipe of its type:
the client is as before. -/
theorem del_set_add (u : List Char) (p : cifsd_pipe) (c : cifsd_client_info) :
    del_pipe p.pipe_type (set_username u p.pipe_type (add_pipe p c)) = c := by
  cases c
  simp [del_pipe, set_username, add_pipe, update_pipe, List.eraseP_cons]

theorem del_add (p : cifsd_pipe) (c : cifsd_client_info) :
    del_pipe p.pipe_type (add_pipe p c) = c := by
  cases c
  simp [del_pipe, add_pipe, List.eraseP_cons]

/-! ## The LANMAN handler -/

/-- The pipe that `handle_lanman_pipe_event` creates for a message. -/
theorem lanman_remove_after_create (a : Bool) (u : List Char) (p : cifsd_pipe)
    {clients : Registry} {h : Nat} {c : cifsd_client_info}
    (hc : clients.find? (fun c => c.hash == h) = some c) :
    cifsd_remove_pipe a
        (update_client (set_username u p.pipe_type) h (update_client (add_pipe p) h clients))
        h p.pipe_type =
      { clients := clients, ret := 0,
        trace := [Effect.list_del_pipe h
          { p with username := strncpy u (CIFSD_USERNAME_LEN - 1) }] } := by
  have hfind : (update_client (set_username u p.pipe_type) h
      (update_client (add_pipe p) h clients)).find? (fun c => c.hash == h) =
      some (set_username u p.pipe_type (add_pipe p c)) := by
    rw [find_update_client (set_username u p.pipe_type) (fun _ => rfl),
      find_update_client (add_pipe p) (fun _ => rfl), hc]
    rfl
  have hlook := lookup_pipe_of_found a p.pipe_type hfind
  have hfirst : (set_username u p.pipe_type (add_pipe p c)).pipelist.find?
      (fun q => q.pipe_type == p.pipe_type) =
      some { p with username := strncpy u (CIFSD_USERNAME_LEN - 1) } := by
    simp [set_username, add_pipe, update_pipe]
  rw [hfirst] at hlook
  rw [cifsd_remove_pipe_of_found hlook,
    update_client_comp (set_username u p.pipe_type) (del_pipe p.pipe_type) (fun _ => rfl),
    update_client_comp (add_pipe p) _ (fun _ => rfl),
    update_client_fixed _ hc (del_set_add u p c)]

/-- The nominal path of `handle_lanman_pipe_event`: the assertion holds, the
response buffer is allocated and the pipe is created. -/
theorem lanman_nominal (max_payload : Nat) (env : Env) (clients : Registry) (ev : kevent)
    (hassert : ev.out_buflen ≤ max_payload) (hbuf : env.buf_ok = true)
    (hcreate : (cifsd_create_pipe env.pipe_ok env.client_ok clients ev.server_handle
      ev.pipe_type ev.codepage).ret = 0) :
    handle_lanman_pipe_event max_payload env clients ev =
      Outcome.returned
        { clients := (lookup_client env.client_ok clients ev.server_handle).1,
          ret := 0,
          trace :=
            [Effect.list_add_pipe ev.server_handle
              { pipe_type := ev.pipe_type,
                codepage := strncpy ev.codepage (CIFSD_CODEPAGE_LEN - 1),
                username := [] },
             Effect.handle_lanman_pipe
              { pipe_type := ev.pipe_type,
                codepage := strncpy ev.codepage (CIFSD_CODEPAGE_LEN - 1),
                username := strncpy ev.username (CIFSD_USERNAME_LEN - 1) }
              ev.buffer,
             Effect.sendmsg
              { uevent_zero with
                type := some msg_type.CIFSD_UEVENT_LANMAN_PIPE_RSP,
                server_handle := ev.server_handle,
                pipe_type := ev.pipe_type,
                error := if env.handle_lanman_pipe_ret < 0 then env.handle_lanman_pipe_ret else 0,
                buflen :=
                  to_u32 (if env.handle_lanman_pipe_ret < 0 then 0
                    else env.handle_lanman_pipe_ret),
                data_count :=
                  to_u32 (if env.handle_lanman_pipe_ret < 0 then 0
                    else env.handle_lanman_pipe_ret),
                param_count := to_u32 env.param_len }
              (some env.out_buf)
              (if env.handle_lanman_pipe_ret < 0 then 0 else env.handle_lanman_pipe_ret),
             Effect.list_del_pipe ev.server_handle
              { pipe_type := ev.pipe_type,
                codepage := strncpy ev.codepage (CIFSD_CODEPAGE_LEN - 1),
                username := strncpy ev.username (CIFSD_USERNAME_LEN - 1) }] } := by
  obtain ⟨c, hfind, hcr⟩ := cifsd_create_pipe_ok hcreate
  have hlook := lookup_pipe_after_add env.client_ok2
    { pipe_type := ev.pipe_type, codepage := strncpy ev.codepage (CIFSD_CODEPAGE_LEN - 1),
      username := [] } hfind
  have hrem := lanman_remove_after_create env.client_ok3 ev.username
    { pipe_type := ev.pipe_type, codepage := strncpy ev.codepage (CIFSD_CODEPAGE_LEN - 1),
      username := [] } hfind
  simp only at hlook hrem
  unfold handle_lanman_pipe_event
  rw [hcr] at *
  simp only [hassert, hbuf, if_true, ne_eq, not_true_eq_false, if_false]
  rw [hlook]
  simp only [lanman_pipe_out, hrem, List.cons_append, List.nil_append, List.append_assoc]

/-! ## The registry after each handler -/

theorem read_clients {max_payload : Nat} {env : Env} {clients : Registry} {ev : kevent}
    {r : Result} (hr : handle_read_pipe_event max_payload env clients ev = Outcome.returned r) :
    r.clients = (lookup_client env.client_ok clients ev.server_handle).1 ∨
      r.clients = clients := by
  have hl := lookup_pipe_clients env.client_ok clients ev.server_handle ev.pipe_type
  unfold handle_read_pipe_event at hr
  rcases hlp : lookup_pipe env.client_ok clients ev.server_handle ev.pipe_type with ⟨c1, op⟩
  rw [hlp] at hr hl
  simp only at hl
  subst hl
  cases op <;> simp only [read_pipe_out] at hr <;> split_ifs at hr <;>
    simp only [Outcome.returned.injEq] at hr <;> subst hr <;> simp

theorem write_clients {env : Env} {clients : Registry} {ev : kevent}
    {r : Result} (hr : handle_write_pipe_event env clients ev = Outcome.returned r) :
    r.clients = (lookup_client env.client_ok clients ev.server_handle).1 := by
  have hl := lookup_pipe_clients env.client_ok clients ev.server_handle ev.pipe_type
  unfold handle_write_pipe_event at hr
  rcases hlp : lookup_pipe env.client_ok clients ev.server_handle ev.pipe_type with ⟨c1, op⟩
  rw [hlp] at hr hl
  simp only at hl
  subst hl
  cases op <;> simp only [write_pipe_out, Outcome.returned.injEq] at hr <;> subst hr <;> rfl

theorem ioctl_clients {max_payload : Nat} {env : Env} {clients : Registry} {ev : kevent}
    {r : Result} (hr : handle_ioctl_pipe_event max_payload env clients ev = Outcome.returned r) :
    r.clients = (lookup_client env.client_ok clients ev.server_handle).1 ∨
      r.clients = clients := by
  have hl := lookup_pipe_clients env.client_ok clients ev.server_handle ev.pipe_type
  unfold handle_ioctl_pipe_event at hr
  rcases hlp : lookup_pipe env.client_ok clients ev.server_handle ev.pipe_type with ⟨c1, op⟩
  rw [hlp] at hr hl
  simp only at hl
  subst hl
  cases op <;> simp only [ioctl_pipe_out] at hr <;> split_ifs at hr <;>
    simp only [Outcome.returned.injEq] at hr <;> subst hr <;> simp

/-- The registry that `handle_lanman_pipe_event` leaves: the one that
`lookup_client` leaves when the pipe was created, and the one that
`cifsd_remove_pipe` leaves otherwise. -/
theorem lanman_clients {max_payload : Nat} {env : Env} {clients : Registry} {ev : kevent}
    {r : Result}
    (hr : handle_lanman_pipe_event max_payload env clients ev = Outcome.returned r) :
    r.clients = (lookup_client env.client_ok clients ev.server_handle).1 ∨
      r.clients =
        (cifsd_remove_pipe env.client_ok3 clients ev.server_handle ev.pipe_type).clients := by
  by_cases hassert : ev.out_buflen ≤ max_payload
  · by_cases hbuf : env.buf_ok = true
    · by_cases hcreate : (cifsd_create_pipe env.pipe_ok env.client_ok clients ev.server_handle
          ev.pipe_type ev.codepage).ret = 0
      · rw [lanman_nominal max_payload env clients ev hassert hbuf hcreate] at hr
        simp only [Outcome.returned.injEq] at hr
        subst hr
        exact Or.inl rfl
      · unfold handle_lanman_pipe_event at hr
        rw [cifsd_create_pipe_fail hcreate] at hr
        simp [hassert, hbuf, ENOMEM, lanman_pipe_out] at hr
        subst hr
        exact Or.inr rfl
    · unfold handle_lanman_pipe_event at hr
      simp [hassert, hbuf, lanman_pipe_out] at hr
      subst hr
      exact Or.inr rfl
  · unfold handle_lanman_pipe_event at hr
    simp [hassert] at hr

/-- Every handler keeps pipe uniqueness, `CREATE_PIPE` when `lookup_pipe` finds
no pipe of the type for the handle. -/
theorem pipe_unique_request_handler {max_payload : Nat} {env : Env} {clients : Registry}
    {ev : kevent} {r : Result} (hu : pipe_unique clients)
    (hfresh : ev.nlmsg_type = msg_type.CIFSD_KEVENT_CREATE_PIPE →
      (lookup_pipe false clients ev.server_handle ev.pipe_type).2 = none)
    (hr : request_handler max_payload env clients ev = Outcome.returned r) :
    pipe_unique r.clients := by
  unfold request_handler at hr
  split at hr
  · next ht =>
    simp only [handle_create_pipe_event, Outcome.returned.injEq] at hr
    subst hr
    exact pipe_unique_create _ _ _ _ _ hu (hfresh ht)
  · simp only [handle_remove_pipe_event, Outcome.returned.injEq] at hr
    subst hr
    exact pipe_unique_remove _ _ _ hu
  · rcases read_clients hr with h | h <;> rw [h]
    · exact pipe_unique_lookup_client _ _ hu
    · exact hu
  · rw [write_clients hr]
    exact pipe_unique_lookup_client _ _ hu
  · rcases ioctl_clients hr with h | h <;> rw [h]
    · exact pipe_unique_lookup_client _ _ hu
    · exact hu
  · rcases lanman_clients hr with h | h <;> rw [h]
    · exact pipe_unique_lookup_client _ _ hu
    · exact pipe_unique_remove _ _ _ hu
  · simp at hr
  · simp only [Outcome.returned.injEq] at hr
    subst hr
    exact hu
  · simp only [Outcome.returned.injEq] at hr
    subst hr
    exact hu

theorem pipe_unique_run (max_payload : Nat) :
    ∀ (evs : List (Env × kevent)) (clients : Registry), pipe_unique clients →
      creates_fresh max_payload clients evs = true →
      pipe_unique (run max_payload clients evs)
  | [], _, hu, _ => hu
  | (env, ev) :: rest, clients, hu, hf => by
    unfold creates_fresh at hf
    rw [Bool.and_eq_true] at hf
    unfold run
    cases hr : request_handler max_payload env clients ev with
    | returned r =>
      rw [hr] at hf
      refine pipe_unique_run max_payload rest r.clients
        (pipe_unique_request_handler hu ?_ hr) hf.2
      intro ht
      have h1 := hf.1
      rw [if_pos ht] at h1
      simpa using h1
    | aborted => exact hu
    | exited s => exact hu

/-! ## C1: pipe uniqueness -/

/-- C1, counterexample: from the empty registry, two `CREATE_PIPE` messages for
the same handle and pipe type leave a client holding two pipes of that type, so
pipe uniqueness does not hold after every sequence of messages. -/
theorem c1_repeated_create_breaks_pipe_unique :
    ¬ pipe_unique
      (run 16 []
        [(env_ok 0, kev msg_type.CIFSD_KEVENT_CREATE_PIPE 1 2),
         (env_ok 0, kev msg_type.CIFSD_KEVENT_CREATE_PIPE 1 2)]) := by
  decide

/-- C1, amended: starting from the empty registry, after any sequence of
messages (of any type, whatever the environment answers) in which every
`CREATE_PIPE` arrives when `lookup_pipe` finds no pipe of its type for its
handle, every client holds at most one pipe of each pipe type. -/
theorem c1_pipe_unique_of_fresh_creates (max_payload : Nat) (evs : List (Env × kevent))
    (hfresh : creates_fresh max_payload [] evs = true) :
    pipe_unique (run max_payload [] evs) :=
  pipe_unique_run max_payload evs [] (by simp [pipe_unique]) hfresh

/-- C1, witness: a create, a LANMAN transaction on the same handle and type, a
destroy and a second create. -/
theorem c1_pipe_unique_witness :
    creates_fresh 16 []
        [(env_ok 0, kev msg_type.CIFSD_KEVENT_CREATE_PIPE 1 2),
         (env_ok 5, kev msg_type.CIFSD_KEVENT_LANMAN_PIPE 1 2),
         (env_ok 0, kev msg_type.CIFSD_KEVENT_DESTROY_PIPE 1 2),
         (env_ok 0, kev msg_type.CIFSD_KEVENT_CREATE_PIPE 1 2)] = true ∧
      pipe_unique
        (run 16 []
          [(env_ok 0, kev msg_type.CIFSD_KEVENT_CREATE_PIPE 1 2),
           (env_ok 5, kev msg_type.CIFSD_KEVENT_LANMAN_PIPE 1 2),
           (env_ok 0, kev msg_type.CIFSD_KEVENT_DESTROY_PIPE 1 2),
           (env_ok 0, kev msg_type.CIFSD_KEVENT_CREATE_PIPE 1 2)]) :=
  ⟨by decide, c1_pipe_unique_of_fresh_creates 16 _ (by decide)⟩

/-! ## C2, C3: one correlated response per pipe request -/

theorem responses_append (a b : List Effect) :
    responses (a ++ b) = responses a ++ responses b := by
  induction a with
  | nil => rfl
  | cons e a ih => cases e <;> simp [responses, ih]

theorem rpc_calls_append (a b : List Effect) :
    rpc_calls (a ++ b) = rpc_calls a ++ rpc_calls b := by
  induction a with
  | nil => rfl
  | cons e a ih => cases e <;> simp [rpc_calls, ih]

theorem responses_create (pipe_ok client_ok : Bool) (clients : Registry) (h k : Nat)
    (cp : List Char) :
    responses (cifsd_create_pipe pipe_ok client_ok clients h k cp).trace = [] := by
  unfold cifsd_create_pipe
  cases initpipe pipe_ok k cp with
  | none => rfl
  | some p =>
    rcases lookup_client client_ok clients h with ⟨c1, oc⟩
    cases oc <;> rfl

theorem responses_remove (a : Bool) (clients : Registry) (h k : Nat) :
    responses (cifsd_remove_pipe a clients h k).trace = [] := by
  unfold cifsd_remove_pipe
  rcases lookup_pipe a clients h k with ⟨c1, op⟩
  cases op <;> rfl

theorem read_response (max_payload : Nat) (env : Env) (clients : Registry) (ev : kevent)
    (hassert : ev.out_buflen ≤ max_payload) :
    ∃ r hdr, handle_read_pipe_event max_payload env clients ev = Outcome.returned r ∧
      responses r.trace = [hdr] ∧
      hdr.type = some msg_type.CIFSD_UEVENT_READ_PIPE_RSP ∧
      hdr.server_handle = ev.server_handle ∧ hdr.pipe_type = ev.pipe_type := by
  unfold handle_read_pipe_event
  rcases lookup_pipe env.client_ok clients ev.server_handle ev.pipe_type with ⟨c1, op⟩
  cases op <;> simp only [hassert, if_true, read_pipe_out] <;> split_ifs <;>
    exact ⟨_, _, rfl, rfl, rfl, rfl, rfl⟩

theorem write_response (env : Env) (clients : Registry) (ev : kevent) :
    ∃ r hdr, handle_write_pipe_event env clients ev = Outcome.returned r ∧
      responses r.trace = [hdr] ∧
      hdr.type = some msg_type.CIFSD_UEVENT_WRITE_PIPE_RSP ∧
      hdr.server_handle = ev.server_handle ∧ hdr.pipe_type = ev.pipe_type := by
  unfold handle_write_pipe_event
  rcases lookup_pipe env.client_ok clients ev.server_handle ev.pipe_type with ⟨c1, op⟩
  cases op <;> simp only [write_pipe_out] <;>
    exact ⟨_, _, rfl, rfl, rfl, rfl, rfl⟩

theorem ioctl_response (max_payload : Nat) (env : Env) (clients : Registry) (ev : kevent)
    (hassert : ev.out_buflen ≤ max_payload) :
    ∃ r hdr, handle_ioctl_pipe_event max_payload env clients ev = Outcome.returned r ∧
      responses r.trace = [hdr] ∧
      hdr.type = some msg_type.CIFSD_UEVENT_IOCTL_PIPE_RSP ∧
      hdr.server_handle = ev.server_handle ∧ hdr.pipe_type = ev.pipe_type := by
  unfold handle_ioctl_pipe_event
  rcases lookup_pipe env.client_ok clients ev.server_handle ev.pipe_type with ⟨c1, op⟩
  cases op <;> simp only [hassert, if_true, ioctl_pipe_out] <;> split_ifs <;>
    exact ⟨_, _, rfl, rfl, rfl, rfl, rfl⟩

theorem lanman_response (max_payload : Nat) (env : Env) (clients : Registry) (ev : kevent)
    (hassert : ev.out_buflen ≤ max_payload) :
    ∃ r hdr, handle_lanman_pipe_event max_payload env clients ev = Outcome.returned r ∧
      responses r.trace = [hdr] ∧
      hdr.type = some msg_type.CIFSD_UEVENT_LANMAN_PIPE_RSP ∧
      hdr.server_handle = ev.server_handle ∧ hdr.pipe_type = ev.pipe_type := by
  have key : ∀ (cl : Registry) (tr : List Effect) (buf : Option (List Char))
      (ret nbytes pl : Int), responses tr = [] →
      ∃ r hdr, lanman_pipe_out env ev cl tr buf ret nbytes pl = Outcome.returned r ∧
        responses r.trace = [hdr] ∧
        hdr.type = some msg_type.CIFSD_UEVENT_LANMAN_PIPE_RSP ∧
        hdr.server_handle = ev.server_handle ∧ hdr.pipe_type = ev.pipe_type := by
    intro cl tr buf ret nbytes pl htr
    refine ⟨_,
      { uevent_zero with
        type := some msg_type.CIFSD_UEVENT_LANMAN_PIPE_RSP,
        server_handle := ev.server_handle,
        pipe_type := ev.pipe_type,
        error := ret,
        buflen := to_u32 nbytes,
        data_count := to_u32 nbytes,
        param_count := to_u32 pl },
      rfl, ?_, rfl, rfl, rfl⟩
    rw [responses_append, responses_append, htr, responses_remove]
    rfl
  unfold handle_lanman_pipe_event
  rcases lookup_pipe env.client_ok2
    (cifsd_create_pipe env.pipe_ok env.client_ok clients ev.server_handle ev.pipe_type
      ev.codepage).clients ev.server_handle ev.pipe_type with ⟨c1, op⟩
  cases op <;> simp only [hassert, if_true] <;> split_ifs <;> apply key <;>
    simp [responses, responses_append, responses_create]

/-- C2, counterexample: a `READ_PIPE` message with `out_buflen = 17` when
`NETLINK_CIFSD_MAX_PAYLOAD` is 16 fails the assertion of
`handle_read_pipe_event`; the process aborts and no response is sent. -/
theorem c2_assertion_failure_sends_nothing :
    request_handler 16 (env_ok 0) []
        { kev msg_type.CIFSD_KEVENT_READ_PIPE 1 2 with out_buflen := 17 } =
      Outcome.aborted := by
  decide

/-- C2, amended: for every registry state, every answer of the environment
(allocation failures, a missing pipe and collaborator errors included) and every
`READ_PIPE`, `WRITE_PIPE`, `IOCTL_PIPE` or `LANMAN_PIPE` message that passes the
assertion of its handler (`out_buflen <= NETLINK_CIFSD_MAX_PAYLOAD`; the write
handler has none), `request_handler` returns after sending exactly one message,
whose type is the matching response type and whose `server_handle` and
`pipe_type` are those of the request. -/
theorem c2_exactly_one_correlated_response (max_payload : Nat) (env : Env)
    (clients : Registry) (ev : kevent)
    (htype : ev.nlmsg_type = msg_type.CIFSD_KEVENT_READ_PIPE ∨
      ev.nlmsg_type = msg_type.CIFSD_KEVENT_WRITE_PIPE ∨
      ev.nlmsg_type = msg_type.CIFSD_KEVENT_IOCTL_PIPE ∨
      ev.nlmsg_type = msg_type.CIFSD_KEVENT_LANMAN_PIPE)
    (hassert : ev.nlmsg_type = msg_type.CIFSD_KEVENT_WRITE_PIPE ∨
      ev.out_buflen ≤ max_payload) :
    ∃ r hdr, request_handler max_payload env clients ev = Outcome.returned r ∧
      responses r.trace = [hdr] ∧
      hdr.type = some (response_type ev.nlmsg_type) ∧
      hdr.server_handle = ev.server_handle ∧ hdr.pipe_type = ev.pipe_type := by
  unfold request_handler
  rcases htype with ht | ht | ht | ht <;> rw [ht] at hassert ⊢ <;>
    simp only [response_type]
  · exact read_response max_payload env clients ev (by simpa using hassert)
  · exact write_response env clients ev
  · exact ioctl_response max_payload env clients ev (by simpa using hassert)
  · exact lanman_response max_payload env clients ev (by simpa using hassert)

/-- C2, witness: a `READ_PIPE` for a handle that has no pipe, in an environment
where the response buffer cannot be allocated. -/
theorem c2_exactly_one_correlated_response_witness :
    ∃ r hdr,
      request_handler 16 { env_ok 0 with buf_ok := false } []
          (kev msg_type.CIFSD_KEVENT_READ_PIPE 1 2) = Outcome.returned r ∧
      responses r.trace = [hdr] ∧
      hdr.type = some (response_type (kev msg_type.CIFSD_KEVENT_READ_PIPE 1 2).nlmsg_type) ∧
      hdr.server_handle = (kev msg_type.CIFSD_KEVENT_READ_PIPE 1 2).server_handle ∧
      hdr.pipe_type = (kev msg_type.CIFSD_KEVENT_READ_PIPE 1 2).pipe_type :=
  c2_exactly_one_correlated_response 16 { env_ok 0 with buf_ok := false } []
    (kev msg_type.CIFSD_KEVENT_READ_PIPE 1 2) (Or.inl rfl) (Or.inr (by decide))

/-! ## C3: a request for a missing pipe -/

theorem find_of_not_has_client {clients : Registry} {h : Nat}
    (hc : has_client clients h = false) :
    clients.find? (fun c => c.hash == h) = none := by
  rw [List.find?_eq_none]
  intro c hmem hh
  have : has_client clients h = true := List.any_eq_true.2 ⟨c, hmem, hh⟩
  rw [hc] at this
  cases this

theorem hash_of_find {clients : Registry} {h : Nat} {c : cifsd_client_info}
    (hc : clients.find? (fun c => c.hash == h) = some c) : (c.hash == h) = true := by
  have hh := List.find?_some (p := fun c : cifsd_client_info => c.hash == h) hc
  exact hh

theorem has_client_of_find {clients : Registry} {h : Nat} {c : cifsd_client_info}
    (hc : clients.find? (fun c => c.hash == h) = some c) : has_client clients h = true :=
  List.any_eq_true.2 ⟨c, mem_of_find hc, hash_of_find hc⟩

/-- When no client record with the handle holds a pipe of the type,
`lookup_pipe` returns no pipe. -/
theorem lookup_pipe_of_no_pipe (a : Bool) {clients : Registry} {h k : Nat}
    (hmiss : has_pipe clients h k = false) : (lookup_pipe a clients h k).2 = none := by
  cases hc : clients.find? (fun c => c.hash == h) with
  | some c =>
    rw [lookup_pipe_of_found a k hc]
    simp only
    rw [List.find?_eq_none]
    intro p hp hk
    have : has_pipe clients h k = true := by
      refine List.any_eq_true.2 ⟨c, mem_of_find hc, ?_⟩
      rw [Bool.and_eq_true]
      exact ⟨hash_of_find hc, List.any_eq_true.2 ⟨p, hp, hk⟩⟩
    rw [hmiss] at this
    cases this
  | none =>
    unfold lookup_pipe
    rw [lookup_client_of_missing a hc]
    cases a <;> simp

/-- C3, counterexample: a `READ_PIPE` for handle 2 and type 2 on the empty
registry, when the response buffer cannot be allocated, is answered with
`error = -ENOMEM` (-12), not `-ENOENT` (-2): the allocation is tested before
the pipe is looked up. -/
theorem c3_enomem_before_lookup :
    (outcome_responses
      (request_handler 16 { env_ok 0 with buf_ok := false } []
        (kev msg_type.CIFSD_KEVENT_READ_PIPE 2 2))).map (fun hdr => hdr.error) = [-12] := by
  decide

/-- C3, amended: for every registry state in which no client record of the
handle holds a pipe of the type, every environment and every `READ_PIPE`,
`WRITE_PIPE` or `IOCTL_PIPE` message for that handle and type that passes the
assertion of its handler (`out_buflen <= NETLINK_CIFSD_MAX_PAYLOAD`; the write
handler has none), exactly one response is sent, with `buflen = 0` and
`read_count`, `write_count` and `data_count` all zero, and the RPC collaborator
is not called; its `error` is `-ENOENT`, except that a `READ_PIPE` or
`IOCTL_PIPE` whose response buffer cannot be allocated is answered with
`-ENOMEM`. -/
theorem c3_missing_pipe_response (max_payload : Nat) (env : Env) (clients : Registry)
    (ev : kevent)
    (htype : ev.nlmsg_type = msg_type.CIFSD_KEVENT_READ_PIPE ∨
      ev.nlmsg_type = msg_type.CIFSD_KEVENT_WRITE_PIPE ∨
      ev.nlmsg_type = msg_type.CIFSD_KEVENT_IOCTL_PIPE)
    (hassert : ev.nlmsg_type = msg_type.CIFSD_KEVENT_WRITE_PIPE ∨
      ev.out_buflen ≤ max_payload)
    (hmiss : has_pipe clients ev.server_handle ev.pipe_type = false) :
    ∃ r hdr, request_handler max_payload env clients ev = Outcome.returned r ∧
      responses r.trace = [hdr] ∧
      hdr.error =
        (if ev.nlmsg_type = msg_type.CIFSD_KEVENT_WRITE_PIPE ∨ env.buf_ok = true
          then -ENOENT else -ENOMEM) ∧
      hdr.buflen = 0 ∧
      hdr.read_count = 0 ∧ hdr.write_count = 0 ∧ hdr.data_count = 0 ∧
      rpc_calls r.trace = [] := by
  have hl := lookup_pipe_of_no_pipe env.client_ok hmiss
  unfold request_handler
  rcases htype with ht | ht | ht <;> rw [ht] at hassert ⊢ <;> simp only
  · have ha : ev.out_buflen ≤ max_payload := by simpa using hassert
    unfold handle_read_pipe_event
    rcases hlp : lookup_pipe env.client_ok clients ev.server_handle ev.pipe_type with ⟨c1, op⟩
    rw [hlp] at hl
    simp only at hl
    subst hl
    by_cases hb : env.buf_ok = true
    · simp only [ha, hb, if_true, read_pipe_out]
      refine ⟨_, _, rfl, rfl, ?_, rfl, rfl, rfl, rfl, rfl⟩
      simp
    · simp only [ha, hb, if_true, read_pipe_out]
      refine ⟨_, _, rfl, rfl, ?_, rfl, rfl, rfl, rfl, rfl⟩
      simp
  · unfold handle_write_pipe_event
    rcases hlp : lookup_pipe env.client_ok clients ev.server_handle ev.pipe_type with ⟨c1, op⟩
    rw [hlp] at hl
    simp only at hl
    subst hl
    simp only [write_pipe_out]
    refine ⟨_, _, rfl, rfl, ?_, rfl, rfl, ?_, rfl, rfl⟩
    · simp
    · simp [ENOENT]
  · have ha : ev.out_buflen ≤ max_payload := by simpa using hassert
    unfold handle_ioctl_pipe_event
    rcases hlp : lookup_pipe env.client_ok clients ev.server_handle ev.pipe_type with ⟨c1, op⟩
    rw [hlp] at hl
    simp only at hl
    subst hl
    by_cases hb : env.buf_ok = true
    · simp only [ha, hb, if_true, ioctl_pipe_out]
      refine ⟨_, _, rfl, rfl, ?_, rfl, rfl, rfl, rfl, rfl⟩
      simp
    · simp only [ha, hb, if_true, ioctl_pipe_out]
      refine ⟨_, _, rfl, rfl, ?_, rfl, rfl, rfl, rfl, rfl⟩
      simp

/-- C3, witness: scenario S5 of the specification, `READ_PIPE(h=0x2)` with no
matching pipe, in a registry that holds a pipe of another handle. -/
theorem c3_missing_pipe_response_witness :
    ∃ r hdr,
      request_handler 16 (env_ok 12)
          [{ hash := 1, pipelist := [{ pipe_type := 2, codepage := [], username := [] }] }]
          (kev msg_type.CIFSD_KEVENT_READ_PIPE 2 2) = Outcome.returned r ∧
      responses r.trace = [hdr] ∧
      hdr.error =
        (if (kev msg_type.CIFSD_KEVENT_READ_PIPE 2 2).nlmsg_type =
              msg_type.CIFSD_KEVENT_WRITE_PIPE ∨ (env_ok 12).buf_ok = true
          then -ENOENT else -ENOMEM) ∧
      hdr.buflen = 0 ∧
      hdr.read_count = 0 ∧ hdr.write_count = 0 ∧ hdr.data_count = 0 ∧
      rpc_calls r.trace = [] :=
  c3_missing_pipe_response 16 (env_ok 12)
    [{ hash := 1, pipelist := [{ pipe_type := 2, codepage := [], username := [] }] }]
    (kev msg_type.CIFSD_KEVENT_READ_PIPE 2 2) (Or.inl rfl) (Or.inr (by decide)) (by decide)

/-! ## C4: lookup after destroy -/

/-- Deleting the first pipe of a type leaves no pipe of that type exactly when
there was at most one. -/
theorem find_erase_none_iff (k : Nat) :
    ∀ ps : List cifsd_pipe,
      (ps.eraseP (fun p => p.pipe_type == k)).find? (fun p => p.pipe_type == k) = none ↔
        ps.countP (fun p => p.pipe_type == k) ≤ 1
  | [] => by simp
  | p :: ps => by
    have ih := find_erase_none_iff k ps
    by_cases hp : (p.pipe_type == k) = true
    · have hz : ps.find? (fun p => p.pipe_type == k) = none ↔
          ps.countP (fun p => p.pipe_type == k) = 0 := by
        rw [List.find?_eq_none, List.countP_eq_zero]
      simp only [List.eraseP_cons, hp, cond_true, List.countP_cons, if_true]
      rw [hz]
      omega
    · have hp2 : (p.pipe_type == k) = false := by simpa using hp
      simp only [List.eraseP_cons, hp2, cond_false, List.find?_cons, List.countP_cons,
        Bool.false_eq_true, if_false, Nat.add_zero]
      exact ih

/-- After `cifsd_remove_pipe`, `lookup_pipe` finds no pipe of the type for the
handle exactly when the client held at most one such pipe. -/
theorem lookup_after_remove_iff (a a2 : Bool) (clients : Registry) (h k : Nat) :
    (lookup_pipe a2 (cifsd_remove_pipe a clients h k).clients h k).2 = none ↔
      pipes_of_type clients h k ≤ 1 := by
  rw [cifsd_remove_pipe_clients]
  unfold pipes_of_type
  cases hc : clients.find? (fun c => c.hash == h) with
  | some c =>
    have hfind : (update_client (del_pipe k) h clients).find?
        (fun c => c.hash == h) = some (del_pipe k c) := by
      rw [find_update_client (del_pipe k) (fun _ => rfl), hc]
      rfl
    rw [lookup_client_of_found a hc]
    simp only
    rw [lookup_pipe_of_found a2 k hfind]
    exact find_erase_none_iff k c.pipelist
  | none =>
    simp only [Nat.zero_le, iff_true]
    have hmiss : has_pipe (update_client (del_pipe k) h (lookup_client a clients h).1) h k
        = false := by
      rw [lookup_client_of_missing a hc]
      have hno : has_pipe clients h k = false := by
        rw [Bool.eq_false_iff]
        intro ht
        obtain ⟨c, hmem, hh⟩ := List.any_eq_true.1 ht
        rw [Bool.and_eq_true] at hh
        exact absurd hh.1 (List.find?_eq_none.1 hc c hmem)
      cases a
      · simpa [update_client_of_missing _ hc] using hno
      · simpa [update_client, del_pipe, has_pipe] using hno
    exact lookup_pipe_of_no_pipe a2 hmiss

/-- C4, counterexample: after two `CREATE_PIPE(1, 2)` from the empty registry
and one `DESTROY_PIPE(1, 2)`, `lookup_pipe(1, 2)` still returns a pipe. -/
theorem c4_lookup_finds_pipe_after_destroy :
    (lookup_pipe true
      (run 16 []
        [(env_ok 0, kev msg_type.CIFSD_KEVENT_CREATE_PIPE 1 2),
         (env_ok 0, kev msg_type.CIFSD_KEVENT_CREATE_PIPE 1 2),
         (env_ok 0, kev msg_type.CIFSD_KEVENT_DESTROY_PIPE 1 2)]) 1 2).2 =
      some { pipe_type := 2, codepage := ['u', 't', 'f', '8'], username := [] } := by
  decide

/-- C4, amended: for every registry state, handle `h`, type `k` and
environment, a `DESTROY_PIPE(h, k)` message is handled to the end, and after it
`lookup_pipe(h, k)` returns no pipe if and only if the client record of `h`
held at most one pipe of type `k` before the message (as it does whenever pipe
uniqueness holds). -/
theorem c4_no_pipe_after_destroy (max_payload : Nat) (env : Env) (a : Bool)
    (clients : Registry) (ev : kevent)
    (htype : ev.nlmsg_type = msg_type.CIFSD_KEVENT_DESTROY_PIPE) :
    ∃ r, request_handler max_payload env clients ev = Outcome.returned r ∧
      ((lookup_pipe a r.clients ev.server_handle ev.pipe_type).2 = none ↔
        pipes_of_type clients ev.server_handle ev.pipe_type ≤ 1) := by
  unfold request_handler
  rw [htype]
  exact ⟨_, rfl, lookup_after_remove_iff env.client_ok a clients ev.server_handle ev.pipe_type⟩

/-- C4, witness: destroying the one pipe of type 2 of client 1, which also
holds a pipe of type 3. -/
theorem c4_no_pipe_after_destroy_witness :
    ∃ r,
      request_handler 16 (env_ok 0)
          [{ hash := 1,
             pipelist := [{ pipe_type := 3, codepage := [], username := [] },
                          { pipe_type := 2, codepage := [], username := [] }] }]
          (kev msg_type.CIFSD_KEVENT_DESTROY_PIPE 1 2) = Outcome.returned r ∧
      ((lookup_pipe true r.clients (kev msg_type.CIFSD_KEVENT_DESTROY_PIPE 1 2).server_handle
          (kev msg_type.CIFSD_KEVENT_DESTROY_PIPE 1 2).pipe_type).2 = none ↔
        pipes_of_type
          [{ hash := 1,
             pipelist := [{ pipe_type := 3, codepage := [], username := [] },
                          { pipe_type := 2, codepage := [], username := [] }] }]
          (kev msg_type.CIFSD_KEVENT_DESTROY_PIPE 1 2).server_handle
          (kev msg_type.CIFSD_KEVENT_DESTROY_PIPE 1 2).pipe_type ≤ 1) :=
  c4_no_pipe_after_destroy 16 (env_ok 0) true
    [{ hash := 1,
       pipelist := [{ pipe_type := 3, codepage := [], username := [] },
                    { pipe_type := 2, codepage := [], username := [] }] }]
    (kev msg_type.CIFSD_KEVENT_DESTROY_PIPE 1 2) rfl

/-- Pipe uniqueness bounds the number of pipes of each type of each client by one. -/
theorem pipes_of_type_le_one {clients : Registry} (hu : pipe_unique clients) (h k : Nat) :
    pipes_of_type clients h k ≤ 1 := by
  unfold pipes_of_type
  cases hc : clients.find? (fun c => c.hash == h) with
  | none => exact Nat.zero_le _
  | some c =>
    have hn := hu c (mem_of_find hc)
    have hcount : (pipe_types c).count k ≤ 1 := List.nodup_iff_count_le_one.1 hn k
    have heq : c.pipelist.countP (fun p => p.pipe_type == k) = (pipe_types c).count k := by
      unfold pipe_types
      rw [List.count, List.countP_map]
      rfl
    simp only
    omega

/-! ## C5: create then destroy -/

theorem lookup_client_clients (a : Bool) (clients : Registry) (h : Nat)
    (hsome : (lookup_client a clients h).2 ≠ none) :
    (lookup_client a clients h).1 =
      if has_client clients h = true then clients
      else ({ hash := h, pipelist := [] } : cifsd_client_info) :: clients := by
  cases hc : clients.find? (fun c => c.hash == h) with
  | some c => simp [lookup_client_of_found a hc, has_client_of_find hc]
  | none =>
    have hno : has_client clients h = false := by
      rw [Bool.eq_false_iff]
      intro ht
      obtain ⟨c, hmem, hh⟩ := List.any_eq_true.1 ht
      exact absurd hh (List.find?_eq_none.1 hc c hmem)
    rw [lookup_client_of_missing a hc] at hsome ⊢
    cases a
    · simp at hsome
    · simp [hno]

/-- C5, counterexample: on the empty registry, `cifsd_create_pipe(1, 2, "utf8")`
followed by `cifsd_remove_pipe(1, 2)` leaves a client record for handle 1, so
the registry is not the empty one it was. -/
theorem c5_create_destroy_leaves_client :
    (cifsd_remove_pipe true
      (cifsd_create_pipe true true [] 1 2 ['u', 't', 'f', '8']).clients 1 2).clients ≠ [] := by
  decide

/-- C5, amended: for every registry state `R`, handle `h`, type `k` and code
page such that `cifsd_create_pipe(h, k, cp)` returns 0, the following
`cifsd_remove_pipe(h, k)` returns 0 and leaves the registry exactly equal to `R`
when `h` has a client record in `R`, and equal to `R` with an empty client
record for `h` put in front when it has none. -/
theorem c5_create_then_destroy (pipe_ok client_ok a : Bool) (clients : Registry)
    (h k : Nat) (cp : List Char)
    (hcreate : (cifsd_create_pipe pipe_ok client_ok clients h k cp).ret = 0) :
    (cifsd_remove_pipe a (cifsd_create_pipe pipe_ok client_ok clients h k cp).clients h k).ret
        = 0 ∧
      (cifsd_remove_pipe a (cifsd_create_pipe pipe_ok client_ok clients h k cp).clients
          h k).clients =
        if has_client clients h = true then clients
        else ({ hash := h, pipelist := [] } : cifsd_client_info) :: clients := by
  obtain ⟨c, hfind, hcr⟩ := cifsd_create_pipe_ok hcreate
  have hlook := lookup_pipe_after_add a
    { pipe_type := k, codepage := strncpy cp (CIFSD_CODEPAGE_LEN - 1), username := [] } hfind
  simp only at hlook
  have hsome : (lookup_client client_ok clients h).2 ≠ none := by
    rw [← find_lookup_client, hfind]
    simp
  rw [hcr]
  simp only
  rw [cifsd_remove_pipe_of_found hlook]
  simp only
  rw [update_client_comp (add_pipe _) (del_pipe k) (fun _ => rfl),
    update_client_fixed _ hfind
      (del_add { pipe_type := k, codepage := strncpy cp (CIFSD_CODEPAGE_LEN - 1),
                 username := [] } c)]
  exact ⟨trivial, lookup_client_clients client_ok clients h hsome⟩

/-- C5, witness: a client that already holds a pipe of the same type and one of
another type; the registry is exactly as before. -/
theorem c5_create_then_destroy_witness :
    (cifsd_remove_pipe true
        (cifsd_create_pipe true true
          [{ hash := 1,
             pipelist := [{ pipe_type := 2, codepage := ['a'], username := ['b'] },
                          { pipe_type := 3, codepage := [], username := [] }] }]
          1 2 ['u', 't', 'f', '8']).clients 1 2).ret = 0 ∧
      (cifsd_remove_pipe true
        (cifsd_create_pipe true true
          [{ hash := 1,
             pipelist := [{ pipe_type := 2, codepage := ['a'], username := ['b'] },
                          { pipe_type := 3, codepage := [], username := [] }] }]
          1 2 ['u', 't', 'f', '8']).clients 1 2).clients =
        if has_client
            [{ hash := 1,
               pipelist := [{ pipe_type := 2, codepage := ['a'], username := ['b'] },
                            { pipe_type := 3, codepage := [], username := [] }] }] 1 = true
        then
          [{ hash := 1,
             pipelist := [{ pipe_type := 2, codepage := ['a'], username := ['b'] },
                          { pipe_type := 3, codepage := [], username := [] }] }]
        else
          ({ hash := 1, pipelist := [] } : cifsd_client_info) ::
            [{ hash := 1,
               pipelist := [{ pipe_type := 2, codepage := ['a'], username := ['b'] },
                            { pipe_type := 3, codepage := [], username := [] }] }] :=
  c5_create_then_destroy true true true
    [{ hash := 1,
       pipelist := [{ pipe_type := 2, codepage := ['a'], username := ['b'] },
                    { pipe_type := 3, codepage := [], username := [] }] }]
    1 2 ['u', 't', 'f', '8'] (by decide)

/-! ## C6: the write response -/

/-- C6, counterexample: the collaborator returns the positive value 1 for a
`WRITE_PIPE` with 7 inbound bytes on an open pipe; the response carries
`error = 1`, which is not zero, and `write_count = 7`, which is not zero. -/
theorem c6_positive_error_keeps_write_count :
    (outcome_responses
      (handle_write_pipe_event (env_ok 1)
        [{ hash := 1, pipelist := [{ pipe_type := 2, codepage := [], username := [] }] }]
        (kev msg_type.CIFSD_KEVENT_WRITE_PIPE 1 2))).map
      (fun hdr => (hdr.error, hdr.write_count)) = [(1, 7)] := by
  decide

/-- C6, amended: for every registry state, environment and `WRITE_PIPE`
message, exactly one response is sent, of type `WRITE_PIPE_RSP` with
`buflen = 0` and no payload; its `error` is `-ENOENT` when `lookup_pipe` finds
no pipe and the value returned by `process_rpc` otherwise; and its
`write_count` is 0 when `error` is negative and the inbound `buflen` when
`error` is zero or positive. -/
theorem c6_write_response (env : Env) (clients : Registry) (ev : kevent) :
    ∃ r hdr, handle_write_pipe_event env clients ev = Outcome.returned r ∧
      r.trace = rpc_calls r.trace ++ [Effect.sendmsg hdr none 0] ∧
      hdr.type = some msg_type.CIFSD_UEVENT_WRITE_PIPE_RSP ∧
      hdr.buflen = 0 ∧
      hdr.write_count = (if hdr.error < 0 then 0 else ev.buflen) ∧
      hdr.error =
        (if (lookup_pipe env.client_ok clients ev.server_handle ev.pipe_type).2 = none
          then -ENOENT else env.process_rpc_ret) := by
  unfold handle_write_pipe_event
  rcases lookup_pipe env.client_ok clients ev.server_handle ev.pipe_type with ⟨c1, op⟩
  cases op with
  | none =>
    exact ⟨_,
      { uevent_zero with
        type := some msg_type.CIFSD_UEVENT_WRITE_PIPE_RSP,
        server_handle := ev.server_handle,
        pipe_type := ev.pipe_type,
        error := -ENOENT,
        buflen := 0,
        write_count := if -ENOENT < 0 then 0 else ev.buflen },
      rfl, rfl, rfl, rfl, rfl, by simp⟩
  | some p =>
    exact ⟨_,
      { uevent_zero with
        type := some msg_type.CIFSD_UEVENT_WRITE_PIPE_RSP,
        server_handle := ev.server_handle,
        pipe_type := ev.pipe_type,
        error := env.process_rpc_ret,
        buflen := 0,
        write_count := if env.process_rpc_ret < 0 then 0 else ev.buflen },
      rfl, rfl, rfl, rfl, rfl, by simp⟩

/-! ## C7: the LANMAN pipe is transient -/

/-- The function `lookup_client` adds no pipe and removes none. -/
theorem all_pipes_lookup_client (a : Bool) (clients : Registry) (h : Nat) :
    all_pipes (lookup_client a clients h).1 = all_pipes clients := by
  cases hc : clients.find? (fun c => c.hash == h) with
  | some c => rw [lookup_client_of_found a hc]
  | none =>
    rw [lookup_client_of_missing a hc]
    cases a <;> simp [all_pipes]

/-- C7, counterexample: client 1 holds a pipe of type 2; a `LANMAN_PIPE` message
for handle 1 and type 2 arrives and the response buffer cannot be allocated.
No pipe is created, the `-ENOMEM` response is sent, and the `cifsd_remove_pipe`
that follows removes the pipe that was there before the message. -/
theorem c7_enomem_removes_existing_pipe :
    outcome_clients
      (handle_lanman_pipe_event 16 { env_ok 0 with buf_ok := false }
        [{ hash := 1, pipelist := [{ pipe_type := 2, codepage := [], username := [] }] }]
        (kev msg_type.CIFSD_KEVENT_LANMAN_PIPE 1 2)) =
      some [{ hash := 1, pipelist := [] }] := by
  decide

/-- C7, amended: for every registry state and every `LANMAN_PIPE` message whose
transient pipe is set up (the handler's assertion
`out_buflen <= NETLINK_CIFSD_MAX_PAYLOAD` holds, the response buffer is
allocated and `cifsd_create_pipe` returns 0), whatever `handle_lanman_pipe`
returns (a byte count or a negative error): the handler returns; the pipes of
the registry, client by client and in order, are exactly those from before the
message (the only change can be an empty client record for a handle that had
none); and the trace is, in this order, the insertion of the new pipe, the call
of the collaborator on it, the send of the `LANMAN_PIPE_RSP` response and the
deletion of that same pipe. -/
theorem c7_lanman_pipe_transient (max_payload : Nat) (env : Env) (clients : Registry)
    (ev : kevent) (hassert : ev.out_buflen ≤ max_payload) (hbuf : env.buf_ok = true)
    (hcreate : (cifsd_create_pipe env.pipe_ok env.client_ok clients ev.server_handle
      ev.pipe_type ev.codepage).ret = 0) :
    ∃ r pipe hdr buf len,
      handle_lanman_pipe_event max_payload env clients ev = Outcome.returned r ∧
      all_pipes r.clients = all_pipes clients ∧
      r.clients =
        (if has_client clients ev.server_handle = true then clients
        else ({ hash := ev.server_handle, pipelist := [] } : cifsd_client_info) :: clients) ∧
      r.trace =
        [Effect.list_add_pipe ev.server_handle { pipe with username := [] },
         Effect.handle_lanman_pipe pipe ev.buffer,
         Effect.sendmsg hdr buf len,
         Effect.list_del_pipe ev.server_handle pipe] ∧
      pipe.pipe_type = ev.pipe_type ∧
      hdr.type = some msg_type.CIFSD_UEVENT_LANMAN_PIPE_RSP ∧
      hdr.error =
        (if env.handle_lanman_pipe_ret < 0 then env.handle_lanman_pipe_ret else 0) := by
  obtain ⟨c, hfind, _⟩ := cifsd_create_pipe_ok hcreate
  have hsome : (lookup_client env.client_ok clients ev.server_handle).2 ≠ none := by
    rw [← find_lookup_client, hfind]
    simp
  refine ⟨_,
    { pipe_type := ev.pipe_type,
      codepage := strncpy ev.codepage (CIFSD_CODEPAGE_LEN - 1),
      username := strncpy ev.username (CIFSD_USERNAME_LEN - 1) },
    _, _, _, lanman_nominal max_payload env clients ev hassert hbuf hcreate,
    all_pipes_lookup_client _ _ _, lookup_client_clients _ _ _ hsome, rfl, rfl, rfl, rfl⟩

/-- C7, witness: a `LANMAN_PIPE` for a client that already holds a pipe of the
same type and one of another type, with `handle_lanman_pipe` returning the
error -5. -/
theorem c7_lanman_pipe_transient_witness :
    ∃ r pipe hdr buf len,
      handle_lanman_pipe_event 16 (env_ok (-5))
          [{ hash := 1,
             pipelist := [{ pipe_type := 2, codepage := ['a'], username := ['b'] },
                          { pipe_type := 3, codepage := [], username := [] }] }]
          (kev msg_type.CIFSD_KEVENT_LANMAN_PIPE 1 2) = Outcome.returned r ∧
      all_pipes r.clients =
        all_pipes
          [{ hash := 1,
             pipelist := [{ pipe_type := 2, codepage := ['a'], username := ['b'] },
                          { pipe_type := 3, codepage := [], username := [] }] }] ∧
      r.clients =
        (if has_client
            [{ hash := 1,
               pipelist := [{ pipe_type := 2, codepage := ['a'], username := ['b'] },
                            { pipe_type := 3, codepage := [], username := [] }] }]
            (kev msg_type.CIFSD_KEVENT_LANMAN_PIPE 1 2).server_handle = true
        then
          [{ hash := 1,
             pipelist := [{ pipe_type := 2, codepage := ['a'], username := ['b'] },
                          { pipe_type := 3, codepage := [], username := [] }] }]
        else
          ({ hash := (kev msg_type.CIFSD_KEVENT_LANMAN_PIPE 1 2).server_handle,
             pipelist := [] } : cifsd_client_info) ::
            [{ hash := 1,
               pipelist := [{ pipe_type := 2, codepage := ['a'], username := ['b'] },
                            { pipe_type := 3, codepage := [], username := [] }] }]) ∧
      r.trace =
        [Effect.list_add_pipe (kev msg_type.CIFSD_KEVENT_LANMAN_PIPE 1 2).server_handle
          { pipe with username := [] },
         Effect.handle_lanman_pipe pipe (kev msg_type.CIFSD_KEVENT_LANMAN_PIPE 1 2).buffer,
         Effect.sendmsg hdr buf len,
         Effect.list_del_pipe (kev msg_type.CIFSD_KEVENT_LANMAN_PIPE 1 2).server_handle pipe] ∧
      pipe.pipe_type = (kev msg_type.CIFSD_KEVENT_LANMAN_PIPE 1 2).pipe_type ∧
      hdr.type = some msg_type.CIFSD_UEVENT_LANMAN_PIPE_RSP ∧
      hdr.error =
        (if (env_ok (-5)).handle_lanman_pipe_ret < 0 then (env_ok (-5)).handle_lanman_pipe_ret
          else 0) :=
  c7_lanman_pipe_transient 16 (env_ok (-5))
    [{ hash := 1,
       pipelist := [{ pipe_type := 2, codepage := ['a'], username := ['b'] },
                    { pipe_type := 3, codepage := [], username := [] }] }]
    (kev msg_type.CIFSD_KEVENT_LANMAN_PIPE 1 2) (by decide) rfl (by decide)

/-! ## C8: completion-filter translation -/

theorem land_of_subset (f u x : Nat) (hx : u &&& x = x) : (f &&& u) &&& x = f &&& x := by
  rw [Nat.land_assoc, hx]

theorem tested_flags_absorb (fl : notify_change) :
    tested_flags fl &&& fl.FILE_NOTIFY_CHANGE_NAME = fl.FILE_NOTIFY_CHANGE_NAME ∧
    tested_flags fl &&& fl.FILE_NOTIFY_CHANGE_ATTRIBUTES = fl.FILE_NOTIFY_CHANGE_ATTRIBUTES ∧
    tested_flags fl &&& fl.FILE_NOTIFY_CHANGE_LAST_WRITE = fl.FILE_NOTIFY_CHANGE_LAST_WRITE ∧
    tested_flags fl &&& fl.FILE_NOTIFY_CHANGE_LAST_ACCESS = fl.FILE_NOTIFY_CHANGE_LAST_ACCESS ∧
    tested_flags fl &&& fl.FILE_NOTIFY_CHANGE_EA = fl.FILE_NOTIFY_CHANGE_EA ∧
    tested_flags fl &&& fl.FILE_NOTIFY_CHANGE_SECURITY = fl.FILE_NOTIFY_CHANGE_SECURITY := by
  unfold tested_flags
  refine ⟨?_, ?_, ?_, ?_, ?_, ?_⟩ <;>
    · apply Nat.eq_of_testBit_eq
      intro i
      simp only [Nat.testBit_and, Nat.testBit_or]
      cases Nat.testBit fl.FILE_NOTIFY_CHANGE_NAME i <;>
        cases Nat.testBit fl.FILE_NOTIFY_CHANGE_ATTRIBUTES i <;>
        cases Nat.testBit fl.FILE_NOTIFY_CHANGE_LAST_WRITE i <;>
        cases Nat.testBit fl.FILE_NOTIFY_CHANGE_LAST_ACCESS i <;>
        cases Nat.testBit fl.FILE_NOTIFY_CHANGE_EA i <;>
        cases Nat.testBit fl.FILE_NOTIFY_CHANGE_SECURITY i <;> rfl

/-- The mask of `convert_completion_filter` as one union. -/
theorem convert_completion_filter_eq (fl : notify_change) (f : Nat) :
    convert_completion_filter fl f =
      (IN_MASK_ADD ||| IN_ONLYDIR) |||
      (if f &&& fl.FILE_NOTIFY_CHANGE_NAME ≠ 0 then
        IN_CREATE ||| IN_DELETE ||| IN_MOVED_FROM ||| IN_MOVED_TO else 0) |||
      (if f &&& fl.FILE_NOTIFY_CHANGE_ATTRIBUTES ≠ 0 then
        IN_ATTRIB ||| IN_MOVED_FROM ||| IN_MOVED_TO ||| IN_MODIFY else 0) |||
      (if f &&& fl.FILE_NOTIFY_CHANGE_LAST_WRITE ≠ 0 ∨
          f &&& fl.FILE_NOTIFY_CHANGE_LAST_ACCESS ≠ 0 ∨
          f &&& fl.FILE_NOTIFY_CHANGE_EA ≠ 0 ∨
          f &&& fl.FILE_NOTIFY_CHANGE_SECURITY ≠ 0 then IN_ATTRIB else 0) := by
  by_cases h1 : f &&& fl.FILE_NOTIFY_CHANGE_NAME = 0 <;>
    by_cases h2 : f &&& fl.FILE_NOTIFY_CHANGE_ATTRIBUTES = 0 <;>
    by_cases h3 : f &&& fl.FILE_NOTIFY_CHANGE_LAST_WRITE = 0 <;>
    by_cases h4 : f &&& fl.FILE_NOTIFY_CHANGE_LAST_ACCESS = 0 <;>
    by_cases h5 : f &&& fl.FILE_NOTIFY_CHANGE_EA = 0 <;>
    by_cases h6 : f &&& fl.FILE_NOTIFY_CHANGE_SECURITY = 0 <;>
    simp only [convert_completion_filter, h1, h2, h3, h4, h5, h6, ne_eq, not_true_eq_false,
      not_false_eq_true, if_true, if_false, or_true, true_or, or_self] <;>
    decide

theorem testBit_ite_zero (P : Prop) [Decidable P] (a i : Nat) :
    (if P then a else 0).testBit i = true ↔ P ∧ a.testBit i = true := by
  split_ifs with h <;> simp [h]

theorem convert_completion_filter_tested (fl : notify_change) (f : Nat) :
    convert_completion_filter fl (f &&& tested_flags fl) = convert_completion_filter fl f := by
  obtain ⟨a1, a2, a3, a4, a5, a6⟩ := tested_flags_absorb fl
  simp only [convert_completion_filter, land_of_subset f _ _ a1, land_of_subset f _ _ a2,
    land_of_subset f _ _ a3, land_of_subset f _ _ a4, land_of_subset f _ _ a5,
    land_of_subset f _ _ a6]

theorem convert_completion_filter_lt (fl : notify_change) (f : Nat) :
    convert_completion_filter fl f < 2 ^ 32 := by
  rw [convert_completion_filter_eq]
  split_ifs <;> decide

/-- A bit is set in the mask exactly when one of the listed events has it. -/
theorem convert_completion_filter_testBit (fl : notify_change) (f i : Nat) :
    (convert_completion_filter fl f).testBit i = true ↔
      (IN_MASK_ADD.testBit i = true ∨ IN_ONLYDIR.testBit i = true ∨
       (f &&& fl.FILE_NOTIFY_CHANGE_NAME ≠ 0 ∧
          (IN_CREATE.testBit i = true ∨ IN_DELETE.testBit i = true ∨
           IN_MOVED_FROM.testBit i = true ∨ IN_MOVED_TO.testBit i = true)) ∨
       (f &&& fl.FILE_NOTIFY_CHANGE_ATTRIBUTES ≠ 0 ∧
          (IN_ATTRIB.testBit i = true ∨ IN_MOVED_FROM.testBit i = true ∨
           IN_MOVED_TO.testBit i = true ∨ IN_MODIFY.testBit i = true)) ∨
       ((f &&& fl.FILE_NOTIFY_CHANGE_LAST_WRITE ≠ 0 ∨
           f &&& fl.FILE_NOTIFY_CHANGE_LAST_ACCESS ≠ 0 ∨
           f &&& fl.FILE_NOTIFY_CHANGE_EA ≠ 0 ∨
           f &&& fl.FILE_NOTIFY_CHANGE_SECURITY ≠ 0) ∧ IN_ATTRIB.testBit i = true)) := by
  rw [convert_completion_filter_eq]
  simp only [Nat.testBit_or, Bool.or_eq_true, testBit_ite_zero, or_assoc]

/-- The mask of `convert_completion_filter` has no bit outside positions 1, 2,
6, 7, 8, 9, 24 and 29, the bits of the eight inotify constants. -/
theorem convert_completion_filter_bits (fl : notify_change) (f i : Nat)
    (hi : (convert_completion_filter fl f).testBit i = true) :
    i = 1 ∨ i = 2 ∨ i = 6 ∨ i = 7 ∨ i = 8 ∨ i = 9 ∨ i = 24 ∨ i = 29 := by
  have h29 : IN_MASK_ADD = 2 ^ 29 := by decide
  have h24 : IN_ONLYDIR = 2 ^ 24 := by decide
  have h9 : IN_DELETE = 2 ^ 9 := by decide
  have h8 : IN_CREATE = 2 ^ 8 := by decide
  have h7 : IN_MOVED_TO = 2 ^ 7 := by decide
  have h6 : IN_MOVED_FROM = 2 ^ 6 := by decide
  have h2 : IN_ATTRIB = 2 ^ 2 := by decide
  have h1 : IN_MODIFY = 2 ^ 1 := by decide
  have h := (convert_completion_filter_testBit fl f i).1 hi
  rw [h29, h24, h9, h8, h7, h6, h2, h1] at h
  simp only [Nat.testBit_two_pow, decide_eq_true_eq] at h
  omega

/-- C8: for every completion filter `f` (and whatever values the six
`FILE_NOTIFY_CHANGE_*` masks of the absent header have), a bit is set in
`convert_completion_filter(f)` if and only if it is a bit of `IN_MASK_ADD` or
`IN_ONLYDIR`, or `f` has `CHANGE_NAME` and it is a bit of `IN_CREATE`,
`IN_DELETE`, `IN_MOVED_FROM` or `IN_MOVED_TO`, or `f` has `CHANGE_ATTRIBUTES`
and it is a bit of `IN_ATTRIB`, `IN_MOVED_FROM`, `IN_MOVED_TO` or `IN_MODIFY`,
or `f` has one of `CHANGE_LAST_WRITE`, `CHANGE_LAST_ACCESS`, `CHANGE_EA`,
`CHANGE_SECURITY` and it is the bit of `IN_ATTRIB`; the bits of `f` outside the
six tested masks do not change the result; and the result fits in 32 bits. -/
theorem c8_completion_filter_mask (fl : notify_change) (f : Nat) :
    (∀ i : Nat, (convert_completion_filter fl f).testBit i = true ↔
      (IN_MASK_ADD.testBit i = true ∨ IN_ONLYDIR.testBit i = true ∨
       (f &&& fl.FILE_NOTIFY_CHANGE_NAME ≠ 0 ∧
          (IN_CREATE.testBit i = true ∨ IN_DELETE.testBit i = true ∨
           IN_MOVED_FROM.testBit i = true ∨ IN_MOVED_TO.testBit i = true)) ∨
       (f &&& fl.FILE_NOTIFY_CHANGE_ATTRIBUTES ≠ 0 ∧
          (IN_ATTRIB.testBit i = true ∨ IN_MOVED_FROM.testBit i = true ∨
           IN_MOVED_TO.testBit i = true ∨ IN_MODIFY.testBit i = true)) ∨
       ((f &&& fl.FILE_NOTIFY_CHANGE_LAST_WRITE ≠ 0 ∨
           f &&& fl.FILE_NOTIFY_CHANGE_LAST_ACCESS ≠ 0 ∨
           f &&& fl.FILE_NOTIFY_CHANGE_EA ≠ 0 ∨
           f &&& fl.FILE_NOTIFY_CHANGE_SECURITY ≠ 0) ∧ IN_ATTRIB.testBit i = true))) ∧
    convert_completion_filter fl (f &&& tested_flags fl) = convert_completion_filter fl f ∧
    convert_completion_filter fl f < 2 ^ 32 :=
  ⟨convert_completion_filter_testBit fl f, convert_completion_filter_tested fl f,
    convert_completion_filter_lt fl f⟩

/-! ## C9, C10: user import -/

theorem toDigitsCore_length (fuel : Nat) :
    ∀ (n k : Nat) (ds : List Char), n < 10 ^ k → 0 < k →
      (Nat.toDigitsCore 10 fuel n ds).length ≤ ds.length + k := by
  induction fuel with
  | zero =>
    intro n k ds _ _
    simp [Nat.toDigitsCore]
  | succ fuel ih =>
    intro n k ds hn hk
    rw [Nat.toDigitsCore]
    split_ifs with h0
    · simp only [List.length_cons]
      omega
    · have hn10 : 10 ≤ n := by
        by_contra hlt
        exact h0 (Nat.div_eq_of_lt (by omega))
      have hk2 : 2 ≤ k := by
        by_contra hlt
        have hk1 : k = 1 := by omega
        rw [hk1] at hn
        omega
      have hdiv : n / 10 < 10 ^ (k - 1) := by
        apply Nat.div_lt_of_lt_mul
        have hpow : 10 * 10 ^ (k - 1) = 10 ^ k := by
          rw [← Nat.pow_succ']
          congr 1
          omega
        omega
      have := ih (n / 10) (k - 1) (Nat.digitChar (n % 10) :: ds) hdiv (by omega)
      simp only [List.length_cons] at this
      omega

theorem toDigits_length_le (n : Nat) (hn : n ≤ 65535) : (Nat.toDigits 10 n).length ≤ 5 := by
  have := toDigitsCore_length (n + 1) n 5 [] (by omega) (by decide)
  simpa [Nat.toDigits] using this

theorem digitChar_ne_nul (d : Nat) (hd : d < 10) : Nat.digitChar d ≠ NUL := by
  interval_cases d <;> decide

theorem toDigitsCore_ne_nul (fuel : Nat) :
    ∀ (n : Nat) (ds : List Char), NUL ∉ ds → NUL ∉ Nat.toDigitsCore 10 fuel n ds := by
  induction fuel with
  | zero =>
    intro n ds hds
    simpa [Nat.toDigitsCore] using hds
  | succ fuel ih =>
    intro n ds hds
    have hd : NUL ∉ Nat.digitChar (n % 10) :: ds := by
      intro hmem
      rcases List.mem_cons.1 hmem with h | h
      · exact digitChar_ne_nul (n % 10) (Nat.mod_lt _ (by decide)) h.symm
      · exact hds h
    rw [Nat.toDigitsCore]
    split_ifs
    · exact hd
    · exact ih _ _ hd

theorem toDigits_ne_nul (n : Nat) : NUL ∉ Nat.toDigits 10 n :=
  toDigitsCore_ne_nul (n + 1) n [] (by simp)

theorem id_format_length_le (uid gid : Nat) (hu : uid ≤ 65535) (hg : gid ≤ 65535) :
    (id_format uid gid).length ≤ UID_BUF_SIZE - 1 := by
  have h1 := toDigits_length_le uid hu
  have h2 := toDigits_length_le gid hg
  simp only [id_format, List.length_append, List.length_cons, List.length_nil, UID_BUF_SIZE]
  omega

theorem id_format_ne_nul (uid gid : Nat) : NUL ∉ id_format uid gid := by
  have h1 := toDigits_ne_nul uid
  have h2 := toDigits_ne_nul gid
  have hc : NUL ≠ ':' := by decide
  have hn : NUL ≠ Char.ofNat 10 := by decide
  simp only [id_format, List.mem_append, List.mem_cons, List.mem_singleton, List.not_mem_nil,
    or_false, not_or]
  exact ⟨⟨⟨⟨hc, h1⟩, hc⟩, h2⟩, hn⟩

/-- The C string in a buffer that holds NUL-free text followed by a NUL. -/
theorem c_str_append_nul (p rest : List Char) (hp : NUL ∉ p) :
    c_str (p ++ NUL :: rest) = p := by
  unfold c_str
  induction p with
  | nil => simp
  | cons c p ih =>
    have hc : c ≠ NUL := fun h => hp (h ▸ List.mem_cons_self _ _)
    have hp2 : NUL ∉ p := fun h => hp (List.mem_cons_of_mem _ h)
    simp [List.takeWhile_cons, hc, ih hp2]

theorem c_str_append_replicate (p : List Char) (k : Nat) (hk : 0 < k) (hp : NUL ∉ p) :
    c_str (p ++ List.replicate k NUL) = p := by
  obtain ⟨j, rfl⟩ : ∃ j, k = j + 1 := ⟨k - 1, by omega⟩
  rw [List.replicate_succ]
  exact c_str_append_nul p _ hp

theorem repr_toList (n : Nat) : (Nat.repr n).toList = Nat.toDigits 10 n := rfl

theorem send_user_entry_of_c_str (p : List Char) (k : Nat) (hk : 0 < k) (hp : NUL ∉ p) :
    is_user_message (send_user_entry (p ++ List.replicate k NUL)) p := by
  refine ⟨k, hk, ?_⟩
  unfold send_user_entry strlen
  rw [c_str_append_replicate p k hk hp]

theorem user_entry_buf_resolved (entry : List Char) (uid gid : Nat)
    (hu : uid ≤ 65535) (hg : gid ≤ 65535) :
    ∃ k, 0 < k ∧
      user_entry_buf entry (some (snprintf_id uid gid)) =
        (entry ++ id_format uid gid) ++ List.replicate k NUL := by
  have hlen := id_format_length_le uid gid hu hg
  have htake : ((id_format uid gid).take (UID_BUF_SIZE - 1)).take (id_format uid gid).length =
      id_format uid gid := by
    rw [List.take_of_length_le hlen, List.take_of_length_le (le_refl _)]
  refine ⟨UID_BUF_SIZE - (id_format uid gid).length, ?_, ?_⟩
  · have : UID_BUF_SIZE = 14 := rfl
    omega
  · simp only [user_entry_buf, snprintf_id, htake]

/-- In a turn where nothing fails, the message handed to the link carries the
payload that the specification gives for the entry. -/
theorem user_message_spec (init_2_strings : List Char → Option (List Char))
    (getpwnam : List Char → Option passwd) (rd : db_read)
    (hff : fault_free rd = true) (hlim : over_limit init_2_strings getpwnam rd = false) :
    ∃ entry, rd.entry = some entry ∧
      ((user_message init_2_strings getpwnam rd = none ∧
          expected_user_payload init_2_strings getpwnam entry = none) ∨
        ∃ eff p, user_message init_2_strings getpwnam rd = some eff ∧
          expected_user_payload init_2_strings getpwnam entry = some p ∧
          is_user_message eff p) := by
  unfold fault_free at hff
  unfold over_limit at hlim
  cases he : rd.entry with
  | none => simp [he] at hff
  | some entry =>
    refine ⟨entry, rfl, ?_⟩
    rw [he] at hff hlim
    have hnul : NUL ∉ entry := by
      simp only [Bool.and_eq_true, Bool.not_eq_true', decide_eq_true_eq] at hff
      have := hff.1.1.1
      simpa [List.contains_iff_exists_mem_beq] using this
    simp only at hlim
    unfold user_message expected_user_payload
    rw [he]
    simp only
    cases hacc : init_2_strings entry with
    | none => exact Or.inl ⟨rfl, rfl⟩
    | some acct =>
      rw [hacc] at hlim
      simp only at hlim ⊢
      cases hpw : getpwnam acct with
      | none =>
        refine Or.inr ⟨_, _, rfl, rfl, ?_⟩
        exact send_user_entry_of_c_str entry UID_BUF_SIZE (by decide) hnul
      | some pw =>
        rw [hpw] at hlim
        simp only [Bool.or_eq_false_iff, decide_eq_false_iff_not, not_lt] at hlim
        obtain ⟨k, hk, hbuf⟩ := user_entry_buf_resolved entry pw.pw_uid pw.pw_gid hlim.1 hlim.2
        refine Or.inr ⟨_, _, rfl, rfl, ?_⟩
        rw [hbuf]
        have hp : NUL ∉ entry ++ id_format pw.pw_uid pw.pw_gid := by
          intro hmem
          rcases List.mem_append.1 hmem with h | h
          · exact hnul h
          · exact id_format_ne_nul _ _ h
        have := send_user_entry_of_c_str (entry ++ id_format pw.pw_uid pw.pw_gid) k hk hp
        simpa [id_format, repr_toList] using this

/-- Turns in which nothing fails and no account is over the limit each add
their message to the trace and leave the loop running. -/
theorem config_users_loop_fault_free (S F : Int)
    (init_2_strings : List Char → Option (List Char))
    (getpwnam : List Char → Option passwd) :
    ∀ (pre rest : List db_read) (acc : List Effect),
      (∀ rd ∈ pre, fault_free rd = true) →
      (∀ rd ∈ pre, over_limit init_2_strings getpwnam rd = false) →
      config_users_loop S F init_2_strings getpwnam (pre ++ rest) acc =
        config_users_loop S F init_2_strings getpwnam rest
          (acc ++ pre.filterMap (user_message init_2_strings getpwnam))
  | [], rest, acc, _, _ => by simp
  | rd :: pre, rest, acc, hff, hlim => by
    have ih := fun acc2 => config_users_loop_fault_free S F init_2_strings getpwnam pre rest acc2
      (fun r hr => hff r (List.mem_cons_of_mem _ hr))
      (fun r hr => hlim r (List.mem_cons_of_mem _ hr))
    have h1 := hff rd (List.mem_cons_self _ _)
    have h2 := hlim rd (List.mem_cons_self _ _)
    unfold fault_free at h1
    unfold over_limit at h2
    cases he : rd.entry with
    | none => simp [he] at h1
    | some entry =>
      rw [he] at h1 h2
      simp only [Bool.and_eq_true, decide_eq_true_eq] at h1
      obtain ⟨⟨⟨_, hcal⟩, hmal⟩, hsend⟩ := h1
      have hsend2 : ¬ rd.sendmsg_ret < 0 := not_lt.2 hsend
      simp only at h2
      rw [List.cons_append, config_users_loop, List.filterMap_cons]
      unfold user_message
      simp only [he]
      cases hacc : init_2_strings entry with
      | none => exact ih acc
      | some acct =>
        rw [hacc] at h2
        simp only at h2 ⊢
        cases hpw : getpwnam acct with
        | none =>
          simp only [hcal, hsend2, if_true, if_false]
          rw [ih, List.append_assoc]
          rfl
        | some pw =>
          rw [hpw] at h2
          simp only [Bool.or_eq_false_iff, decide_eq_false_iff_not] at h2
          have hnot : ¬ (pw.pw_uid > 65535 ∨ pw.pw_gid > 65535) := not_or.2 h2
          simp only [hcal, hmal, hsend2, hnot, if_true, if_false]
          rw [ih, List.append_assoc]
          rfl

/-- A turn whose account is over the limit ends `config_users` with `CIFS_FAIL`
and sends nothing, whatever follows in the database. -/
theorem config_users_loop_over_limit (S F : Int)
    (init_2_strings : List Char → Option (List Char))
    (getpwnam : List Char → Option passwd) (bad : db_read) (post : List db_read)
    (acc : List Effect) (hbad : over_limit init_2_strings getpwnam bad = true) :
    config_users_loop S F init_2_strings getpwnam (bad :: post) acc =
      { ret := F, trace := acc } := by
  unfold over_limit at hbad
  cases he : bad.entry with
  | none => simp [he] at hbad
  | some entry =>
    rw [he] at hbad
    simp only at hbad
    cases hacc : init_2_strings entry with
    | none => simp [hacc] at hbad
    | some acct =>
      rw [hacc] at hbad
      simp only at hbad
      cases hpw : getpwnam acct with
      | none => simp [hpw] at hbad
      | some pw =>
        rw [hpw] at hbad
        simp only [Bool.or_eq_true, decide_eq_true_eq] at hbad
        rw [config_users_loop]
        simp only [he, hacc, hpw, hbad, if_true]
        cases bad.calloc_ok <;> cases bad.malloc_ok <;> simp

/-- C9, counterexample: a database whose first entry `carol::x` resolves to uid
and gid 70000 and whose second entry `bob::y` resolves to 1001 and 100, with
`CIFS_SUCCESS = 0` and `CIFS_FAIL = 1` and nothing failing: `config_users` sends
no message at all, not even the one of `bob`, and returns `CIFS_FAIL`. -/
theorem c9_over_limit_aborts_import :
    config_users 0 1 first_field host_accounts true
        [read_ok ['c', 'a', 'r', 'o', 'l', ':', ':', 'x'],
         read_ok ['b', 'o', 'b', ':', ':', 'y']] =
      { ret := 1, trace := [] } := by
  decide

/-- C9, amended: for every password database in which some entry's account
resolves to a uid or gid above 65535, while every turn before it is free of
faults and within the limit, `config_users` sends the `CONFIG_USER` messages of
the entries before that entry, in file order, sends no message for that entry
nor for any entry after it, and returns `CIFS_FAIL`. -/
theorem c9_over_limit_stops_import (S F : Int)
    (init_2_strings : List Char → Option (List Char))
    (getpwnam : List Char → Option passwd) (pre : List db_read) (bad : db_read)
    (post : List db_read)
    (hff : ∀ rd ∈ pre, fault_free rd = true)
    (hlim : ∀ rd ∈ pre, over_limit init_2_strings getpwnam rd = false)
    (hbad : over_limit init_2_strings getpwnam bad = true) :
    config_users S F init_2_strings getpwnam true (pre ++ bad :: post) =
      { ret := F, trace := pre.filterMap (user_message init_2_strings getpwnam) } := by
  unfold config_users
  rw [if_pos rfl, config_users_loop_fault_free S F init_2_strings getpwnam pre _ [] hff hlim,
    config_users_loop_over_limit S F init_2_strings getpwnam bad post _ hbad, List.nil_append]

/-- C9, witness: `alice::x` (1000, 1000), then `carol::x` (70000, 70000), then
`bob::y`; only the message of `alice` is sent. -/
theorem c9_over_limit_stops_import_witness :
    config_users 0 1 first_field host_accounts true
        ([read_ok ['a', 'l', 'i', 'c', 'e', ':', ':', 'x']] ++
          read_ok ['c', 'a', 'r', 'o', 'l', ':', ':', 'x'] ::
            [read_ok ['b', 'o', 'b', ':', ':', 'y']]) =
      { ret := 1,
        trace := [read_ok ['a', 'l', 'i', 'c', 'e', ':', ':', 'x']].filterMap
          (user_message first_field host_accounts) } :=
  c9_over_limit_stops_import 0 1 first_field host_accounts
    [read_ok ['a', 'l', 'i', 'c', 'e', ':', ':', 'x']]
    (read_ok ['c', 'a', 'r', 'o', 'l', ':', ':', 'x'])
    [read_ok ['b', 'o', 'b', ':', ':', 'y']] (by decide) (by decide) (by decide)

theorem user_messages_spec (init_2_strings : List Char → Option (List Char))
    (getpwnam : List Char → Option passwd) :
    ∀ reads : List db_read,
      (∀ rd ∈ reads, fault_free rd = true) →
      (∀ rd ∈ reads, over_limit init_2_strings getpwnam rd = false) →
      List.Forall₂ is_user_message
        (reads.filterMap (user_message init_2_strings getpwnam))
        (reads.filterMap
          (fun rd => rd.entry.bind (expected_user_payload init_2_strings getpwnam)))
  | [], _, _ => List.Forall₂.nil
  | rd :: reads, hff, hlim => by
    have ih := user_messages_spec init_2_strings getpwnam reads
      (fun r hr => hff r (List.mem_cons_of_mem _ hr))
      (fun r hr => hlim r (List.mem_cons_of_mem _ hr))
    obtain ⟨entry, he, hcase⟩ := user_message_spec init_2_strings getpwnam rd
      (hff rd (List.mem_cons_self _ _)) (hlim rd (List.mem_cons_self _ _))
    rcases hcase with ⟨hm, hp⟩ | ⟨eff, p, hm, hp, hrel⟩
    · rw [List.filterMap_cons, List.filterMap_cons, hm, he, Option.some_bind, hp]
      exact ih
    · rw [List.filterMap_cons, List.filterMap_cons, hm, he, Option.some_bind, hp]
      exact List.Forall₂.cons hrel ih

/-- C10, counterexample: the unresolvable entries `ghost::x` and `guest::y`,
with the link refusing the first message (`cifsd_common_sendmsg` returns -1):
`config_users` returns -1 after that one send and never reaches the second
entry, so one message is handed to the link for two entries with an account
name. -/
theorem c10_send_failure_stops_import :
    config_users 0 1 first_field host_accounts true
        [{ read_ok ['g', 'h', 'o', 's', 't', ':', ':', 'x'] with sendmsg_ret := -1 },
         read_ok ['g', 'u', 'e', 's', 't', ':', ':', 'y']] =
      { ret := -1,
        trace := [send_user_entry
          (['g', 'h', 'o', 's', 't', ':', ':', 'x'] ++ List.replicate 14 NUL)] } := by
  decide

/-- C10, amended: for every password database read without fault (every
`get_entry` returns a C string, every allocation succeeds, the link accepts
every message) whose entries each either do not resolve to a local account or
resolve to a uid and a gid of at most 65535, `config_users` returns
`CIFS_SUCCESS` and hands to the link exactly one `CONFIG_USER` message per entry
with an account name, in file order; the payload of the message is the entry
text followed by `:<uid>:<gid>` and a newline (decimal) when the account
resolves and the unchanged entry text when it does not; the header `buflen` is
the number of characters of the payload; the buffer holds the payload followed
by NULs, and the payload with one NUL is what the send is given. -/
theorem c10_config_users_messages (S F : Int)
    (init_2_strings : List Char → Option (List Char))
    (getpwnam : List Char → Option passwd) (reads : List db_read)
    (hff : ∀ rd ∈ reads, fault_free rd = true)
    (hlim : ∀ rd ∈ reads, over_limit init_2_strings getpwnam rd = false) :
    (config_users S F init_2_strings getpwnam true reads).ret = S ∧
      List.Forall₂ is_user_message
        (config_users S F init_2_strings getpwnam true reads).trace
        (reads.filterMap
          (fun rd => rd.entry.bind (expected_user_payload init_2_strings getpwnam))) := by
  have hloop := config_users_loop_fault_free S F init_2_strings getpwnam reads [] [] hff hlim
  rw [List.append_nil, List.nil_append] at hloop
  unfold config_users
  rw [if_pos rfl, hloop]
  exact ⟨rfl, user_messages_spec init_2_strings getpwnam reads hff hlim⟩

/-- C10, witness: scenarios S1 and S2 of the specification in one database,
`alice::x` with uid and gid 1000 and the unresolvable `ghost::x`; the payloads
are `alice::x:1000:1000` with a newline (19 characters) and `ghost::x` (8
characters). -/
theorem c10_config_users_messages_witness :
    (config_users 0 1 first_field host_accounts true
        [read_ok ['a', 'l', 'i', 'c', 'e', ':', ':', 'x'],
         read_ok ['g', 'h', 'o', 's', 't', ':', ':', 'x']]).ret = 0 ∧
      List.Forall₂ is_user_message
        (config_users 0 1 first_field host_accounts true
          [read_ok ['a', 'l', 'i', 'c', 'e', ':', ':', 'x'],
           read_ok ['g', 'h', 'o', 's', 't', ':', ':', 'x']]).trace
        [['a', 'l', 'i', 'c', 'e', ':', ':', 'x', ':', '1', '0', '0', '0', ':', '1', '0', '0',
            '0', Char.ofNat 10],
         ['g', 'h', 'o', 's', 't', ':', ':', 'x']] :=
  c10_config_users_messages 0 1 first_field host_accounts
    [read_ok ['a', 'l', 'i', 'c', 'e', ':', ':', 'x'],
     read_ok ['g', 'h', 'o', 's', 't', ':', ':', 'x']] (by decide) (by decide)

/-- Scenarios S1 and S2 evaluated: the two messages that `config_users` hands
to the link, with `buflen` 19 and 8 and send lengths 20 and 9. -/
theorem config_users_s1_s2 :
    (config_users 0 1 first_field host_accounts true
        [read_ok ['a', 'l', 'i', 'c', 'e', ':', ':', 'x'],
         read_ok ['g', 'h', 'o', 's', 't', ':', ':', 'x']]).trace =
      [Effect.sendmsg
        { uevent_zero with type := some msg_type.CIFSD_KEVENT_CONFIG_USER, buflen := 19 }
        (some (['a', 'l', 'i', 'c', 'e', ':', ':', 'x', ':', '1', '0', '0', '0', ':', '1', '0',
          '0', '0', Char.ofNat 10] ++ List.replicate 3 NUL)) 20,
       Effect.sendmsg
        { uevent_zero with type := some msg_type.CIFSD_KEVENT_CONFIG_USER, buflen := 8 }
        (some (['g', 'h', 'o', 's', 't', ':', ':', 'x'] ++ List.replicate 14 NUL)) 9] := by
  decide

/-! ## Share configuration: the share list, the global block, the comment (C14, C15, C18) -/

theorem add_new_share_list {c : share_consts} {a : Bool} {st st1 : share_config}
    {p q : c_ptr} (h : add_new_share c a st p q = some st1) :
    ∃ l, st1.cifsd_share_list = l ++ st.cifsd_share_list := by
  unfold add_new_share at h
  split_ifs at h with ha
  · cases h; exact ⟨[], rfl⟩
  · split at h
    · cases h
    · cases h
    · cases h
    · split_ifs at h
      cases h; exact ⟨[_], rfl⟩
    · split_ifs at h
      cases h; exact ⟨[_], rfl⟩

theorem parse_global_config_list {c : share_consts} {st st1 : share_config} {src : List Char}
    (h : parse_global_config c st src = some st1) :
    st1.cifsd_share_list = st.cifsd_share_list := by
  unfold parse_global_config at h
  generalize global_ptrs (strtok_all ['<'] src) (c_ptr.NULL, c_ptr.NULL) = p at h
  obtain ⟨sstring, workgrp⟩ := p
  cases sstring <;> cases workgrp <;> simp at h <;> subst h <;> rfl

theorem parse_share_config_list {c : share_consts} {a : Bool} {st st1 : share_config}
    {src : List Char} (h : parse_share_config c a st src = some st1) :
    ∃ l, st1.cifsd_share_list = l ++ st.cifsd_share_list := by
  unfold parse_share_config at h
  split_ifs at h with hg
  · exact ⟨[], by simpa using parse_global_config_list h⟩
  · split at h
    · cases h; exact ⟨[], rfl⟩
    · exact add_new_share_list h

theorem parse_blocks_list {c : share_consts} (blocks : List (Bool × List Char)) :
    ∀ {st st1 : share_config}, parse_blocks c (some st) blocks = some st1 →
      ∃ l, st1.cifsd_share_list = l ++ st.cifsd_share_list := by
  induction blocks with
  | nil =>
    intro st st1 h
    simp only [parse_blocks] at h
    cases h; exact ⟨[], rfl⟩
  | cons b bs ih =>
    intro st st1 h
    obtain ⟨a, src⟩ := b
    simp only [parse_blocks] at h
    cases hp : parse_share_config c a st src with
    | none => rw [hp] at h; simp [parse_blocks] at h
    | some st2 =>
      rw [hp] at h
      obtain ⟨l1, h1⟩ := parse_share_config_list hp
      obtain ⟨l2, h2⟩ := ih h
      exact ⟨l2 ++ l1, by rw [h2, h1, List.append_assoc]⟩

theorem init_share_config_list {c : share_consts} {st : share_config}
    (h : init_share_config c true = some st) :
    st.cifsd_share_list = [{ sharename := c.STR_IPC, comment := "IPC$ share".toList }] := by
  unfold init_share_config add_new_share at h
  simp only [Bool.not_true, Bool.false_eq_true, if_false] at h
  split_ifs at h
  cases h
  rfl

/-- C14, as the claim states it, fails: after `init_share_config` and one
`parse_share_config` call for the block of a share `data`, the first entry of
the share list in traversal order is `data`, and `IPC$` is the second. -/
theorem c14_ipc_share_not_first :
    (parse_blocks spec_consts (init_share_config spec_consts true)
        [(true, "<sharename = data<comment = t".toList)]).map
      (fun st => st.cifsd_share_list.map (fun s => s.sharename)) =
      some ["data".toList, "IPC$".toList] := by
  decide

/-- C14, amended: when the allocation of `init_share_config` succeeds, then
after any number of `parse_share_config` calls that return, the share list is
the shares added since, followed by the `IPC$` share: `IPC$` is the last entry
in traversal order. -/
theorem c14_ipc_share_last (c : share_consts) (blocks : List (Bool × List Char))
    (st : share_config)
    (h : parse_blocks c (init_share_config c true) blocks = some st) :
    (∃ added, st.cifsd_share_list =
        added ++ [{ sharename := c.STR_IPC, comment := "IPC$ share".toList }]) ∧
      st.cifsd_share_list.getLast? =
        some { sharename := c.STR_IPC, comment := "IPC$ share".toList } := by
  cases hi : init_share_config c true with
  | none => rw [hi] at h; cases blocks <;> simp [parse_blocks] at h
  | some st0 =>
    rw [hi] at h
    obtain ⟨l, hl⟩ := parse_blocks_list blocks h
    rw [init_share_config_list hi] at hl
    exact ⟨⟨l, hl⟩, by rw [hl]; simp⟩

theorem c14_ipc_share_last_witness :
    parse_blocks spec_consts (init_share_config spec_consts true)
        [(true, "<sharename = data<comment = t".toList),
          (true, "<sharename = global<workgroup = GRP".toList)] =
      some { cifsd_share_list := [⟨"data".toList, "t".toList⟩,
               ⟨"IPC$".toList, "IPC$ share".toList⟩],
             cifsd_num_shares := 2, workgroup := "GRP".toList,
             server_string := "CIFSD SERVER".toList } ∧
    ((∃ added, [⟨"data".toList, "t".toList⟩, (⟨"IPC$".toList, "IPC$ share".toList⟩ : cifsd_share)] =
        added ++ [{ sharename := spec_consts.STR_IPC, comment := "IPC$ share".toList }]) ∧
      [⟨"data".toList, "t".toList⟩, (⟨"IPC$".toList, "IPC$ share".toList⟩ : cifsd_share)].getLast? =
        some { sharename := spec_consts.STR_IPC, comment := "IPC$ share".toList }) :=
  ⟨by decide, c14_ipc_share_last spec_consts
    [(true, "<sharename = data<comment = t".toList),
      (true, "<sharename = global<workgroup = GRP".toList)]
    { cifsd_share_list := [⟨"data".toList, "t".toList⟩, ⟨"IPC$".toList, "IPC$ share".toList⟩],
      cifsd_num_shares := 2, workgroup := "GRP".toList,
      server_string := "CIFSD SERVER".toList } (by decide)⟩

/-- A global block whose two directives have a value: no share is added, the
server string and the workgroup take the values, and a directive that is absent
leaves its variable as it was. -/
theorem parse_global_config_values :
    parse_share_config spec_consts true
        { cifsd_share_list := [], cifsd_num_shares := 0, workgroup := "WORKGROUP".toList,
          server_string := "CIFSD SERVER".toList }
        "<sharename = global<server string = My server<workgroup = GRP".toList =
      some { cifsd_share_list := [], cifsd_num_shares := 0, workgroup := "GRP".toList,
             server_string := "My server".toList } ∧
    parse_share_config spec_consts true
        { cifsd_share_list := [], cifsd_num_shares := 0, workgroup := "WORKGROUP".toList,
          server_string := "CIFSD SERVER".toList }
        "<sharename = global<workgroup = A workgroup name of 31 bytes".toList =
      some { cifsd_share_list := [], cifsd_num_shares := 0,
             workgroup := "A workgroup nam".toList,
             server_string := "CIFSD SERVER".toList } := by
  decide

/-- C15: on a global block whose `server string =` directive has an empty
value, `parse_global_config` forms `val + 2` one byte past the NUL of the
token, so the server string becomes the text of the next directive instead of
the empty value; when that directive ends the block, the pointer lies past the
end of the block and the call has no defined result. -/
theorem c15_empty_value_reads_next_directive :
    parse_share_config spec_consts true
        { cifsd_share_list := [], cifsd_num_shares := 0, workgroup := "WORKGROUP".toList,
          server_string := "CIFSD SERVER".toList }
        "<sharename = global<server string =<workgroup = GRP".toList =
      some { cifsd_share_list := [], cifsd_num_shares := 0, workgroup := "GRP".toList,
             server_string := "workgroup = GRP".toList } ∧
    parse_share_config spec_consts true
        { cifsd_share_list := [], cifsd_num_shares := 0, workgroup := "WORKGROUP".toList,
          server_string := "CIFSD SERVER".toList }
        "<sharename = global<workgroup = GRP<server string =".toList = none := by
  decide

/-- C18: on a block with a `sharename =` directive and no `comment =`
directive, `parse_share_config` calls `add_new_share` with a `NULL` comment,
which `add_new_share` passes to `strlen`: the call has no defined result and no
share is registered, whatever the configuration before. -/
theorem c18_absent_comment_dereferenced (c : share_consts) (st : share_config) :
    parse_share_config c true st "<sharename = data<path = /tmp".toList = none := by
  rfl

/-! ## Change notification: the response to a creation, the reader thread (C13, C16) -/

/-- C13, as the claim states it, fails: for the notify client with handle 3
and the creation of `a.txt`, with the 12-byte record of the specification, the
response carries `output_buffer_length` 22 (12 and the 10 bytes of the name),
not 18. -/
theorem c13_output_buffer_length_is_22 :
    (reader_messages (read_inotify_event spec_sizes utf16_of_ascii true
        { notifyd_exist := 0, fd := 5,
          cifsd_notify_clients := [{ hash := 3, codepage := "utf8".toList, wd := 1 }],
          readers := 1 }
        [s6_event])).map (fun m => m.buf.output_buffer_length) = [22] := by
  decide

/-- C13, amended: when the reader reads an event with a name, its allocation
succeeds, the event reports a creation (`IN_CREATE`) and `notify_client` is the
first client that holds the watch descriptor of the event, the reader sends
exactly one `INOTIFY_RESPONSE` with the handle of that client and one record:
`NextEntryOffset` 0, action `ADDED`, `FileNameLength` twice the length of the
name, and `output_buffer_length` the size of the record plus `FileNameLength`
(for `a.txt`: 10 and 12 + 10 = 22). -/
theorem c13_inotify_response (sz : notify_sizes)
    (smbConvertToUTF16 : List Char → Nat → Nat → List Char → List Nat)
    (st : notify_state) (e : inotify_event) (rest : List inotify_event)
    (cl : cifsd_notify_client_info)
    (hlen : e.len ≠ 0)
    (hmask : e.mask &&& IN_CREATE ≠ 0)
    (hfind : st.cifsd_notify_clients.find? (fun c => c.wd == e.wd) = some cl) :
    reader_messages (read_inotify_event sz smbConvertToUTF16 true st (e :: rest)) =
      [{ hdr := { uevent_zero with
                  type := some msg_type.CIFSD_UEVENT_INOTIFY_RESPONSE,
                  server_handle := cl.hash },
         buf := { output_buffer_length := sz.sizeof_FileNotifyInformation + strlen e.name * 2,
                  file_notify_info :=
                    { NextEntryOffset := 0,
                      Action := file_action.FILE_ACTION_ADDED,
                      FileNameLength := strlen e.name * 2,
                      FileName := smbConvertToUTF16 e.name e.len (e.len * 2) cl.codepage } },
         len := sz.sizeof_smb2_inotify_res_info + sz.sizeof_FileNotifyInformation +
           sz.NAME_MAX }] := by
  simp only [read_inotify_event, hlen, if_false, Bool.not_true, Bool.false_eq_true,
    client_of_wd, hfind, reader_messages, send_rsp_ev, fill_noti_info_res, hmask,
    ne_eq, not_false_eq_true, if_true]

theorem c13_inotify_response_witness :
    reader_messages (read_inotify_event spec_sizes utf16_of_ascii true
        { notifyd_exist := 0, fd := 5,
          cifsd_notify_clients := [{ hash := 3, codepage := "utf8".toList, wd := 1 }],
          readers := 1 }
        [s6_event]) =
      [{ hdr := { uevent_zero with
                  type := some msg_type.CIFSD_UEVENT_INOTIFY_RESPONSE,
                  server_handle := 3 },
         buf := { output_buffer_length := 22,
                  file_notify_info :=
                    { NextEntryOffset := 0,
                      Action := file_action.FILE_ACTION_ADDED,
                      FileNameLength := 10,
                      FileName := [97, 46, 116, 120, 116] } },
         len := 271 }] :=
  c13_inotify_response spec_sizes utf16_of_ascii
    { notifyd_exist := 0, fd := 5,
      cifsd_notify_clients := [{ hash := 3, codepage := "utf8".toList, wd := 1 }],
      readers := 1 }
    s6_event [] { hash := 3, codepage := "utf8".toList, wd := 1 }
    (by decide) (by decide) (by decide)

/-- C16: `handle_inotify_request_event` never writes `notifyd_exist`, and it
calls `make_inotify_handler_thread` on every request that reaches the end, also
while a reader runs: after two requests on a host where every call succeeds,
two readers are alive and `notifyd_exist` is still 0. -/
theorem c16_second_request_starts_second_reader (fl : notify_change) :
    (∀ (env : inotify_env) (st : notify_state) (ev : kevent) (req : smb2_inotify_req_info),
      (handle_inotify_request_event fl env st ev req).1.notifyd_exist = st.notifyd_exist) ∧
    (handle_inotify_request_event fl inotify_env_ok notify_init s6_request
        (s6_req_info 3)).1.readers = 1 ∧
    (handle_inotify_request_event fl inotify_env_ok notify_init s6_request
        (s6_req_info 3)).1.notifyd_exist = 0 ∧
    (handle_inotify_request_event fl inotify_env_ok
        (handle_inotify_request_event fl inotify_env_ok notify_init s6_request
          (s6_req_info 3)).1
        { s6_request with server_handle := 4 } (s6_req_info 3)).1.readers = 2 := by
  refine ⟨?_, rfl, rfl, rfl⟩
  intro env st ev req
  unfold handle_inotify_request_event
  simp only []
  split_ifs <;> try rfl

/-! ## Share import: the retry loop (C17) -/

theorem again_never_ends (PAGE_SZ : Nat) (env : flush_env) (ch : Char) (str : List Char)
    (hsend : 0 ≤ env.sendmsg_ret) (hch : (ch != '[') = true) (fuel : Nat) :
    ∀ st : shares_state, 0 ≤ st.sharepath_len →
      PAGE_SZ ≤ st.lshare.length + str.length + 2 →
      PAGE_SZ ≤ st.tbuf.length + str.length + 1 →
      ∃ trace, again PAGE_SZ env ch str st fuel =
          shares_step.stop (shares_outcome.looping trace) ∧
        trace.length = st.trace.length + fuel := by
  induction fuel with
  | zero =>
    intro st _ _ _
    exact ⟨st.trace, rfl, rfl⟩
  | succ n ih =>
    intro st hsp hl ht
    have h1 : ¬ st.tbuf.length + str.length + 1 < PAGE_SZ := by omega
    have h2 : ¬ env.sendmsg_ret < 0 := by omega
    obtain ⟨trace, he, hlen⟩ := ih
      { st with tbuf := '<' :: st.lshare,
                trace := st.trace ++ [send_share_block PAGE_SZ st.tbuf] } hsp hl
      (by simp only [List.length_cons]; omega)
    refine ⟨trace, ?_, ?_⟩
    · rw [again]
      simp only [h1, if_false, hsp, if_true, h2, hch]
      exact he
    · rw [hlen]
      simp only [List.length_append, List.length_singleton]
      omega


/-! ## Share import: lines, blocks and messages (C11) -/

theorem takeWhile_no_comment (l : List Char) (h : ∀ x ∈ l, x ≠ ';' ∧ x ≠ '#') :
    l.takeWhile (fun d => !(d == ';' || d == '#')) = l := by
  rw [List.takeWhile_eq_self_iff]
  intro x hx
  have := h x hx
  simp [this.1, this.2]

theorem getfchar_header (name : List Char) (h : ∀ x ∈ name, x ≠ ';' ∧ x ≠ '#') :
    getfchar ('[' :: name ++ [']']) = ('[', '[' :: name ++ [']']) := by
  have hall : ∀ x ∈ '[' :: (name ++ [']']), x ≠ ';' ∧ x ≠ '#' := by
    intro x hx
    simp only [List.mem_cons, List.mem_append, List.mem_singleton, List.not_mem_nil,
      or_false] at hx
    rcases hx with hx | hx | hx
    · subst hx; decide
    · exact h x hx
    · subst hx; decide
  have hd : ('[' :: name ++ [']']).dropWhile (fun c => !is_start c) = '[' :: name ++ [']'] := by
    rw [List.cons_append, List.dropWhile_cons_of_neg]
    decide
  unfold getfchar
  rw [hd]
  simp only [List.cons_append]
  rw [if_neg (by decide)]
  rw [takeWhile_no_comment _ hall]

theorem getfchar_directive (ch : Char) (rest : List Char) (hl : is_letter ch = true)
    (h : ∀ x ∈ ch :: rest, x ≠ ';' ∧ x ≠ '#') :
    getfchar (ch :: rest) = (ch, ch :: rest) := by
  have hs : is_start ch = true := by
    unfold is_start
    rw [hl]
    simp
  have hd : (ch :: rest).dropWhile (fun c => !is_start c) = ch :: rest := by
    rw [List.dropWhile_cons_of_neg]
    simp [hs]
  have hc := h ch (List.mem_cons_self _ _)
  unfold getfchar
  rw [hd]
  simp only []
  rw [if_neg (by simp [hc.1, hc.2])]
  rw [takeWhile_no_comment _ h]

theorem prefix_share_name_header (name : List Char) (h : ∀ x ∈ name, x ≠ '[' ∧ x ≠ ']') :
    prefix_share_name ('[' :: name ++ [']']) = "sharename = ".toList ++ name := by
  have hf : name.filter (fun c => !(c == '[' || c == ']')) = name := by
    rw [List.filter_eq_self]
    intro x hx
    have := h x hx
    simp [this.1, this.2]
  unfold prefix_share_name
  have hb : [']'].filter (fun c => !(c == '[' || c == ']')) = [] := by decide
  rw [List.cons_append, List.filter_cons_of_neg (by decide), List.filter_append, hf, hb,
    List.append_nil]

theorem get_share_path_nonneg (stat_errno : List Char → Option Int)
    (hstat : ∀ p, stat_errno p = none) (src sharename : List Char) :
    0 ≤ get_share_path stat_errno src sharename := by
  unfold get_share_path validate_share_path
  split_ifs
  · exact le_refl _
  · split
    · simp only [hstat]
      split_ifs
      · exact le_refl _
      · exact Int.ofNat_nonneg _
    · exact le_refl _
  · exact le_refl _

theorem add_new_share_defined {c : share_consts} {st0 : share_config} {p q : c_ptr}
    (h : (add_new_share c true st0 p q).isSome = true) (a : Bool) (st : share_config) :
    ∃ st1, add_new_share c a st p q = some st1 := by
  cases a with
  | false => exact ⟨st, rfl⟩
  | true =>
    unfold add_new_share at h ⊢
    simp only [Bool.not_true, Bool.false_eq_true, if_false] at h ⊢
    cases p <;> cases q <;> simp only [] at h ⊢ <;> try (exact absurd h (by decide))
    all_goals (split_ifs at h ⊢ <;> first | exact ⟨_, rfl⟩ | exact absurd h (by decide))

theorem parse_global_config_defined {c : share_consts} {st0 : share_config} {src : List Char}
    (h : (parse_global_config c st0 src).isSome = true) (st : share_config) :
    ∃ st1, parse_global_config c st src = some st1 := by
  unfold parse_global_config at h ⊢
  generalize global_ptrs (strtok_all ['<'] src) (c_ptr.NULL, c_ptr.NULL) = p at h ⊢
  obtain ⟨sstring, workgrp⟩ := p
  cases sstring <;> cases workgrp <;> simp only [] at h ⊢ <;>
    first | exact ⟨_, rfl⟩ | exact absurd h (by decide)

theorem parse_share_config_defined {c : share_consts} {block : List Char}
    (h : block_parses c block = true) (a : Bool) (st : share_config) :
    ∃ st1, parse_share_config c a st block = some st1 := by
  unfold block_parses parse_share_config at h
  unfold parse_share_config
  split_ifs at h ⊢ with hg
  · exact parse_global_config_defined h st
  · generalize share_ptrs (strtok_all ['<'] block) (c_ptr.NULL, c_ptr.NULL) = p at h ⊢
    obtain ⟨sharename, comment⟩ := p
    cases sharename with
    | NULL => exact ⟨st, rfl⟩
    | str s => exact add_new_share_defined h a st
    | past_end => exact add_new_share_defined h a st

theorem is_letter_ne_bracket {ch : Char} (h : is_letter ch = true) : (ch == '[') = false := by
  cases hb : ch == '[' with
  | false => rfl
  | true =>
    have : ch = '[' := by simpa using hb
    subst this
    exact absurd h (by decide)

theorem share_line_directive (c : share_consts) (PAGE_SZ : Nat) (tlws : List Char → List Char)
    (stat_errno : List Char → Option Int) (hstat : ∀ p, stat_errno p = none) (fuel : Nat)
    (env : flush_env) (st : shares_state) (ch : Char) (rest : List Char)
    (hl : is_letter ch = true) (hc : ∀ x ∈ ch :: rest, x ≠ ';' ∧ x ≠ '#')
    (ht : tlws (ch :: rest) = ch :: rest) (hsp : 0 ≤ st.sharepath_len) :
    ∃ spl : Int, 0 ≤ spl ∧
      share_line c PAGE_SZ tlws stat_errno fuel env st (ch :: rest) =
        again PAGE_SZ env ch (ch :: rest) { st with sharepath_len := spl } fuel := by
  have hb := is_letter_ne_bracket hl
  by_cases h0 : st.sharepath_len = 0
  · refine ⟨get_share_path stat_errno (ch :: rest) st.lshare,
      get_share_path_nonneg stat_errno hstat _ _, ?_⟩
    unfold share_line
    simp only [getfchar_directive ch rest hl hc, ht, hb, hl, Bool.false_or, if_true,
      Bool.false_eq_true, false_and, if_false, h0]
  · refine ⟨st.sharepath_len, hsp, ?_⟩
    unfold share_line
    simp only [getfchar_directive ch rest hl hc, ht, hb, hl, Bool.false_or, if_true,
      Bool.false_eq_true, false_and, if_false, h0]

theorem share_line_append (c : share_consts) (PAGE_SZ : Nat) (tlws : List Char → List Char)
    (stat_errno : List Char → Option Int) (hstat : ∀ p, stat_errno p = none) (fuel : Nat)
    (env : flush_env) (st : shares_state) (ch : Char) (rest : List Char)
    (hl : is_letter ch = true) (hc : ∀ x ∈ ch :: rest, x ≠ ';' ∧ x ≠ '#')
    (ht : tlws (ch :: rest) = ch :: rest) (hsp : 0 ≤ st.sharepath_len)
    (hfit : st.tbuf.length + (ch :: rest).length + 1 < PAGE_SZ) :
    ∃ spl : Int, 0 ≤ spl ∧
      share_line c PAGE_SZ tlws stat_errno (fuel + 1) env st (ch :: rest) =
        shares_step.continue
          { st with sharepath_len := spl, tbuf := st.tbuf ++ '<' :: ch :: rest } := by
  obtain ⟨spl, h0, he⟩ := share_line_directive c PAGE_SZ tlws stat_errno hstat (fuel + 1) env
    st ch rest hl hc ht hsp
  refine ⟨spl, h0, ?_⟩
  rw [he, again]
  simp only [hfit, if_true]

theorem flush_block_ok (c : share_consts) (PAGE_SZ : Nat) (env : flush_env)
    (st : shares_state) (hsend : 0 ≤ env.sendmsg_ret)
    (hparse : block_parses c st.tbuf = true) :
    ∃ cfg1, flush_block c PAGE_SZ env st =
      shares_step.continue
        { st with cfg := cfg1, trace := st.trace ++ [send_share_block PAGE_SZ st.tbuf] } := by
  obtain ⟨cfg1, h1⟩ := parse_share_config_defined hparse env.alloc_ok st.cfg
  refine ⟨cfg1, ?_⟩
  unfold flush_block
  rw [if_neg (by omega), h1]

theorem share_line_header (c : share_consts) (PAGE_SZ : Nat) (tlws : List Char → List Char)
    (stat_errno : List Char → Option Int) (hstat : ∀ p, stat_errno p = none) (fuel : Nat)
    (env : flush_env) (st : shares_state) (name : List Char)
    (hn : ∀ x ∈ name, x ≠ '[' ∧ x ≠ ']' ∧ x ≠ ';' ∧ x ≠ '#')
    (ht : tlws ('[' :: name ++ [']']) = '[' :: name ++ [']'])
    (hsend : 0 ≤ env.sendmsg_ret) (hsp : 0 ≤ st.sharepath_len)
    (hparse : st.tbuf ≠ [] → block_parses c st.tbuf = true)
    (hfit : ("<sharename = ".toList ++ name).length < PAGE_SZ) :
    ∃ (cfg1 : share_config) (spl : Int), 0 ≤ spl ∧
      share_line c PAGE_SZ tlws stat_errno (fuel + 1) env st ('[' :: name ++ [']']) =
        shares_step.continue
          { lshare := "sharename = ".toList ++ name,
            sharepath_len := spl,
            tbuf := "<sharename = ".toList ++ name,
            cfg := cfg1,
            trace := st.trace ++
              (if st.tbuf = [] then [] else [send_share_block PAGE_SZ st.tbuf]) } := by
  have hg := getfchar_header name (fun x hx => ⟨(hn x hx).2.2.1, (hn x hx).2.2.2⟩)
  have hp := prefix_share_name_header name (fun x hx => ⟨(hn x hx).1, (hn x hx).2.1⟩)
  have hfit2 : ([] : List Char).length + ("sharename = ".toList ++ name).length + 1 <
      PAGE_SZ := by
    simp only [List.length_append, List.length_nil] at hfit ⊢
    have : "<sharename = ".toList.length = "sharename = ".toList.length + 1 := by decide
    omega
  have hcons : ([] : List Char) ++ '<' :: ("sharename = ".toList ++ name) =
      "<sharename = ".toList ++ name := rfl
  by_cases hb : st.tbuf = []
  · by_cases h0 : st.sharepath_len = 0
    · refine ⟨st.cfg, get_share_path stat_errno ("sharename = ".toList ++ name)
        ("sharename = ".toList ++ name), get_share_path_nonneg stat_errno hstat _ _, ?_⟩
      unfold share_line
      simp only [hg, ht, hp, hb, List.length_nil, lt_irrefl, and_false, if_false,
        beq_self_eq_true, Bool.true_or, if_true, h0]
      rw [again]
      simp only [hfit2, if_true, hcons, List.append_nil]
    · refine ⟨st.cfg, st.sharepath_len, hsp, ?_⟩
      unfold share_line
      simp only [hg, ht, hp, hb, List.length_nil, lt_irrefl, and_false, if_false,
        beq_self_eq_true, Bool.true_or, if_true, h0]
      rw [again]
      simp only [hfit2, if_true, hcons, List.append_nil]
  · obtain ⟨cfg1, hf⟩ := flush_block_ok c PAGE_SZ env st hsend (hparse hb)
    have hpos : 0 < st.tbuf.length := List.length_pos.mpr hb
    refine ⟨cfg1, get_share_path stat_errno ("sharename = ".toList ++ name)
      ("sharename = ".toList ++ name), get_share_path_nonneg stat_errno hstat _ _, ?_⟩
    unfold share_line
    simp only [hg, ht, hp, hb, hpos, and_self, if_false, beq_self_eq_true, Bool.true_or,
      if_true, hsp, hf]
    rw [again]
    simp only [hfit2, if_true, hcons]

theorem plain_directive_cons {tlws : List Char → List Char} {d : List Char}
    (h : plain_directive tlws d) : ∃ ch r, d = ch :: r ∧ is_letter ch = true := by
  obtain ⟨hh, _⟩ := h
  cases d with
  | nil => simp at hh
  | cons ch r => exact ⟨ch, r, rfl, by simpa using hh⟩

theorem getfchar_indent (indent l : List Char) (hind : ∀ x ∈ indent, is_start x = false) :
    getfchar (indent ++ l) = getfchar l := by
  have hd : (indent ++ l).dropWhile (fun c => !is_start c) =
      l.dropWhile (fun c => !is_start c) := by
    induction indent with
    | nil => rfl
    | cons x xs ih =>
      have hx := hind x (List.mem_cons_self _ _)
      rw [List.cons_append, List.dropWhile_cons_of_pos (by simp [hx])]
      exact ih (fun y hy => hind y (List.mem_cons_of_mem _ hy))
  unfold getfchar
  rw [hd]

theorem share_line_indent (c : share_consts) (PAGE_SZ : Nat) (tlws : List Char → List Char)
    (stat_errno : List Char → Option Int) (fuel : Nat) (env : flush_env) (st : shares_state)
    (indent l : List Char) (hind : ∀ x ∈ indent, is_start x = false) :
    share_line c PAGE_SZ tlws stat_errno fuel env st (indent ++ l) =
      share_line c PAGE_SZ tlws stat_errno fuel env st l := by
  unfold share_line
  rw [getfchar_indent indent l hind]

theorem loop_directives (c : share_consts) (PAGE_SZ : Nat) (S : Int)
    (tlws : List Char → List Char) (stat_errno : List Char → Option Int)
    (hstat : ∀ p, stat_errno p = none) (fuel : Nat) (env last : flush_env)
    (indent : List Char) (hind : ∀ x ∈ indent, is_start x = false)
    (rest : List share_read) (ds : List (List Char)) :
    ∀ st : shares_state,
      (∀ d ∈ ds, plain_directive tlws d) →
      0 ≤ st.sharepath_len →
      (st.tbuf ++ ds.flatMap (fun d => '<' :: d)).length < PAGE_SZ →
      ∃ spl : Int, 0 ≤ spl ∧
        config_shares_loop c PAGE_SZ S tlws stat_errno (fuel + 1) last st none
            (ds.map (fun d => { line := some (indent ++ d), env := env }) ++ rest) =
          config_shares_loop c PAGE_SZ S tlws stat_errno (fuel + 1) last
            { st with sharepath_len := spl,
                      tbuf := st.tbuf ++ ds.flatMap (fun d => '<' :: d) } none rest := by
  induction ds with
  | nil =>
    intro st _ hsp _
    exact ⟨st.sharepath_len, hsp, by simp⟩
  | cons d ds ih =>
    intro st hd hsp hfit
    obtain ⟨ch, r, hdr, hl⟩ := plain_directive_cons (hd d (List.mem_cons_self _ _))
    subst hdr
    obtain ⟨_, hc, hlast, ht⟩ := hd (ch :: r) (List.mem_cons_self _ _)
    have hfit1 : st.tbuf.length + (ch :: r).length + 1 < PAGE_SZ := by
      simp only [List.flatMap_cons, List.length_append, List.length_cons] at hfit ⊢
      omega
    obtain ⟨spl1, h1, he⟩ := share_line_append c PAGE_SZ tlws stat_errno hstat fuel env st
      ch r hl hc ht hsp hfit1
    obtain ⟨spl2, h2, he2⟩ := ih
      { st with sharepath_len := spl1, tbuf := st.tbuf ++ '<' :: ch :: r }
      (fun d hd1 => hd d (List.mem_cons_of_mem _ hd1)) h1
      (by simpa only [List.flatMap_cons, List.append_assoc, List.cons_append] using hfit)
    refine ⟨spl2, h2, ?_⟩
    have hlast2 : (indent ++ ch :: r).getLast? ≠ some '\\' := by
      rw [List.getLast?_append]
      simpa using hlast
    have hne : (indent ++ ch :: r).isEmpty = false := by
      cases indent <;> rfl
    simp only [List.map_cons, List.cons_append]
    rw [config_shares_loop]
    simp only [hne, Bool.false_eq_true, if_false, hlast2,
      share_line_indent c PAGE_SZ tlws stat_errno (fuel + 1) env st indent (ch :: r) hind, he]
    rw [he2]
    simp only [List.flatMap_cons, List.append_assoc, List.cons_append]

theorem loop_section (c : share_consts) (PAGE_SZ : Nat) (S : Int)
    (tlws : List Char → List Char) (stat_errno : List Char → Option Int)
    (hstat : ∀ p, stat_errno p = none) (fuel : Nat) (env last : flush_env)
    (hsend : 0 ≤ env.sendmsg_ret) (indent : List Char)
    (hind : ∀ x ∈ indent, is_start x = false) (rest : List share_read) (s : share_section)
    (hplain : plain_section tlws s) (hfit : (section_block s).length < PAGE_SZ)
    (st : shares_state) (hsp : 0 ≤ st.sharepath_len)
    (hparse : st.tbuf ≠ [] → block_parses c st.tbuf = true) :
    ∃ (cfg1 : share_config) (spl : Int), 0 ≤ spl ∧
      config_shares_loop c PAGE_SZ S tlws stat_errno (fuel + 1) last st none
          ((section_lines indent s).map (fun l => { line := some l, env := env }) ++ rest) =
        config_shares_loop c PAGE_SZ S tlws stat_errno (fuel + 1) last
          { lshare := "sharename = ".toList ++ s.name,
            sharepath_len := spl,
            tbuf := section_block s,
            cfg := cfg1,
            trace := st.trace ++
              (if st.tbuf = [] then [] else [send_share_block PAGE_SZ st.tbuf]) } none rest := by
  obtain ⟨hn, ht, hd⟩ := hplain
  have hfit0 : ("<sharename = ".toList ++ s.name).length < PAGE_SZ := by
    unfold section_block at hfit
    simp only [List.length_append] at hfit ⊢
    omega
  obtain ⟨cfg1, spl1, h1, he⟩ := share_line_header c PAGE_SZ tlws stat_errno hstat fuel env st
    s.name hn ht hsend hsp hparse hfit0
  obtain ⟨spl2, h2, he2⟩ := loop_directives c PAGE_SZ S tlws stat_errno hstat fuel env last
    indent hind rest s.directives
    { lshare := "sharename = ".toList ++ s.name, sharepath_len := spl1,
      tbuf := "<sharename = ".toList ++ s.name, cfg := cfg1,
      trace := st.trace ++
        (if st.tbuf = [] then [] else [send_share_block PAGE_SZ st.tbuf]) }
    hd h1 hfit
  refine ⟨cfg1, spl2, h2, ?_⟩
  have hlast : ('[' :: s.name ++ [']']).getLast? ≠ some '\\' := by
    rw [List.cons_append, ← List.cons_append, List.getLast?_append]
    simp
  simp only [section_lines, List.map_cons, List.cons_append, List.map_map]
  rw [config_shares_loop]
  simp only [List.cons_append, List.isEmpty_cons, Bool.false_eq_true, if_false] at hlast he ⊢
  simp only [hlast, if_false, he]
  exact he2

theorem loop_sections (c : share_consts) (PAGE_SZ : Nat) (S : Int)
    (tlws : List Char → List Char) (stat_errno : List Char → Option Int)
    (hstat : ∀ p, stat_errno p = none) (fuel : Nat) (env last : flush_env)
    (hsend : 0 ≤ env.sendmsg_ret) (hlast : 0 ≤ last.sendmsg_ret)
    (indent : List Char) (hind : ∀ x ∈ indent, is_start x = false)
    (sections : List share_section) :
    ∀ st : shares_state,
      (∀ s ∈ sections, plain_section tlws s) →
      (∀ s ∈ sections, (section_block s).length < PAGE_SZ) →
      (∀ s ∈ sections, block_parses c (section_block s) = true) →
      0 ≤ st.sharepath_len →
      (st.tbuf ≠ [] → block_parses c st.tbuf = true) →
      ∃ cfg1 : share_config,
        config_shares_loop c PAGE_SZ S tlws stat_errno (fuel + 1) last st none
            (file_reads env indent sections) =
          shares_outcome.returned S cfg1
            (st.trace ++ (if st.tbuf = [] then [] else [send_share_block PAGE_SZ st.tbuf]) ++
              sections.map (fun s => send_share_block PAGE_SZ (section_block s))) := by
  induction sections with
  | nil =>
    intro st _ _ _ hsp hparse
    simp only [file_reads, List.flatMap_nil, List.map_nil, List.append_nil]
    rw [config_shares_loop]
    unfold shares_out
    by_cases hb : st.tbuf = []
    · refine ⟨st.cfg, ?_⟩
      simp only [hb, List.length_nil, lt_irrefl, and_false, if_false, if_true,
        List.append_nil]
    · obtain ⟨cfg1, hf⟩ := flush_block_ok c PAGE_SZ last st hlast (hparse hb)
      have hpos : 0 < st.tbuf.length := List.length_pos.mpr hb
      refine ⟨cfg1, ?_⟩
      simp only [hsp, hpos, and_self, if_true, hf, hb, if_false]
  | cons s ss ih =>
    intro st hplain hfit hparse hsp hpend
    obtain ⟨cfg1, spl, h1, he⟩ := loop_section c PAGE_SZ S tlws stat_errno hstat fuel env last
      hsend indent hind (file_reads env indent ss) s (hplain s (List.mem_cons_self _ _))
      (hfit s (List.mem_cons_self _ _)) st hsp hpend
    obtain ⟨cfg2, he2⟩ := ih
      { lshare := "sharename = ".toList ++ s.name, sharepath_len := spl,
        tbuf := section_block s, cfg := cfg1,
        trace := st.trace ++
          (if st.tbuf = [] then [] else [send_share_block PAGE_SZ st.tbuf]) }
      (fun t ht => hplain t (List.mem_cons_of_mem _ ht))
      (fun t ht => hfit t (List.mem_cons_of_mem _ ht))
      (fun t ht => hparse t (List.mem_cons_of_mem _ ht))
      h1 (fun _ => hparse s (List.mem_cons_self _ _))
    refine ⟨cfg2, ?_⟩
    have hfr : file_reads env indent (s :: ss) =
        (section_lines indent s).map (fun l => { line := some l, env := env }) ++
          file_reads env indent ss := by
      simp only [file_reads, List.flatMap_cons, List.map_append]
    have hne : section_block s ≠ [] := by
      unfold section_block
      simp
    rw [hfr, he, he2]
    simp only [hne, if_false, List.map_cons, List.append_assoc, List.singleton_append]

/-- Scenario S3 evaluated with a page of 4096 bytes: one `CONFIG_SHARE` message
with `buflen` 42, the block followed by NULs in the page, and 42 bytes sent; the
share `data` with comment `t` is added to the share list. -/
theorem config_shares_s3 :
    config_shares spec_consts 4096 0 1 id (fun _ => none) 1 flush_ok cfg_zero true
        [{ line := some "[data]".toList, env := flush_ok },
         { line := some "  path = /tmp".toList, env := flush_ok },
         { line := some "  comment = t".toList, env := flush_ok }] =
      shares_outcome.returned 0
        { cfg_zero with
          cifsd_share_list := [{ sharename := "data".toList, comment := "t".toList }],
          cifsd_num_shares := 1 }
        [Effect.sendmsg
          { uevent_zero with type := some msg_type.CIFSD_KEVENT_CONFIG_SHARE, buflen := 42 }
          (some ("<sharename = data<path = /tmp<comment = t".toList ++
            List.replicate 4055 NUL)) 42] := by
  rfl

/-- C11, as the claim states it, fails. When the link refuses the first block
of a file with two sections, `config_shares` returns -1 and the second section
gets no message; and a file that starts with a directive line, before any
header, gets a message without share name though it has no section. -/
theorem c11_sections_without_message :
    config_shares spec_consts 4096 0 1 id (fun _ => none) 1 flush_ok cfg_zero true
        (file_reads flush_refused "  ".toList [s3_section, pub_section]) =
      shares_outcome.returned (-1) cfg_zero
        [send_share_block 4096 "<sharename = data<path = /tmp<comment = t".toList] ∧
    config_shares spec_consts 4096 0 1 id (fun _ => none) 1 flush_ok cfg_zero true
        [{ line := some "comment = t".toList, env := flush_ok }] =
      shares_outcome.returned 0 cfg_zero [send_share_block 4096 "<comment = t".toList] := by
  constructor <;> rfl

/-- C11, amended: for every share file made of sections (a header `[name]`
whose name has no bracket and no comment character, then directive lines that
start with a letter after their indentation, have no comment character and no
trailing backslash, all as `tlws` leaves them), when every path exists, every
block fits in the page, the link accepts every message and `parse_share_config`
has a defined result on every block, `config_shares` returns `CIFS_SUCCESS` and
hands to the link exactly one `CONFIG_SHARE` message per section, in file order:
the block `<sharename = name` followed by `<directive` for each directive, then
NUL, with `buflen` and the send length the length of the block and one. -/
theorem c11_one_message_per_section (c : share_consts) (PAGE_SZ : Nat)
    (CIFS_SUCCESS CIFS_FAIL : Int) (tlws : List Char → List Char)
    (stat_errno : List Char → Option Int) (fuel : Nat) (env last : flush_env)
    (cfg : share_config) (indent : List Char) (sections : List share_section)
    (hstat : ∀ p, stat_errno p = none)
    (hsend : 0 ≤ env.sendmsg_ret) (hlast : 0 ≤ last.sendmsg_ret)
    (hind : ∀ x ∈ indent, is_start x = false)
    (hplain : ∀ s ∈ sections, plain_section tlws s)
    (hfit : ∀ s ∈ sections, (section_block s).length < PAGE_SZ)
    (hparse : ∀ s ∈ sections, block_parses c (section_block s) = true) :
    ∃ cfg1, config_shares c PAGE_SZ CIFS_SUCCESS CIFS_FAIL tlws stat_errno (fuel + 1) last
        cfg true (file_reads env indent sections) =
      shares_outcome.returned CIFS_SUCCESS cfg1
        (sections.map (fun s =>
          Effect.sendmsg
            { uevent_zero with
              type := some msg_type.CIFSD_KEVENT_CONFIG_SHARE,
              buflen := (section_block s).length + 1 }
            (some (section_block s ++
              List.replicate (PAGE_SZ - (section_block s).length) NUL))
            (((section_block s).length : Int) + 1))) := by
  obtain ⟨cfg1, h⟩ := loop_sections c PAGE_SZ CIFS_SUCCESS tlws stat_errno hstat fuel env last
    hsend hlast indent hind sections
    { lshare := [], sharepath_len := 0, tbuf := [], cfg := cfg, trace := [] }
    hplain hfit hparse (le_refl _) (fun h => absurd rfl h)
  refine ⟨cfg1, ?_⟩
  unfold config_shares
  rw [if_pos rfl, h]
  rfl

theorem c11_one_message_per_section_witness :
    ∃ cfg1, config_shares spec_consts 4096 0 1 id (fun _ => none) (0 + 1) flush_ok
        cfg_zero true (file_reads flush_ok "  ".toList [s3_section, pub_section]) =
      shares_outcome.returned 0 cfg1
        ([s3_section, pub_section].map (fun s =>
          Effect.sendmsg
            { uevent_zero with
              type := some msg_type.CIFSD_KEVENT_CONFIG_SHARE,
              buflen := (section_block s).length + 1 }
            (some (section_block s ++
              List.replicate (4096 - (section_block s).length) NUL))
            (((section_block s).length : Int) + 1))) :=
  c11_one_message_per_section spec_consts 4096 0 1 id (fun _ => none) 0 flush_ok flush_ok
    cfg_zero "  ".toList [s3_section, pub_section] (fun _ => rfl) (by decide) (by decide)
    (by decide) (by decide) (by decide) (by decide)

/-- C17: for a file of one section with one directive, when the header fits
in the page and the header with the directive does not, and the link accepts
every message, `config_shares` does not leave the `again` loop: whatever the
number of tries, it is still in the loop after them and has sent one message
per try. -/
theorem c17_config_shares_never_returns (c : share_consts) (PAGE_SZ : Nat)
    (CIFS_SUCCESS CIFS_FAIL : Int) (tlws : List Char → List Char)
    (stat_errno : List Char → Option Int) (fuel : Nat) (env last : flush_env)
    (cfg : share_config) (indent : List Char) (s : share_section) (d : List Char)
    (hstat : ∀ p, stat_errno p = none)
    (hsend : 0 ≤ env.sendmsg_ret)
    (hind : ∀ x ∈ indent, is_start x = false)
    (hplain : plain_section tlws s) (hd : s.directives = [d])
    (hhead : ("<sharename = ".toList ++ s.name).length < PAGE_SZ)
    (hbig : PAGE_SZ ≤ ("<sharename = ".toList ++ s.name).length + d.length + 1) :
    ∃ trace, config_shares c PAGE_SZ CIFS_SUCCESS CIFS_FAIL tlws stat_errno (fuel + 1) last
        cfg true (file_reads env indent [s]) = shares_outcome.looping trace ∧
      trace.length = fuel + 1 := by
  obtain ⟨hn, ht, hds⟩ := hplain
  have hpd : plain_directive tlws d := hds d (by rw [hd]; exact List.mem_singleton_self d)
  obtain ⟨ch, r, hdr, hl⟩ := plain_directive_cons hpd
  subst hdr
  obtain ⟨_, hc, hlast, htd⟩ := hpd
  obtain ⟨cfg1, spl1, h1, he⟩ := share_line_header c PAGE_SZ tlws stat_errno hstat fuel env
    { lshare := [], sharepath_len := 0, tbuf := [], cfg := cfg, trace := [] }
    s.name hn ht hsend (le_refl _) (fun h => absurd rfl h) hhead
  obtain ⟨spl2, h2, he2⟩ := share_line_directive c PAGE_SZ tlws stat_errno hstat (fuel + 1) env
    { lshare := "sharename = ".toList ++ s.name, sharepath_len := spl1,
      tbuf := "<sharename = ".toList ++ s.name, cfg := cfg1, trace := [] }
    ch r hl hc htd h1
  have hlen : ("<sharename = ".toList ++ s.name).length =
      ("sharename = ".toList ++ s.name).length + 1 := by
    simp only [List.length_append]
    have : "<sharename = ".toList.length = "sharename = ".toList.length + 1 := by decide
    omega
  obtain ⟨trace, h3, h4⟩ := again_never_ends PAGE_SZ env ch (ch :: r) hsend
    (by unfold bne; rw [is_letter_ne_bracket hl]; rfl) (fuel + 1)
    { lshare := "sharename = ".toList ++ s.name, sharepath_len := spl2,
      tbuf := "<sharename = ".toList ++ s.name, cfg := cfg1, trace := [] }
    h2 (by simp only []; omega) (by simp only []; omega)
  refine ⟨trace, ?_, by simpa using h4⟩
  have hlast1 : ('[' :: s.name ++ [']']).getLast? ≠ some '\\' := by
    rw [List.cons_append, ← List.cons_append, List.getLast?_append]
    simp
  have hlast2 : (indent ++ ch :: r).getLast? ≠ some '\\' := by
    rw [List.getLast?_append]
    simpa using hlast
  have hne : (indent ++ ch :: r).isEmpty = false := by
    cases indent <;> rfl
  unfold config_shares
  rw [if_pos rfl]
  simp only [file_reads, List.flatMap_cons, List.flatMap_nil, List.append_nil, section_lines,
    hd, List.map_cons, List.map_nil]
  rw [config_shares_loop]
  simp only [List.cons_append, List.isEmpty_cons, Bool.false_eq_true, if_false] at hlast1 he ⊢
  simp only [hlast1, if_false, he, List.nil_append, if_true]
  rw [config_shares_loop]
  simp only [hne, Bool.false_eq_true, if_false, hlast2,
    share_line_indent c PAGE_SZ tlws stat_errno (fuel + 1) env _ indent (ch :: r) hind, he2, h3]

theorem c17_config_shares_never_returns_witness :
    ∃ trace, config_shares spec_consts 24 0 1 id (fun _ => none) (6 + 1) flush_ok
        cfg_zero true (file_reads flush_ok "  ".toList [path_section]) =
        shares_outcome.looping trace ∧
      trace.length = 6 + 1 :=
  c17_config_shares_never_returns spec_consts 24 0 1 id (fun _ => none) 6 flush_ok flush_ok
    cfg_zero "  ".toList path_section "path = /tmp".toList (fun _ => rfl) (by decide)
    (by decide) (by decide) rfl (by decide) (by decide)

/-! ## Header `buflen` and bytes sent (C12) -/

theorem to_u32_cast {n : Int} (h0 : 0 ≤ n) (h1 : n < 4294967296) : ((to_u32 n : Nat) : Int) = n := by
  unfold to_u32
  rw [Int.emod_eq_of_lt h0 h1, Int.toNat_of_nonneg h0]

theorem buflen_append {a b : List Effect} (ha : ∀ eff ∈ a, buflen_is_len eff)
    (hb : ∀ eff ∈ b, buflen_is_len eff) : ∀ eff ∈ a ++ b, buflen_is_len eff := by
  intro eff he
  rcases List.mem_append.1 he with h | h
  · exact ha eff h
  · exact hb eff h

theorem buflen_send_share_block (PAGE_SZ : Nat) (tbuf : List Char) :
    ∀ eff ∈ [send_share_block PAGE_SZ tbuf], buflen_is_len eff := by
  intro eff he
  rw [List.mem_singleton] at he
  subst he
  simp [send_share_block, buflen_is_len]

theorem again_buflen (PAGE_SZ : Nat) (env : flush_env) (ch : Char) (str : List Char)
    (fuel : Nat) :
    ∀ st : shares_state, (∀ eff ∈ st.trace, buflen_is_len eff) →
      ∀ eff ∈ step_trace (again PAGE_SZ env ch str st fuel), buflen_is_len eff := by
  induction fuel with
  | zero => intro st h; exact h
  | succ n ih =>
    intro st h
    rw [again]
    split_ifs
    · exact h
    · exact buflen_append h (buflen_send_share_block _ _)
    · exact ih _ (buflen_append h (buflen_send_share_block _ _))
    · exact ih _ (buflen_append h (buflen_send_share_block _ _))
    · exact ih _ h
    · exact ih _ h

theorem flush_block_buflen (c : share_consts) (PAGE_SZ : Nat) (env : flush_env)
    (st : shares_state) (h : ∀ eff ∈ st.trace, buflen_is_len eff) :
    ∀ eff ∈ step_trace (flush_block c PAGE_SZ env st), buflen_is_len eff := by
  unfold flush_block
  split_ifs
  · exact buflen_append h (buflen_send_share_block _ _)
  · split
    · exact buflen_append h (buflen_send_share_block _ _)
    · exact buflen_append h (buflen_send_share_block _ _)

theorem share_line_buflen (c : share_consts) (PAGE_SZ : Nat) (tlws : List Char → List Char)
    (stat_errno : List Char → Option Int) (fuel : Nat) (env : flush_env)
    (st : shares_state) (line : List Char) (h : ∀ eff ∈ st.trace, buflen_is_len eff) :
    ∀ eff ∈ step_trace (share_line c PAGE_SZ tlws stat_errno fuel env st line),
      buflen_is_len eff := by
  have hf := flush_block_buflen c PAGE_SZ env st h
  have hX : ∀ eff ∈ step_trace
      (if (getfchar line).1 == '[' ∧ 0 < st.tbuf.length then
        match (if 0 ≤ st.sharepath_len then flush_block c PAGE_SZ env st
            else shares_step.continue st) with
        | shares_step.continue st1 =>
          shares_step.continue { st1 with tbuf := [], sharepath_len := 0 }
        | shares_step.stop out => shares_step.stop out
      else shares_step.continue st), buflen_is_len eff := by
    split_ifs
    · cases hfb : flush_block c PAGE_SZ env st with
      | stop out => rw [hfb] at hf; exact hf
      | «continue» st1 => rw [hfb] at hf; exact hf
    · exact h
    · exact h
  simp only [share_line]
  by_cases h1 : ((getfchar line).1 == '[' || is_letter (getfchar line).1) = true
  · rw [if_pos h1]
    split
    · rename_i out heq
      rw [heq] at hX
      exact hX
    · rename_i st1 heq
      rw [heq] at hX
      apply again_buflen
      split_ifs <;> exact hX
  · rw [if_neg h1]
    exact h

theorem shares_out_buflen (c : share_consts) (PAGE_SZ : Nat) (S : Int) (env : flush_env)
    (st : shares_state) (h : ∀ eff ∈ st.trace, buflen_is_len eff) :
    ∀ eff ∈ shares_trace (shares_out c PAGE_SZ S env st), buflen_is_len eff := by
  have hf := flush_block_buflen c PAGE_SZ env st h
  unfold shares_out
  split_ifs
  · cases hfb : flush_block c PAGE_SZ env st with
    | stop out => rw [hfb] at hf; exact hf
    | «continue» st1 => rw [hfb] at hf; exact hf
  · exact h

theorem step_out_buflen (c : share_consts) (PAGE_SZ : Nat) (S : Int) (last : flush_env)
    (step : shares_step) (h : ∀ eff ∈ step_trace step, buflen_is_len eff) :
    ∀ eff ∈ shares_trace
        (match step with
        | shares_step.stop out => out
        | shares_step.continue st1 => shares_out c PAGE_SZ S last st1),
      buflen_is_len eff := by
  cases step with
  | stop out => exact h
  | «continue» st1 => exact shares_out_buflen c PAGE_SZ S last st1 h

theorem config_shares_loop_buflen (c : share_consts) (PAGE_SZ : Nat) (S : Int)
    (tlws : List Char → List Char) (stat_errno : List Char → Option Int) (fuel : Nat)
    (last : flush_env) (reads : List share_read) :
    ∀ (st : shares_state) (cont : Option (List Char × flush_env)),
      (∀ eff ∈ st.trace, buflen_is_len eff) →
      ∀ eff ∈ shares_trace
          (config_shares_loop c PAGE_SZ S tlws stat_errno fuel last st cont reads),
        buflen_is_len eff := by
  induction reads with
  | nil =>
    intro st cont h
    cases cont with
    | none =>
      rw [config_shares_loop]
      exact shares_out_buflen c PAGE_SZ S last st h
    | some p =>
      obtain ⟨cont_str, env⟩ := p
      rw [config_shares_loop]
      exact step_out_buflen c PAGE_SZ S last _
        (share_line_buflen c PAGE_SZ tlws stat_errno fuel env st cont_str h)
  | cons rd rest ih =>
    intro st cont h
    cases cont with
    | none =>
      rw [config_shares_loop]
      cases hl : rd.line with
      | none => exact shares_out_buflen c PAGE_SZ S rd.env st h
      | some line =>
        simp only []
        split_ifs
        · exact ih st none h
        · exact ih st _ h
        · have hs := share_line_buflen c PAGE_SZ tlws stat_errno fuel rd.env st line h
          cases hsl : share_line c PAGE_SZ tlws stat_errno fuel rd.env st line with
          | stop out => rw [hsl] at hs; exact hs
          | «continue» st1 => rw [hsl] at hs; exact ih st1 none hs
    | some p =>
      obtain ⟨cont_str, env⟩ := p
      rw [config_shares_loop]
      cases hl : rd.line with
      | none =>
        have hs := share_line_buflen c PAGE_SZ tlws stat_errno fuel env st cont_str h
        cases hsl : share_line c PAGE_SZ tlws stat_errno fuel env st cont_str with
        | stop out => rw [hsl] at hs; exact hs
        | «continue» st1 => rw [hsl] at hs; exact ih st1 none hs
      | some line =>
        simp only []
        split_ifs
        · exact ih st _ h
        · have hs := share_line_buflen c PAGE_SZ tlws stat_errno fuel env st
            (cont_str ++ line) h
          cases hsl : share_line c PAGE_SZ tlws stat_errno fuel env st (cont_str ++ line) with
          | stop out => rw [hsl] at hs; exact hs
          | «continue» st1 => rw [hsl] at hs; exact ih st1 none hs

theorem config_shares_buflen (c : share_consts) (PAGE_SZ : Nat) (S F : Int)
    (tlws : List Char → List Char) (stat_errno : List Char → Option Int) (fuel : Nat)
    (last : flush_env) (cfg : share_config) (open_ok : Bool) (reads : List share_read) :
    ∀ eff ∈ shares_trace
        (config_shares c PAGE_SZ S F tlws stat_errno fuel last cfg open_ok reads),
      buflen_is_len eff := by
  unfold config_shares
  split_ifs
  · exact config_shares_loop_buflen c PAGE_SZ S tlws stat_errno fuel last reads _ none
      (fun _ he => absurd he (List.not_mem_nil _))
  · exact fun _ he => absurd he (List.not_mem_nil _)

theorem buflen_nil : ∀ eff ∈ ([] : List Effect), buflen_is_len eff :=
  fun _ he => absurd he (List.not_mem_nil _)

theorem cifsd_create_pipe_buflen (pipe_ok client_ok : Bool) (clients : Registry) (h k : Nat)
    (cp : List Char) :
    ∀ eff ∈ (cifsd_create_pipe pipe_ok client_ok clients h k cp).trace, buflen_is_len eff := by
  unfold cifsd_create_pipe
  cases initpipe pipe_ok k cp with
  | none => exact buflen_nil
  | some p =>
    rcases lookup_client client_ok clients h with ⟨c1, oc⟩
    cases oc with
    | none => exact buflen_nil
    | some cl =>
      intro eff he
      simp only [List.mem_singleton] at he
      subst he
      trivial

theorem cifsd_remove_pipe_buflen (a : Bool) (clients : Registry) (h k : Nat) :
    ∀ eff ∈ (cifsd_remove_pipe a clients h k).trace, buflen_is_len eff := by
  unfold cifsd_remove_pipe
  rcases lookup_pipe a clients h k with ⟨c1, op⟩
  cases op with
  | none => exact buflen_nil
  | some p =>
    intro eff he
    simp only [List.mem_singleton] at he
    subst he
    trivial

theorem read_pipe_out_buflen (env : Env) (ev : kevent) (clients : Registry)
    (trace : List Effect) (buf : Option (List Char)) (ret nbytes : Int)
    (ht : ∀ eff ∈ trace, buflen_is_len eff) (h0 : 0 ≤ nbytes) (h1 : nbytes < 4294967296) :
    ∀ eff ∈ outcome_trace (read_pipe_out env ev clients trace buf ret nbytes),
      buflen_is_len eff := by
  unfold read_pipe_out outcome_trace
  refine buflen_append ht ?_
  intro eff he
  simp only [List.mem_singleton] at he
  subst he
  exact to_u32_cast h0 h1

theorem ioctl_pipe_out_buflen (env : Env) (ev : kevent) (clients : Registry)
    (trace : List Effect) (buf : Option (List Char)) (ret nbytes : Int)
    (ht : ∀ eff ∈ trace, buflen_is_len eff) (h0 : 0 ≤ nbytes) (h1 : nbytes < 4294967296) :
    ∀ eff ∈ outcome_trace (ioctl_pipe_out env ev clients trace buf ret nbytes),
      buflen_is_len eff := by
  unfold ioctl_pipe_out outcome_trace
  refine buflen_append ht ?_
  intro eff he
  simp only [List.mem_singleton] at he
  subst he
  exact to_u32_cast h0 h1

theorem lanman_pipe_out_buflen (env : Env) (ev : kevent) (clients : Registry)
    (trace : List Effect) (buf : Option (List Char)) (ret nbytes param_len : Int)
    (ht : ∀ eff ∈ trace, buflen_is_len eff) (h0 : 0 ≤ nbytes) (h1 : nbytes < 4294967296) :
    ∀ eff ∈ outcome_trace (lanman_pipe_out env ev clients trace buf ret nbytes param_len),
      buflen_is_len eff := by
  unfold lanman_pipe_out outcome_trace
  refine buflen_append (buflen_append ht ?_) (cifsd_remove_pipe_buflen _ _ _ _)
  intro eff he
  simp only [List.mem_singleton] at he
  subst he
  exact to_u32_cast h0 h1

theorem buflen_rpc (e : Effect) (he : sent_sizes e = none) :
    ∀ eff ∈ [e], buflen_is_len eff := by
  intro eff hm
  simp only [List.mem_singleton] at hm
  subst hm
  cases eff with
  | sendmsg hdr buf len => simp [sent_sizes] at he
  | _ => trivial

theorem handle_read_pipe_event_buflen (max_payload : Nat) (env : Env) (clients : Registry)
    (ev : kevent) (hrsp : env.process_rpc_rsp_ret < 4294967296) :
    ∀ eff ∈ outcome_trace (handle_read_pipe_event max_payload env clients ev),
      buflen_is_len eff := by
  unfold handle_read_pipe_event
  by_cases h1 : ev.out_buflen ≤ max_payload
  · rw [if_pos h1]
    by_cases h2 : env.buf_ok = true
    · rw [if_pos h2]
      rcases lookup_pipe env.client_ok clients ev.server_handle ev.pipe_type with ⟨c1, op⟩
      cases op with
      | none => exact read_pipe_out_buflen _ _ _ _ _ _ _ buflen_nil (le_refl _) (by decide)
      | some p =>
        simp only []
        by_cases h3 : env.process_rpc_rsp_ret < 0
        · rw [if_pos h3]
          exact read_pipe_out_buflen _ _ _ _ _ _ _ (buflen_rpc _ rfl) (le_refl _) (by decide)
        · rw [if_neg h3]
          exact read_pipe_out_buflen _ _ _ _ _ _ _ (buflen_rpc _ rfl) (by omega) hrsp
    · rw [if_neg h2]
      exact read_pipe_out_buflen _ _ _ _ _ _ _ buflen_nil (le_refl _) (by decide)
  · rw [if_neg h1]
    exact buflen_nil

theorem handle_write_pipe_event_buflen (env : Env) (clients : Registry) (ev : kevent) :
    ∀ eff ∈ outcome_trace (handle_write_pipe_event env clients ev), buflen_is_len eff := by
  unfold handle_write_pipe_event
  rcases lookup_pipe env.client_ok clients ev.server_handle ev.pipe_type with ⟨c1, op⟩
  cases op with
  | none =>
    intro eff he
    simp only [write_pipe_out, outcome_trace, List.nil_append, List.mem_singleton] at he
    subst he
    rfl
  | some p =>
    intro eff he
    simp only [write_pipe_out, outcome_trace, List.singleton_append, List.mem_cons,
      List.mem_singleton, List.not_mem_nil, or_false] at he
    rcases he with he | he <;> subst he
    · trivial
    · rfl

theorem handle_ioctl_pipe_event_buflen (max_payload : Nat) (env : Env) (clients : Registry)
    (ev : kevent) (hrsp : env.process_rpc_rsp_ret < 4294967296) :
    ∀ eff ∈ outcome_trace (handle_ioctl_pipe_event max_payload env clients ev),
      buflen_is_len eff := by
  have h2e : ∀ (a b : Effect), sent_sizes a = none → sent_sizes b = none →
      ∀ eff ∈ [a, b], buflen_is_len eff := by
    intro a b ha hb
    exact buflen_append (buflen_rpc a ha) (buflen_rpc b hb)
  unfold handle_ioctl_pipe_event
  by_cases h1 : ev.out_buflen ≤ max_payload
  · rw [if_pos h1]
    by_cases h2 : env.buf_ok = true
    · rw [if_pos h2]
      rcases lookup_pipe env.client_ok clients ev.server_handle ev.pipe_type with ⟨c1, op⟩
      cases op with
      | none => exact ioctl_pipe_out_buflen _ _ _ _ _ _ _ buflen_nil (le_refl _) (by decide)
      | some p =>
        simp only []
        by_cases h3 : env.process_rpc_ret ≠ 0
        · rw [if_pos h3]
          exact ioctl_pipe_out_buflen _ _ _ _ _ _ _ (buflen_rpc _ rfl) (le_refl _) (by decide)
        · rw [if_neg h3]
          by_cases h4 : env.process_rpc_rsp_ret < 0
          · rw [if_pos h4]
            exact ioctl_pipe_out_buflen _ _ _ _ _ _ _ (h2e _ _ rfl rfl) (le_refl _)
              (by decide)
          · rw [if_neg h4]
            exact ioctl_pipe_out_buflen _ _ _ _ _ _ _ (h2e _ _ rfl rfl) (by omega) hrsp
    · rw [if_neg h2]
      exact ioctl_pipe_out_buflen _ _ _ _ _ _ _ buflen_nil (le_refl _) (by decide)
  · rw [if_neg h1]
    exact buflen_nil

theorem handle_lanman_pipe_event_buflen (max_payload : Nat) (env : Env) (clients : Registry)
    (ev : kevent) (hlan : env.handle_lanman_pipe_ret < 4294967296) :
    ∀ eff ∈ outcome_trace (handle_lanman_pipe_event max_payload env clients ev),
      buflen_is_len eff := by
  have hc := cifsd_create_pipe_buflen env.pipe_ok env.client_ok clients ev.server_handle
    ev.pipe_type ev.codepage
  unfold handle_lanman_pipe_event
  by_cases h1 : ev.out_buflen ≤ max_payload
  · rw [if_pos h1]
    by_cases h2 : env.buf_ok = true
    · rw [if_pos h2]
      by_cases h3 : (cifsd_create_pipe env.pipe_ok env.client_ok clients ev.server_handle
          ev.pipe_type ev.codepage).ret ≠ 0
      · rw [if_pos h3]
        exact lanman_pipe_out_buflen _ _ _ _ _ _ _ _ hc (le_refl _) (by decide)
      · rw [if_neg h3]
        rcases lookup_pipe env.client_ok2
            (cifsd_create_pipe env.pipe_ok env.client_ok clients ev.server_handle ev.pipe_type
              ev.codepage).clients ev.server_handle ev.pipe_type with ⟨c1, op⟩
        cases op with
        | none => exact lanman_pipe_out_buflen _ _ _ _ _ _ _ _ hc (le_refl _) (by decide)
        | some p =>
          simp only []
          refine lanman_pipe_out_buflen _ _ _ _ _ _ _ _
            (buflen_append hc (buflen_rpc _ rfl)) ?_ ?_
          · split_ifs <;> omega
          · split_ifs
            · decide
            · exact hlan
    · rw [if_neg h2]
      exact lanman_pipe_out_buflen _ _ _ _ _ _ _ _ buflen_nil (le_refl _) (by decide)
  · rw [if_neg h1]
    exact buflen_nil

theorem request_handler_buflen (max_payload : Nat) (env : Env) (clients : Registry)
    (ev : kevent) (hrsp : env.process_rpc_rsp_ret < 4294967296)
    (hlan : env.handle_lanman_pipe_ret < 4294967296) :
    ∀ eff ∈ outcome_trace (request_handler max_payload env clients ev),
      buflen_is_len eff := by
  unfold request_handler
  split
  · exact cifsd_create_pipe_buflen _ _ _ _ _ _
  · exact cifsd_remove_pipe_buflen _ _ _ _
  · exact handle_read_pipe_event_buflen max_payload env clients ev hrsp
  · exact handle_write_pipe_event_buflen env clients ev
  · exact handle_ioctl_pipe_event_buflen max_payload env clients ev hrsp
  · exact handle_lanman_pipe_event_buflen max_payload env clients ev hlan
  · exact buflen_nil
  · exact buflen_nil
  · exact buflen_nil

theorem less_one_append {a : List Effect} (e : List Char)
    (ha : ∀ eff ∈ a, buflen_is_len_less_one eff) :
    ∀ eff ∈ a ++ [send_user_entry e], buflen_is_len_less_one eff := by
  intro eff he
  rcases List.mem_append.1 he with h | h
  · exact ha eff h
  · rw [List.mem_singleton] at h
    subst h
    rfl

theorem config_users_loop_less_one (S F : Int)
    (init_2_strings : List Char → Option (List Char))
    (getpwnam : List Char → Option passwd) (reads : List db_read) :
    ∀ trace : List Effect, (∀ eff ∈ trace, buflen_is_len_less_one eff) →
      ∀ eff ∈ (config_users_loop S F init_2_strings getpwnam reads trace).trace,
        buflen_is_len_less_one eff := by
  induction reads with
  | nil => intro trace h; exact h
  | cons rd rest ih =>
    intro trace h
    rw [config_users_loop]
    cases rd.entry with
    | none => exact h
    | some entry =>
      simp only []
      cases init_2_strings entry with
      | none => exact ih trace h
      | some user_account =>
        simp only []
        by_cases hc : rd.calloc_ok = true
        · rw [if_pos hc]
          cases getpwnam user_account with
          | none =>
            simp only []
            by_cases hs : rd.sendmsg_ret < 0
            · rw [if_pos hs]
              exact less_one_append _ h
            · rw [if_neg hs]
              exact ih _ (less_one_append _ h)
          | some pw =>
            simp only []
            by_cases hm : rd.malloc_ok = true
            · rw [if_pos hm]
              by_cases hl : pw.pw_uid > 65535 ∨ pw.pw_gid > 65535
              · rw [if_pos hl]
                exact h
              · rw [if_neg hl]
                by_cases hs : rd.sendmsg_ret < 0
                · rw [if_pos hs]
                  exact less_one_append _ h
                · rw [if_neg hs]
                  exact ih _ (less_one_append _ h)
            · rw [if_neg hm]
              exact h
        · rw [if_neg hc]
          exact h

theorem config_users_less_one (S F : Int)
    (init_2_strings : List Char → Option (List Char))
    (getpwnam : List Char → Option passwd) (open_ok : Bool) (reads : List db_read) :
    ∀ eff ∈ (config_users S F init_2_strings getpwnam open_ok reads).trace,
      buflen_is_len_less_one eff := by
  unfold config_users
  split_ifs
  · exact config_users_loop_less_one S F init_2_strings getpwnam reads []
      (fun _ he => absurd he (List.not_mem_nil _))
  · exact fun _ he => absurd he (List.not_mem_nil _)

/-- C12, as the claim states it, fails: for the entry `alice::x` with uid and
gid 1000, `config_users` hands to the link a `CONFIG_USER` message with header
`buflen` 19 and passes 20 bytes to the send operation; and the reader hands to
the link an `INOTIFY_RESPONSE` with header `buflen` 0 and passes 271 bytes. -/
theorem c12_buflen_differs_from_bytes_sent :
    (config_users 0 1 first_field host_accounts true
        [read_ok ['a', 'l', 'i', 'c', 'e', ':', ':', 'x']]).trace.filterMap sent_sizes =
      [(19, 20)] ∧
    (reader_messages (read_inotify_event spec_sizes utf16_of_ascii true
        { notifyd_exist := 0, fd := 5,
          cifsd_notify_clients := [{ hash := 3, codepage := "utf8".toList, wd := 1 }],
          readers := 1 }
        [s6_event])).map (fun m => (m.hdr.buflen, m.len)) = [(0, 271)] := by
  decide

/-- C12, amended: for every message that `config_shares` hands to the link
(`CONFIG_SHARE`) and for every response that the pipe handlers hand to it
(`READ_PIPE_RSP`, `WRITE_PIPE_RSP`, `IOCTL_PIPE_RSP`, `LANMAN_PIPE_RSP`, the
collaborator returning a C `int`), the header `buflen` is the number of bytes
passed to the send operation; for every `CONFIG_USER` message of `config_users`
the number of bytes passed is `buflen` and one more, the terminating NUL. -/
theorem c12_buflen_and_bytes_sent (max_payload : Nat) (env : Env) (clients : Registry)
    (ev : kevent) (c : share_consts) (PAGE_SZ : Nat) (CIFS_SUCCESS CIFS_FAIL : Int)
    (tlws : List Char → List Char) (stat_errno : List Char → Option Int) (fuel : Nat)
    (last : flush_env) (cfg : share_config) (open_ok : Bool) (reads : List share_read)
    (init_2_strings : List Char → Option (List Char))
    (getpwnam : List Char → Option passwd) (db_open_ok : Bool) (db_reads : List db_read)
    (hrsp : env.process_rpc_rsp_ret < 4294967296)
    (hlan : env.handle_lanman_pipe_ret < 4294967296) :
    (∀ eff ∈ outcome_trace (request_handler max_payload env clients ev),
      buflen_is_len eff) ∧
    (∀ eff ∈ shares_trace (config_shares c PAGE_SZ CIFS_SUCCESS CIFS_FAIL tlws stat_errno fuel
        last cfg open_ok reads), buflen_is_len eff) ∧
    (∀ eff ∈ (config_users CIFS_SUCCESS CIFS_FAIL init_2_strings getpwnam db_open_ok
        db_reads).trace, buflen_is_len_less_one eff) :=
  ⟨request_handler_buflen max_payload env clients ev hrsp hlan,
    config_shares_buflen c PAGE_SZ CIFS_SUCCESS CIFS_FAIL tlws stat_errno fuel last cfg open_ok
      reads,
    config_users_less_one CIFS_SUCCESS CIFS_FAIL init_2_strings getpwnam db_open_ok db_reads⟩

theorem c12_buflen_and_bytes_sent_witness :
    (∀ eff ∈ outcome_trace (request_handler 4096 (env_ok 12)
        [{ hash := 1, pipelist := [{ pipe_type := 0, codepage := "utf8".toList,
                                     username := [] }] }]
        (kev msg_type.CIFSD_KEVENT_READ_PIPE 1 0)),
      buflen_is_len eff) ∧
    (∀ eff ∈ shares_trace (config_shares spec_consts 4096 0 1 id (fun _ => none) 1
        flush_ok cfg_zero true (file_reads flush_ok "  ".toList [s3_section])),
      buflen_is_len eff) ∧
    (∀ eff ∈ (config_users 0 1 first_field host_accounts true
        [read_ok ['a', 'l', 'i', 'c', 'e', ':', ':', 'x']]).trace,
      buflen_is_len_less_one eff) :=
  c12_buflen_and_bytes_sent 4096 (env_ok 12)
    [{ hash := 1, pipelist := [{ pipe_type := 0, codepage := "utf8".toList, username := [] }] }]
    (kev msg_type.CIFSD_KEVENT_READ_PIPE 1 0) spec_consts 4096 0 1 id (fun _ => none) 1
    flush_ok cfg_zero true (file_reads flush_ok "  ".toList [s3_section])
    first_field host_accounts true [read_ok ['a', 'l', 'i', 'c', 'e', ':', ':', 'x']]
    (by decide) (by decide)

/-! ## The registry under `lookup_pipe` (C19) -/

theorem lookup_pipe_of_new_client {clients : Registry} {h : Nat} (k : Nat)
    (hnew : has_client clients h = false) :
    lookup_pipe true clients h k =
      (({ hash := h, pipelist := [] } : cifsd_client_info) :: clients, none) := by
  unfold lookup_pipe
  rw [lookup_client_of_missing true (find_of_not_has_client hnew)]
  rfl

theorem lookup_pipe_of_known_client (a : Bool) {clients : Registry} {h : Nat} (k : Nat)
    (hc : has_client clients h = true) : (lookup_pipe a clients h k).1 = clients := by
  rw [lookup_pipe_clients]
  cases hf : clients.find? (fun c => c.hash == h) with
  | some c => rw [lookup_client_of_found a hf]
  | none =>
    have : has_client clients h = false := by
      rw [Bool.eq_false_iff]
      intro hh
      obtain ⟨c, hmem, hch⟩ := List.any_eq_true.1 hh
      exact List.find?_eq_none.1 hf c hmem hch
    rw [hc] at this
    cases this

/-- C19, as the claim states it, fails: a `WRITE_PIPE` for an unknown handle
leaves the registry empty when the allocation of the client record fails, and a
`READ_PIPE` for an unknown handle leaves it empty when the response buffer
cannot be allocated, since the handler then never calls `lookup_pipe`. -/
theorem c19_unknown_handle_without_new_client :
    outcome_clients (request_handler 4096 { env_ok 0 with client_ok := false } []
        (kev msg_type.CIFSD_KEVENT_WRITE_PIPE 1 0)) = some [] ∧
    outcome_clients (request_handler 4096 { env_ok 0 with buf_ok := false } []
        (kev msg_type.CIFSD_KEVENT_READ_PIPE 1 0)) = some [] := by
  decide

/-- C19, amended: `lookup_pipe` leaves every pipe of the registry as it is
and leaves the registry unchanged when the handle has a client record; when the
handle has none and the allocation of the record succeeds, it puts a new client
with that handle and no pipe at the front, so that a `WRITE_PIPE` or
`DESTROY_PIPE`, and a `READ_PIPE` or `IOCTL_PIPE` that passes its assertion and
gets its response buffer, for an unknown handle grows the registry by exactly
that record. -/
theorem c19_lookup_pipe_frame (max_payload : Nat) (env : Env) (clients : Registry)
    (ev : kevent)
    (hnew : has_client clients ev.server_handle = false)
    (hok : env.client_ok = true)
    (htype : ev.nlmsg_type = msg_type.CIFSD_KEVENT_READ_PIPE ∨
      ev.nlmsg_type = msg_type.CIFSD_KEVENT_WRITE_PIPE ∨
      ev.nlmsg_type = msg_type.CIFSD_KEVENT_IOCTL_PIPE ∨
      ev.nlmsg_type = msg_type.CIFSD_KEVENT_DESTROY_PIPE)
    (hreach : ev.nlmsg_type = msg_type.CIFSD_KEVENT_READ_PIPE ∨
        ev.nlmsg_type = msg_type.CIFSD_KEVENT_IOCTL_PIPE →
      env.buf_ok = true ∧ ev.out_buflen ≤ max_payload) :
    (∀ (a : Bool) (h k : Nat), all_pipes (lookup_pipe a clients h k).1 = all_pipes clients) ∧
    (∀ (a : Bool) (h k : Nat), has_client clients h = true →
      (lookup_pipe a clients h k).1 = clients) ∧
    (lookup_pipe true clients ev.server_handle ev.pipe_type).1 =
      ({ hash := ev.server_handle, pipelist := [] } : cifsd_client_info) :: clients ∧
    outcome_clients (request_handler max_payload env clients ev) =
      some (({ hash := ev.server_handle, pipelist := [] } : cifsd_client_info) :: clients) := by
  have hl := lookup_pipe_of_new_client ev.pipe_type hnew
  refine ⟨?_, ?_, ?_, ?_⟩
  · intro a h k
    rw [lookup_pipe_clients, all_pipes_lookup_client]
  · intro a h k hc
    exact lookup_pipe_of_known_client a k hc
  · rw [hl]
  · rcases htype with ht | ht | ht | ht
    · obtain ⟨hbuf, hassert⟩ := hreach (Or.inl ht)
      simp only [request_handler, ht, handle_read_pipe_event, hassert, if_true, hbuf, hok, hl,
        read_pipe_out, outcome_clients]
    · simp only [request_handler, ht, handle_write_pipe_event, hok, hl, write_pipe_out,
        outcome_clients]
    · obtain ⟨hbuf, hassert⟩ := hreach (Or.inr ht)
      simp only [request_handler, ht, handle_ioctl_pipe_event, hassert, if_true, hbuf, hok, hl,
        ioctl_pipe_out, outcome_clients]
    · simp only [request_handler, ht, handle_remove_pipe_event, cifsd_remove_pipe, hok, hl,
        outcome_clients]

theorem c19_lookup_pipe_frame_witness :
    (∀ (a : Bool) (h k : Nat),
      all_pipes (lookup_pipe a [{ hash := 7, pipelist := [] }] h k).1 =
        all_pipes [{ hash := 7, pipelist := [] }]) ∧
    (∀ (a : Bool) (h k : Nat), has_client [{ hash := 7, pipelist := [] }] h = true →
      (lookup_pipe a [{ hash := 7, pipelist := [] }] h k).1 = [{ hash := 7, pipelist := [] }]) ∧
    (lookup_pipe true [{ hash := 7, pipelist := [] }]
        (kev msg_type.CIFSD_KEVENT_READ_PIPE 1 0).server_handle
        (kev msg_type.CIFSD_KEVENT_READ_PIPE 1 0).pipe_type).1 =
      ({ hash := (kev msg_type.CIFSD_KEVENT_READ_PIPE 1 0).server_handle, pipelist := [] } :
        cifsd_client_info) :: [{ hash := 7, pipelist := [] }] ∧
    outcome_clients (request_handler 4096 (env_ok 0) [{ hash := 7, pipelist := [] }]
        (kev msg_type.CIFSD_KEVENT_READ_PIPE 1 0)) =
      some (({ hash := (kev msg_type.CIFSD_KEVENT_READ_PIPE 1 0).server_handle,
               pipelist := [] } : cifsd_client_info) :: [{ hash := 7, pipelist := [] }]) :=
  c19_lookup_pipe_frame 4096 (env_ok 0) [{ hash := 7, pipelist := [] }]
    (kev msg_type.CIFSD_KEVENT_READ_PIPE 1 0) (by decide) (by decide) (by decide)
    (fun _ => ⟨by decide, by decide⟩)


end Cifsd
